import Mathlib


/-!
Verification of the hop-chained SSH shutdown orchestrator
(`src/shutdown-bot.py`) against its natural-language specification.

The embedding is shallow.  Pure helpers (`classify_failure`, the output
parsing inside `diagnose_on_remote`, `_resolve_password`) are translated
directly into Lean functions.  Effectful code is modelled by explicit
oracles: an SSH session is a function answering each remote command
execution (`DiagSession`), the reachability probe of the wait loop is a
function of (discrete) time, and the whole run of `main` is interpreted
against a `World` oracle that answers, per call index, every external
call (`connect_host` + channel open, `diagnose_on_remote`,
`wait_for_host_down_via_transport`, and the exit status of the remote
power-off command).  The interpreter produces the sequence of observable
events of the run (connections, diagnoses, appended issues, shutdown
invocations, confirmation waits, session closes), over which the
temporal claims are stated.

Time is modelled in whole seconds: a probe is instantaneous and
`time.sleep(interval)` advances the clock by exactly `interval`, the
idealisation the specification itself uses for the wait-loop bounds.
-/

/--
The dynamic type of a caught Python exception, as far as
`classify_failure` distinguishes it.  `paramiko`'s specific exception
classes are subclasses of `SSHException`; the `isinstance` chain of
`classify_failure` tests the specific classes first, so each constructor
stands for "the most specific branch this exception matches".
`otherError` covers every non-`SSHException` exception (for example
`socket.timeout` raised by a timed-out remote command).  The payload is
`str(e)`.
-/
inductive PyError where
  | authenticationException (msg : String)
  | badHostKeyException (msg : String)
  | channelException (msg : String)
  | sshException (msg : String)
  | otherError (msg : String)
deriving DecidableEq, Repr


/-- `str(e)` of a caught exception. -/
def PyError.msg : PyError → String
  | .authenticationException m => m
  | .badHostKeyException m => m
  | .channelException m => m
  | .sshException m => m
  | .otherError m => m


/--
The `result` dict built by `diagnose_on_remote`:
`{"dns_ok": None, "dns_ips": [], "tcp_ok": None, "tcp_method": None, "notes": []}`.
`none` stands for Python `None`, `some b` for a filled-in boolean.
-/
structure Diag where
  dns_ok : Option Bool
  dns_ips : List String
  tcp_ok : Option Bool
  tcp_method : Option String
  notes : List String
deriving DecidableEq, Repr


/--
`classify_failure(exc, diag)` — the failure classifier (lines 264-279).
Returns the `(reason, hint)` pair.  The `if diag:` truthiness test of the
Python code is modelled by `Option Diag`: `diagnose_on_remote` always
returns a non-empty dict, so a present dict is truthy.
-/
def classify_failure (exc : PyError) (diag : Option Diag) : String × String :=
  match exc with
  | .authenticationException _ =>
      ("認証失敗", "ユーザー名/パスワード（または鍵）を確認してください")
  | .badHostKeyException _ =>
      ("ホスト鍵不一致", "known_hostsの該当エントリ削除や鍵の更新を検討してください")
  | .channelException _ =>
      match diag with
      | some d =>
          if d.dns_ok = some false then
            ("名前解決失敗", "DNSや /etc/hosts の設定を見直してください（workstation側）")
          else if d.tcp_ok = some false then
            ("TCP到達不可", "FW/ルーティング/ポート閉塞の可能性（workstation→対象:22）")
          else
            ("チャネル接続失敗", "対象ホストがダウン/到達不能の可能性")
      | none => ("チャネル接続失敗", "対象ホストがダウン/到達不能の可能性")
  | .sshException _ => ("SSH例外", "ネットワークやSSH設定を確認してください")
  | .otherError m => ("不明エラー", m)


/-- Is the exception a channel/tunnel failure (`ChannelException`)? -/
def PyError.isChannel : PyError → Bool
  | .channelException _ => true
  | _ => false


/-!
 ## Reachability prober and confirmation wait (lines 170-210)

`is_ssh_reachable_via_transport` opens a forwarded channel and treats any
failure as "unreachable"; its outcome at a given poll instant is the
oracle `reach : Nat → Bool` (`reach t = true` means the host answered the
probe made at second `t`).  `wait_for_host_down_via_transport` is the
poll loop; it returns the Python boolean result together with the elapsed
time (in seconds) at which it returned.
-/

/--
The `while time.time() < deadline` loop of
`wait_for_host_down_via_transport`: at time `t`, if the deadline has
passed return `(false, t)`; otherwise probe, return `(true, t)` on
"unreachable", else sleep `max 1 ivl` seconds and continue.  The `fuel`
argument only makes the recursion structural: each iteration advances
the clock by at least one second, so calling with `fuel = deadline`
(as `wait_for_host_down_via_transport` does) never exhausts it before
`t ≥ deadline`, and the fuel-out branch coincides with the deadline
branch of the source loop.
-/
def waitLoop (reach : Nat → Bool) (deadline ivl : Nat) :
    Nat → Nat → Bool × Nat
  | 0, t => (false, t)
  | fuel + 1, t =>
      if t < deadline then
        if reach t then waitLoop reach deadline ivl fuel (t + max 1 ivl)
        else (true, t)
      else (false, t)


/--
`wait_for_host_down_via_transport(transport, host, port, timeout_sec,
poll_interval)` (lines 186-210).  `interval = max(1, poll_interval)` is
the clamp of line 190.  Result: `(returned value, elapsed seconds)`.
-/
def wait_for_host_down_via_transport (reach : Nat → Bool)
    (timeout_sec poll_interval : Nat) : Bool × Nat :=
  waitLoop reach timeout_sec poll_interval timeout_sec 0


/-!
 ## Remote diagnostic engine (lines 215-262)

An established session is modelled as an oracle answering each remote
command execution: `exec k cmd` is the outcome of the `k`-th
`_run(ws_client, cmd)` call of this diagnosis (`.error e` when
`exec_command`/stream reading raises, `.ok (rc, stdout, stderr)`
otherwise).
-/

/-- A paramiko `SSHClient` as seen by `_run`: per-call command outcomes. -/
structure DiagSession where
  exec : Nat → String → Except PyError (Int × String × String)


/-- `NC_TIMEOUT` default (line 109). -/
def NC_TIMEOUT : Nat := 3


/-- The three name-resolution probe commands (lines 226-231). -/
def dnsCmds (target_host : String) : List String :=
  [ "getent hosts " ++ target_host,
    "getent ahosts " ++ target_host,
    "nslookup " ++ target_host ++
      " 2>/dev/null | awk \x27/^Address[[:space:]]*:/\x7bprint $2\x7d\x27" ]


/-- The `nc` TCP probe command (line 249). -/
def ncCmd (target_host : String) (port : Nat) : String :=
  "command -v nc >/dev/null 2>&1 && nc -zw" ++ toString NC_TIMEOUT ++ " " ++
    target_host ++ " " ++ toString port ++ " && echo OK || echo NG"


/-- The `/dev/tcp` fallback TCP probe command (line 255). -/
def devTcpCmd (target_host : String) (port : Nat) : String :=
  "bash -lc \x27exec 3<>/dev/tcp/" ++ target_host ++ "/" ++ toString port ++
    " && echo OK || echo NG\x27"


/-!
The string manipulation of the Python code is modelled at the character
level (`String.data`), because the built-in `String` operations do not
reduce inside the kernel; the definitions below mirror the Python string
methods used by the source.
-/

/-- Split a character list at every character satisfying `p`, keeping
empty segments (the common behaviour of `str.split(sep)` and
`str.splitlines` for our inputs). -/
def splitPred (p : Char → Bool) : List Char → List (List Char)
  | [] => [[]]
  | c :: rest =>
      match splitPred p rest with
      | [] => [[]]
      | g :: gs => if p c then [] :: g :: gs else (c :: g) :: gs


/-- Is `pat` a prefix of `l`? -/
def isPrefixB : List Char → List Char → Bool
  | [], _ => true
  | _ :: _, [] => false
  | p :: ps, c :: cs => p == c && isPrefixB ps cs


/-- Does `l` contain `pat` as a contiguous substring? -/
def containsSub (pat : List Char) : List Char → Bool
  | [] => pat.isEmpty
  | c :: cs => isPrefixB pat (c :: cs) || containsSub pat cs


/-- Python `pat in s` substring test. -/
def containsStr (s pat : String) : Bool := containsSub pat.data s.data


/-- Python `s.strip()`: remove leading and trailing whitespace. -/
def pythonStrip (s : String) : String :=
  ⟨((s.data.dropWhile Char.isWhitespace).reverse.dropWhile
      Char.isWhitespace).reverse⟩


/--
The token filter of lines 236-240: a token is kept when
`tok.replace('.', '').isdigit()` (note `''.isdigit()` is `False`) or it
contains `':'`.
-/
def isIPToken (tok : String) : Bool :=
  (let d := tok.data.filter (fun c => !(c == '.'))
   !d.isEmpty && d.all Char.isDigit) || tok.data.contains ':'


/-- `line.strip().split()` — whitespace split dropping empty pieces
(stripping first changes nothing once empty pieces are dropped). -/
def lineTokens (line : List Char) : List String :=
  ((splitPred Char.isWhitespace line).filter (fun t => !t.isEmpty)).map
    (fun t => ⟨t⟩)


/-- Tokens of all lines of a command output that look like addresses
(lines 234-240). -/
def parseIPs (out : String) : List String :=
  ((splitPred (fun c => c == '\n') out.data).flatMap lineTokens).filter
    isIPToken


/-- `list(dict.fromkeys(ips))` — dedup keeping the first occurrence. -/
def uniqueKeepFirst (l : List String) : List String :=
  l.foldl (fun acc x => if x ∈ acc then acc else acc ++ [x]) []


/--
The DNS loop of `diagnose_on_remote` (lines 232-244): run the resolution
commands in order; the first one whose stripped output yields parseable
addresses wins.  Returns the next call index together with
`some addresses` on success, `none` when no command yielded any.
A raised `_run` propagates (the Python loop has no handler).
-/
def dnsTry (s : DiagSession) : List String → Nat →
    Except PyError (Nat × Option (List String))
  | [], k => .ok (k, none)
  | c :: rest, k => do
      let r ← s.exec k c
      let out := r.2.1
      if pythonStrip out != "" then
        let ips := parseIPs out
        if ips != [] then .ok (k + 1, some (uniqueKeepFirst ips))
        else dnsTry s rest (k + 1)
      else dnsTry s rest (k + 1)


/--
`diagnose_on_remote(ws_client, target_host, port)` (lines 222-262).
`.error e` is a propagated exception from one of the `_run` calls
(the Python function has no try/except of its own).
-/
def diagnose_on_remote (s : DiagSession) (target_host : String)
    (port : Nat) : Except PyError Diag := do
  let dres ← dnsTry s (dnsCmds target_host) 0
  let k := dres.1
  let dns_ok : Option Bool := some dres.2.isSome
  let dns_ips : List String := dres.2.getD []
  let notes : List String :=
    if dres.2.isSome then [] else ["DNS解決に失敗（workstation側）"]
  let r1 ← s.exec k (ncCmd target_host port)
  if containsStr r1.2.1 "OK" then
    .ok ⟨dns_ok, dns_ips, some true, some "nc", notes⟩
  else do
    let r2 ← s.exec (k + 1) (devTcpCmd target_host port)
    if containsStr r2.2.1 "OK" then
      .ok ⟨dns_ok, dns_ips, some true, some "/dev/tcp", notes⟩
    else
      .ok ⟨dns_ok, dns_ips, some false, some "nc|/dev/tcp", notes⟩


/-!
 ## Data model of `main` (lines 78-94 and 384-592)

`Gateway` and `Fleet` are the two configuration dataclasses.  `Args` is
the part of the CLI surface that affects orchestration (`--dry-run`,
`--non-strict`); the per-node timeout and poll interval only parametrise
the confirmation wait, which the run-level model absorbs into the
`World.waitDown` oracle.
-/

/-- The `Gateway` dataclass (lines 78-85). -/
structure Gateway where
  host : String
  user : String
  pkey_path : String
  port : Nat
  needs_sudo_password : Bool
  sudo_user : Option String
deriving DecidableEq, Repr


/-- The `Fleet` dataclass (lines 87-94). -/
structure Fleet where
  name : String
  user : String
  password : Option String
  nodes : List String
  port : Nat
  needs_sudo_password : Bool
deriving DecidableEq, Repr


/-- Orchestration-relevant CLI flags. -/
structure Args where
  dryRun : Bool
  nonStrict : Bool
deriving DecidableEq, Repr


/--
Per-kind call counters threaded through the run: `kc` counts
`connect_host` calls (the channel open of `open_direct_tcpip_channel`
is merged into the connect it feeds — both live in one `try` and any
exception of either is the single caught exception), `kd` counts
`diagnose_on_remote` calls, `kw` counts
`wait_for_host_down_via_transport` calls, `ks` counts remote power-off
command executions (live mode only).
-/
structure Ctrs where
  kc : Nat
  kd : Nat
  kw : Nat
  ks : Nat
deriving DecidableEq, Repr


/-- Identity of an SSH session opened during the run, by position in the
run plan: the gateway session, the session to the `i`-th fleet host, or
the session to node `j` of the `i`-th fleet. -/
inductive Sess where
  | gateway
  | fleet (i : Nat) (name : String)
  | node (i j : Nat) (name : String)
deriving DecidableEq, Repr


/-- The three program points at which `main` calls `diagnose_on_remote`:
after a fleet connect failure (line 483), the advisory node pre-check
(line 501), and after a node connect failure (line 511). -/
inductive DiagSite where
  | fleetFail
  | precheck
  | nodeFail
deriving DecidableEq, Repr


/-- One element of the `issues` list (the dicts appended at lines
485-487, 505-506 and 513-514). -/
structure Issue where
  stage : String
  via : String
  target : String
  reason : String
  hint : String
  diag : Option Diag
  error : String
deriving DecidableEq, Repr


/--
Observable events of a run, in program order.  `connectAttempt` marks
entry into a `connect_host` call for the given session, followed by
`connected` or `connectFailed`.  `diagEv site fi j target ok` marks a
`diagnose_on_remote` invocation returning (`ok = true`) or raising
(`ok = false`); for `site = .fleetFail` the `j` component is `0` and
meaningless.  `issueEv` is an `issues.append`.  `shutdownCall` is an
invocation of `shutdown_host` (which in dry-run only logs);
`powerOffSent` is the remote execution of the power-off command
completing with an exit status, and `powerOffRaised` is that execution
raising somewhere between `exec_command` and collecting the status
(`run_remote_command` has no handler, so the exception propagates out
of `shutdown_host`).  `waitDownEv` is a completed confirmation wait
with its boolean result.  `protectiveSkip` is the protective skip log of
line 542.  `closeSession` is an `SSH.close`.  `fatalGw` is the fatal
gateway-connect report of line 438.
-/
inductive Ev where
  | connectAttempt (s : Sess)
  | connected (s : Sess)
  | connectFailed (s : Sess) (e : PyError)
  | diagEv (site : DiagSite) (fi j : Nat) (target : String) (ok : Bool)
  | issueEv (i : Issue)
  | shutdownCall (s : Sess) (tag : String) (dryRun : Bool)
  | powerOffSent (s : Sess) (tag : String) (exitCode : Int)
  | powerOffRaised (s : Sess) (tag : String) (e : PyError)
  | waitDownEv (fi : Nat) (node : String) (ok : Bool)
  | protectiveSkip (fi : Nat) (name : String)
  | closeSession (s : Sess)
  | fatalGw (reason hint : String)
deriving DecidableEq, Repr


/--
The environment of a run: one response per external call, indexed by the
per-kind call counter, so any concrete execution of the script is
represented by some `World`.  `connect k h` answers the `k`-th
`connect_host` call (destination host `h`); `diagnose k via t` answers
the `k`-th `diagnose_on_remote` call (run on session `via` against
target `t`) with the returned dict or the propagated exception;
`waitDown k h` answers the `k`-th confirmation wait; `shutdownExit k h`
is the outcome of the `k`-th live power-off execution
(`run_remote_command`): `.ok status` when it returns an exit status,
`.error e` when it raises (`exec_command`, the sudo-password write to
its stdin, or the stream reads can all raise, and `run_remote_command`
has no handler).
-/
structure World where
  connect : Nat → String → Except PyError Unit
  diagnose : Nat → Sess → String → Except PyError Diag
  waitDown : Nat → String → Bool
  shutdownExit : Nat → String → Except PyError Int


/--
`shutdown_host(tag, client, ...)` (lines 306-318) as the events it
emits on session `s`, paired with the exception it propagates (if any):
it is always invoked (one `shutdownCall`), and in live mode it
additionally executes the power-off command remotely via
`run_remote_command` (lines 284-304).  When that execution returns, its
exit status is recorded (`powerOffSent`; a non-zero status only logs a
warning).  When it raises — `exec_command`, the sudo-password
`stdin.write`, or the stream reads, none of which sit under a handler —
the exception propagates out of `shutdown_host` (`powerOffRaised`
event, second component `some e`); no call site (lines 521, 544, 557)
has an `except` handler, only `finally` blocks.
-/
def shutdown_host (s : Sess) (tag : String) (dry_run : Bool)
    (res : Except PyError Int) : List Ev × Option PyError :=
  if dry_run then ([Ev.shutdownCall s tag true], none)
  else
    match res with
    | .ok code => ([Ev.shutdownCall s tag false, Ev.powerOffSent s tag code], none)
    | .error e => ([Ev.shutdownCall s tag false, Ev.powerOffRaised s tag e], some e)


/-- Result of processing one node (or a prefix of a node list). -/
structure NodeOut where
  evs : List Ev
  c : Ctrs
  ps : Bool
  exc : Option PyError
deriving Repr


/--
The `except Exception as e:` handler of the node loop (lines 510-519):
diagnose the node via the fleet session (an exception raised *here*
propagates out of the node loop — there is no further handler), classify,
append a stage-`"node"` issue, and in live strict mode mark the fleet
for a protective skip.
-/
def nodeFailHandler (w : World) (args : Args) (fi j : Nat)
    (fname node : String) (e : PyError) (evs0 : List Ev) (c : Ctrs)
    (ps : Bool) : NodeOut :=
  match w.diagnose c.kd (Sess.fleet fi fname) node with
  | .error e2 =>
      ⟨evs0 ++ [Ev.diagEv .nodeFail fi j node false],
        ⟨c.kc, c.kd + 1, c.kw, c.ks⟩, ps, some e2⟩
  | .ok diag =>
      let rh := classify_failure e (some diag)
      let iss : Issue := ⟨"node", fname, node, rh.1, rh.2, some diag, e.msg⟩
      let ps' := if !args.dryRun && !args.nonStrict then true else ps
      ⟨evs0 ++ [Ev.diagEv .nodeFail fi j node true, Ev.issueEv iss],
        ⟨c.kc, c.kd + 1, c.kw, c.ks⟩, ps', none⟩


/--
The body of `for node in f.nodes:` (lines 496-538) for node `j` of
fleet `fi`: advisory pre-check diagnosis (a warning issue when it
reports DNS or TCP failure; its own exception falls into the same
handler as a connect failure, skipping the connect), then the hop to the
node; on success `shutdown_host`, then — in the `finally`, which runs
also when `shutdown_host` raised — close the node session and, unless
dry-run, run the confirmation wait, marking `parent_skip` in strict
mode when it times out; after the `finally`, an exception raised by
`shutdown_host` propagates out of the node body (no `except` handler
at line 521).
-/
def processNode (w : World) (args : Args) (fi : Nat) (fname : String)
    (j : Nat) (node : String) (c : Ctrs) (ps : Bool) : NodeOut :=
  match w.diagnose c.kd (Sess.fleet fi fname) node with
  | .error e =>
      nodeFailHandler w args fi j fname node e
        [Ev.diagEv .precheck fi j node false]
        ⟨c.kc, c.kd + 1, c.kw, c.ks⟩ ps
  | .ok pre =>
      let preEvs : List Ev :=
        if pre.dns_ok = some false || pre.tcp_ok = some false then
          let reason :=
            if pre.dns_ok = some false then "名前解決失敗" else "TCP到達不可"
          let hint :=
            if pre.dns_ok = some false then "DNSや /etc/hosts を確認"
            else "FW/ルーティング/ポートを確認"
          [Ev.diagEv .precheck fi j node true,
            Ev.issueEv ⟨"node(precheck)", fname, node, reason, hint, some pre, ""⟩]
        else [Ev.diagEv .precheck fi j node true]
      let c1 : Ctrs := ⟨c.kc, c.kd + 1, c.kw, c.ks⟩
      let sess : Sess := .node fi j node
      match w.connect c1.kc node with
      | .error e =>
          nodeFailHandler w args fi j fname node e
            (preEvs ++ [Ev.connectAttempt sess, Ev.connectFailed sess e])
            ⟨c1.kc + 1, c1.kd, c1.kw, c1.ks⟩ ps
      | .ok _ =>
          let c2 : Ctrs := ⟨c1.kc + 1, c1.kd, c1.kw, c1.ks⟩
          if args.dryRun then
            ⟨preEvs ++ [Ev.connectAttempt sess, Ev.connected sess] ++
              (shutdown_host sess node true (Except.ok 0)).1 ++
              [Ev.closeSession sess], c2, ps, none⟩
          else
            let sh := shutdown_host sess node false (w.shutdownExit c2.ks node)
            let c3 : Ctrs := ⟨c2.kc, c2.kd, c2.kw, c2.ks + 1⟩
            let ok := w.waitDown c3.kw node
            let ps' := if !ok && !args.nonStrict then true else ps
            ⟨preEvs ++ [Ev.connectAttempt sess, Ev.connected sess] ++
              sh.1 ++ [Ev.closeSession sess, Ev.waitDownEv fi node ok],
              ⟨c3.kc, c3.kd, c3.kw + 1, c3.ks⟩, ps', sh.2⟩


/--
The node loop of fleet `fi` starting at node index `j`: sequential
processing, stopping early only when an uncaught exception propagates
out of a node body.
-/
def processNodes (w : World) (args : Args) (fi : Nat) (fname : String) :
    List String → Nat → Ctrs → Bool → NodeOut
  | [], _, c, ps => ⟨[], c, ps, none⟩
  | n :: rest, j, c, ps =>
      let o := processNode w args fi fname j n c ps
      match o.exc with
      | some e => ⟨o.evs, o.c, o.ps, some e⟩
      | none =>
          let r := processNodes w args fi fname rest (j + 1) o.c o.ps
          ⟨o.evs ++ r.evs, r.c, r.ps, r.exc⟩


/-- Result of processing one fleet (or a suffix of the fleet list). -/
structure FleetOut where
  evs : List Ev
  c : Ctrs
  exc : Option PyError
deriving Repr


/--
The body of `for f in fleets:` (lines 474-552) for fleet `fi`: hop
through the gateway to the fleet host; on connect failure diagnose via
the gateway session (an exception raised by that diagnosis propagates),
classify, append a stage-`"workstation"` issue and move to the next
fleet; on success run the node loop, then — unless `parent_skip` is set,
in which case only the protective-skip log is emitted — shut down the
fleet host (in live mode this execution itself can raise, there is no
`except` handler at line 544), and close the fleet session in the
`finally` (also when an exception is propagating out of the node loop
or out of the fleet-host `shutdown_host`).
-/
def processFleet (w : World) (args : Args) (fi : Nat) (f : Fleet)
    (c : Ctrs) : FleetOut :=
  let fs : Sess := .fleet fi f.name
  match w.connect c.kc f.name with
  | .error e =>
      let evs0 := [Ev.connectAttempt fs, Ev.connectFailed fs e]
      let c1 : Ctrs := ⟨c.kc + 1, c.kd, c.kw, c.ks⟩
      match w.diagnose c1.kd Sess.gateway f.name with
      | .error e2 =>
          ⟨evs0 ++ [Ev.diagEv .fleetFail fi 0 f.name false],
            ⟨c1.kc, c1.kd + 1, c1.kw, c1.ks⟩, some e2⟩
      | .ok diag =>
          let rh := classify_failure e (some diag)
          let iss : Issue :=
            ⟨"workstation", "triton", f.name, rh.1, rh.2, some diag, e.msg⟩
          ⟨evs0 ++ [Ev.diagEv .fleetFail fi 0 f.name true, Ev.issueEv iss],
            ⟨c1.kc, c1.kd + 1, c1.kw, c1.ks⟩, none⟩
  | .ok _ =>
      let c1 : Ctrs := ⟨c.kc + 1, c.kd, c.kw, c.ks⟩
      let r := processNodes w args fi f.name f.nodes 0 c1 false
      match r.exc with
      | some e =>
          ⟨[Ev.connectAttempt fs, Ev.connected fs] ++ r.evs ++
            [Ev.closeSession fs], r.c, some e⟩
      | none =>
          if r.ps then
            ⟨[Ev.connectAttempt fs, Ev.connected fs] ++ r.evs ++
              [Ev.protectiveSkip fi f.name] ++ [Ev.closeSession fs],
              r.c, none⟩
          else if args.dryRun then
            ⟨[Ev.connectAttempt fs, Ev.connected fs] ++ r.evs ++
              (shutdown_host fs f.name true (Except.ok 0)).1 ++
              [Ev.closeSession fs], r.c, none⟩
          else
            let sh := shutdown_host fs f.name false (w.shutdownExit r.c.ks f.name)
            ⟨[Ev.connectAttempt fs, Ev.connected fs] ++ r.evs ++ sh.1 ++
              [Ev.closeSession fs],
              ⟨r.c.kc, r.c.kd, r.c.kw, r.c.ks + 1⟩, sh.2⟩


/-- The fleet loop, fleets processed in configuration order with their
index, stopping early only on a propagating exception. -/
def runFleets (w : World) (args : Args) :
    List Fleet → Nat → Ctrs → FleetOut
  | [], _, c => ⟨[], c, none⟩
  | f :: rest, i, c =>
      let o := processFleet w args i f c
      match o.exc with
      | some e => ⟨o.evs, o.c, some e⟩
      | none =>
          let r := runFleets w args rest (i + 1) o.c
          ⟨o.evs ++ r.evs, r.c, r.exc⟩


/-- How a run of `main` ends. -/
inductive Outcome where
  | completed
  | fatalGateway (reason hint : String)
  | crashed (msg : String)
  | configError (msg : String)
deriving DecidableEq, Repr


/--
The orchestration part of `main` (lines 430-592), after the credentials
have been resolved: connect to the gateway (fatal, classified report and
return on failure); process every fleet; shut down the gateway; in the
outer `finally` — on the normal path and also when an exception is
propagating out of the fleet loop or out of the gateway `shutdown_host`
(line 557, no `except` handler) — close the gateway session and emit
the issue report; a propagating exception then crashes the run.  The
hard-coded gateway tag of the source is the string `"triton"`.
-/
def runMain (w : World) (gw : Gateway) (fleets : List Fleet)
    (args : Args) : List Ev × Outcome :=
  match w.connect 0 gw.host with
  | .error e =>
      let rh := classify_failure e none
      ([Ev.connectAttempt .gateway, Ev.connectFailed .gateway e,
        Ev.fatalGw rh.1 rh.2], .fatalGateway rh.1 rh.2)
  | .ok _ =>
      let pre := [Ev.connectAttempt .gateway, Ev.connected .gateway]
      let r := runFleets w args fleets 0 ⟨1, 0, 0, 0⟩
      match r.exc with
      | some e =>
          (pre ++ r.evs ++ [Ev.closeSession .gateway], .crashed e.msg)
      | none =>
          let sh := shutdown_host .gateway "triton" args.dryRun
            (w.shutdownExit r.c.ks "triton")
          (pre ++ r.evs ++ sh.1 ++ [Ev.closeSession .gateway],
            match sh.2 with
            | some e => .crashed e.msg
            | none => .completed)


/-!
 ## Credential resolution and `main` (lines 323-337 and 400-411)

`_resolve_password` consults, besides its `value` argument, an
interactive prompt (`getpass.getpass`), the process environment and the
filesystem; these are the oracles `prompt`, `env` and `fileRead`
(reads of existing files are modelled as succeeding).  Only an unset
environment variable makes it raise (`RuntimeError`, line 331), which
propagates out of `main` uncaught.
-/

/-- `_resolve_password(value, prompt_label)` (lines 323-337).
`promptAnswer` is what `getpass.getpass(prompt_label)` would return. -/
def resolve_password (env : String → Option String)
    (fileRead : String → String) (promptAnswer : String)
    (value : Option String) (prompt_label : String) : Except String String :=
  match value with
  | none => .ok promptAnswer
  | some v =>
      if isPrefixB "env:".data v.data then
        let env_key : String := ⟨v.data.drop 4⟩
        match env env_key with
        | none =>
            .error ("環境変数 " ++ env_key ++ " が未設定です（" ++
              prompt_label ++ "）")
        | some s => .ok s
      else if isPrefixB "file:".data v.data then
        .ok (pythonStrip (fileRead ⟨v.data.drop 5⟩))
      else .ok v


/-- The prompt label used for fleet `f` (line 407). -/
def pwPromptLabel (f : Fleet) : String :=
  "[" ++ f.name ++ "] のログイン/ sudo 用パスワード: "


/--
The password-collection loop of lines 405-407: resolve every fleet's
credential, in configuration order, before anything else; the first
failure propagates (aborting `main`).
-/
def resolveFleetPasswords (env : String → Option String)
    (fileRead : String → String) (prompt : String → String) :
    List Fleet → Except String (List (String × String))
  | [] => .ok []
  | f :: rest => do
      let pw ← resolve_password env fileRead (prompt (pwPromptLabel f))
        f.password (pwPromptLabel f)
      let prest ← resolveFleetPasswords env fileRead prompt rest
      .ok ((f.name, pw) :: prest)


/--
`main()` (lines 384-592) as far as orchestration is concerned: resolve
all fleet credentials up front — an unresolvable credential aborts the
run before any connection is attempted (empty event trace) — then run
the gateway/fleet/node orchestration.  The resolved passwords feed the
subsequent authentication attempts, whose outcomes the `World` oracle
answers, so `runMain` does not consume them directly.
-/
def mainRun (w : World) (env : String → Option String)
    (fileRead : String → String) (prompt : String → String)
    (gw : Gateway) (fleets : List Fleet) (args : Args) :
    List Ev × Outcome :=
  match resolveFleetPasswords env fileRead prompt fleets with
  | .error msg => ([], .configError msg)
  | .ok _ => runMain w gw fleets args


/-!
 ## Claim C5 — the diagnostic engine never raises (corrected)

The claim fails as stated: `_run` is `ws_client.exec_command(...)` plus
stream reads with no try/except anywhere in `diagnose_on_remote`, so a
transport-level exception from executing a probe command (dead session,
command timeout) propagates to the caller.  What holds is the version
restricted to sessions on which every probe command execution returns.
-/

/-- A session whose command executions raise (e.g. the underlying
transport is gone): `exec_command` raises `SSHException`. -/
def deadSession : DiagSession :=
  ⟨fun _ _ => .error (.sshException "SSH session not active")⟩


/-- A live session on which every probe command runs but helps nothing:
exit status 1, empty stdout and stderr — an unresolvable host and an
unreachable port as seen from the hop. -/
def unhelpfulSession : DiagSession := ⟨fun _ _ => .ok (1, "", "")⟩


/-!
 ## Event-location infrastructure for the orchestrator claims

`nodeEvOk fi j node` constrains every event that the processing of node
`j` of fleet `fi` can emit; the per-level lemmas below push it (and the
corresponding fleet- and run-level constraints) through the loops, which
is what lets a trace membership hypothesis be located to the unique
program point that can have produced it.
-/

/-- Constraints satisfied by every event emitted while processing node
`j` (named `node`) of fleet `fi`. -/
def nodeEvOk (fi j : Nat) (node : String) : Ev → Prop
  | .connectAttempt s => s = .node fi j node
  | .connected s => s = .node fi j node
  | .connectFailed s _ => s = .node fi j node
  | .closeSession s => s = .node fi j node
  | .shutdownCall s _ _ => s = .node fi j node
  | .powerOffSent s _ _ => s = .node fi j node
  | .powerOffRaised s _ _ => s = .node fi j node
  | .diagEv site fi' j' t _ =>
      fi' = fi ∧ j' = j ∧ t = node ∧ (site = .precheck ∨ site = .nodeFail)
  | .issueEv iss =>
      (iss.stage = "node(precheck)" ∨ iss.stage = "node") ∧ iss.target = node
  | .waitDownEv fi' n _ => fi' = fi ∧ n = node
  | .protectiveSkip _ _ => False
  | .fatalGw _ _ => False


/-- Events that only the shutdown-issuing / confirmation side of a run
produces (the part dry-run suppresses or alters). -/
def isShutdownRelated : Ev → Bool
  | .shutdownCall _ _ _ => true
  | .powerOffSent _ _ _ => true
  | .powerOffRaised _ _ _ => true
  | .waitDownEv _ _ _ => true
  | .protectiveSkip _ _ => true
  | _ => false


/-- The connection/diagnosis/issue/close part of a trace — everything a
dry run must reproduce exactly. -/
def obsEvs (evs : List Ev) : List Ev :=
  evs.filter (fun ev => !isShutdownRelated ev)


/-- Constraints satisfied by every event emitted while processing fleet
`fi` (named `fname`). -/
def fleetEvOk (fi : Nat) (fname : String) : Ev → Prop
  | .connectAttempt s => s = .fleet fi fname ∨ ∃ j n, s = .node fi j n
  | .connected s => s = .fleet fi fname ∨ ∃ j n, s = .node fi j n
  | .connectFailed s _ => s = .fleet fi fname ∨ ∃ j n, s = .node fi j n
  | .closeSession s => s = .fleet fi fname ∨ ∃ j n, s = .node fi j n
  | .shutdownCall s _ _ => s = .fleet fi fname ∨ ∃ j n, s = .node fi j n
  | .powerOffSent s _ _ => s = .fleet fi fname ∨ ∃ j n, s = .node fi j n
  | .powerOffRaised s _ _ => s = .fleet fi fname ∨ ∃ j n, s = .node fi j n
  | .diagEv _ fi' _ _ _ => fi' = fi
  | .issueEv iss =>
      iss.stage = "workstation" ∨ iss.stage = "node(precheck)" ∨
        iss.stage = "node"
  | .waitDownEv fi' _ _ => fi' = fi
  | .protectiveSkip fi' nm => fi' = fi ∧ nm = fname
  | .fatalGw _ _ => False


/-- Is this event part of processing some fleet (as opposed to the
gateway preamble, the final gateway shutdown, or the fatal report)? -/
def isFleetEv : Ev → Bool
  | .connectAttempt s => !(s = Sess.gateway)
  | .connected s => !(s = Sess.gateway)
  | .connectFailed s _ => !(s = Sess.gateway)
  | .closeSession s => !(s = Sess.gateway)
  | .shutdownCall s _ _ => !(s = Sess.gateway)
  | .powerOffSent s _ _ => !(s = Sess.gateway)
  | .powerOffRaised s _ _ => !(s = Sess.gateway)
  | .diagEv _ _ _ _ _ => true
  | .issueEv _ => true
  | .waitDownEv _ _ _ => true
  | .protectiveSkip _ _ => true
  | .fatalGw _ _ => false


/-- Is this event an `issues.append`? -/
def isIssueEv : Ev → Bool
  | .issueEv _ => true
  | _ => false


/-- The gateway of the worked examples: the source's hard-coded tag. -/
def gwT : Gateway := ⟨"triton", "admin", "~/.ssh/id_ed25519", 22, false, none⟩


/-- A one-node fleet used in the worked examples. -/
def fleetWs1 : Fleet := ⟨"ws1", "ops", some "pw", ["n1"], 22, true⟩


/-- A fully healthy diagnosis. -/
def diagOkAll : Diag := ⟨some true, ["10.0.0.7"], some true, some "nc", []⟩


/-- Environment where everything works. -/
def wOk : World :=
  ⟨fun _ _ => .ok (), fun _ _ _ => .ok diagOkAll, fun _ _ => true,
   fun _ _ => .ok 0⟩


/-- Environment where the third `connect_host` call (the node hop)
fails to authenticate. -/
def wAuthFailNode : World :=
  ⟨fun k _ => if k = 2 then .error (.authenticationException "auth failed")
    else .ok (),
   fun _ _ _ => .ok diagOkAll, fun _ _ => true, fun _ _ => .ok 0⟩


/-- Environment where everything connects but the node never goes
down: the confirmation wait times out. -/
def wTimeout : World :=
  ⟨fun _ _ => .ok (), fun _ _ _ => .ok diagOkAll, fun _ _ => false,
   fun _ _ => .ok 0⟩


/-- Environment where the node connect fails and the follow-up
diagnosis itself raises. -/
def wDiagRaise : World :=
  ⟨fun k _ => if k = 2 then .error (.channelException "tunnel")
    else .ok (),
   fun k _ _ => if k = 0 then .ok diagOkAll
    else .error (.otherError "diag boom"),
   fun _ _ => true, fun _ _ => .ok 0⟩


/-- Environment where the node's pre-check diagnosis raises but the
follow-up diagnosis returns. -/
def wPreRaise : World :=
  ⟨fun _ _ => .ok (),
   fun k _ _ => if k = 0 then .error (.otherError "probe raised")
    else .ok diagOkAll,
   fun _ _ => true, fun _ _ => .ok 0⟩


/-- Environment where the gateway itself is unreachable. -/
def wGwFail : World :=
  ⟨fun _ _ => .error (.sshException "no route"),
   fun _ _ _ => .ok diagOkAll, fun _ _ => true, fun _ _ => .ok 0⟩


/-- A two-node fleet used in the worked examples. -/
def fleetWs2 : Fleet := ⟨"ws1", "ops", some "pw", ["n1", "n2"], 22, true⟩


/-- Environment where everything connects and every diagnosis returns,
but the very first live power-off execution (the first node's
`run_remote_command`) raises. -/
def wShutRaise : World :=
  ⟨fun _ _ => .ok (), fun _ _ _ => .ok diagOkAll, fun _ _ => true,
   fun k _ => if k = 0 then .error (.sshException "Socket is closed")
    else .ok 0⟩


/-- The MYPASS scenario of the specification: dry-run, one fleet, one
node, credential `"env:MYPASS"`, variable unset. -/
def fleetEnvPw : Fleet := ⟨"ws1", "ops", some "env:MYPASS", ["n1"], 22, true⟩


/-- An empty process environment. -/
def envEmpty : String → Option String := fun _ => none


/-!
 ## Claim C7 — the failure classification table
-/

/--
C7: `classify_failure` is a pure, deterministic, total function (it is a
Lean function translated branch-for-branch from the source): an
authentication rejection maps to the authentication-failure pair, a
host-key mismatch to the host-key pair, a channel failure with
`dns_ok = false` to name-resolution failure, a channel failure with
`tcp_ok = false` (and `dns_ok` not `false`) to TCP-unreachable, a
channel failure without actionable diagnosis to the generic channel
failure, other protocol-level (`SSHException`) errors to protocol error,
and anything else to the unknown-error pair carrying the raw error text
verbatim; the diagnosis influences the result only when the error is a
channel/tunnel failure.
-/
theorem classify_failure_matches_table :
    (∀ m d, classify_failure (.authenticationException m) d =
      ("認証失敗", "ユーザー名/パスワード（または鍵）を確認してください")) ∧
    (∀ m d, classify_failure (.badHostKeyException m) d =
      ("ホスト鍵不一致", "known_hostsの該当エントリ削除や鍵の更新を検討してください")) ∧
    (∀ m d, d.dns_ok = some false →
      classify_failure (.channelException m) (some d) =
        ("名前解決失敗", "DNSや /etc/hosts の設定を見直してください（workstation側）")) ∧
    (∀ m d, d.dns_ok ≠ some false → d.tcp_ok = some false →
      classify_failure (.channelException m) (some d) =
        ("TCP到達不可", "FW/ルーティング/ポート閉塞の可能性（workstation→対象:22）")) ∧
    (∀ m d, d.dns_ok ≠ some false → d.tcp_ok ≠ some false →
      classify_failure (.channelException m) (some d) =
        ("チャネル接続失敗", "対象ホストがダウン/到達不能の可能性")) ∧
    (∀ m, classify_failure (.channelException m) none =
      ("チャネル接続失敗", "対象ホストがダウン/到達不能の可能性")) ∧
    (∀ m d, classify_failure (.sshException m) d =
      ("SSH例外", "ネットワークやSSH設定を確認してください")) ∧
    (∀ m d, classify_failure (.otherError m) d = ("不明エラー", m)) ∧
    (∀ e d d', e.isChannel = false →
      classify_failure e (some d) = classify_failure e (some d')) := by
  refine ⟨fun m d => rfl, fun m d => rfl, ?_, ?_, ?_, fun m => rfl,
    fun m d => rfl, fun m d => rfl, ?_⟩
  · intro m d h
    simp [classify_failure, h]
  · intro m d h1 h2
    simp [classify_failure, h1, h2]
  · intro m d h1 h2
    simp [classify_failure, h1, h2]
  · intro e d d' h
    cases e with
    | authenticationException m => rfl
    | badHostKeyException m => rfl
    | channelException m => simp [PyError.isChannel] at h
    | sshException m => rfl
    | otherError m => rfl


/-- Witness for `classify_failure_matches_table` at concrete inputs. -/
theorem classify_failure_matches_table_witness :
    classify_failure (.channelException "x")
        (some ⟨some false, [], some true, some "nc", []⟩) =
      ("名前解決失敗", "DNSや /etc/hosts の設定を見直してください（workstation側）") ∧
    classify_failure (.channelException "x")
        (some ⟨some true, ["10.0.0.5"], some false, some "nc", []⟩) =
      ("TCP到達不可", "FW/ルーティング/ポート閉塞の可能性（workstation→対象:22）") ∧
    classify_failure (.channelException "x")
        (some ⟨some true, ["10.0.0.5"], some true, some "nc", []⟩) =
      ("チャネル接続失敗", "対象ホストがダウン/到達不能の可能性") ∧
    classify_failure (.authenticationException "a")
        (some ⟨some false, [], some false, none, []⟩) =
      classify_failure (.authenticationException "a")
        (some ⟨some true, [], some true, none, []⟩) :=
  ⟨classify_failure_matches_table.2.2.1 "x"
      ⟨some false, [], some true, some "nc", []⟩ rfl,
   classify_failure_matches_table.2.2.2.1 "x"
      ⟨some true, ["10.0.0.5"], some false, some "nc", []⟩ (by decide) rfl,
   classify_failure_matches_table.2.2.2.2.1 "x"
      ⟨some true, ["10.0.0.5"], some true, some "nc", []⟩ (by decide) (by decide),
   classify_failure_matches_table.2.2.2.2.2.2.2.2
      (.authenticationException "a") ⟨some false, [], some false, none, []⟩
      ⟨some true, [], some true, none, []⟩ rfl⟩


/-!
 ## Claim C6 — bounds of the confirmation wait
-/

/-- When every probe answers "reachable", the loop runs to its deadline:
it returns `false` at an instant between `deadline` and
`max t deadline + max 1 ivl - 1`. -/
theorem waitLoop_never_unreachable (reach : Nat → Bool) (deadline ivl : Nat)
    (h : ∀ u, reach u = true) :
    ∀ fuel t, deadline ≤ t + fuel →
      (waitLoop reach deadline ivl fuel t).1 = false ∧
      deadline ≤ (waitLoop reach deadline ivl fuel t).2 ∧
      (waitLoop reach deadline ivl fuel t).2 ≤
        max t (deadline + max 1 ivl - 1) := by
  intro fuel
  induction fuel with
  | zero =>
      intro t ht
      have heq : waitLoop reach deadline ivl 0 t = (false, t) := rfl
      rw [heq]
      exact ⟨rfl, by omega, Nat.le_max_left _ _⟩
  | succ n ih =>
      intro t ht
      by_cases hlt : t < deadline
      · have hstep : waitLoop reach deadline ivl (n + 1) t
            = waitLoop reach deadline ivl n (t + max 1 ivl) := by
          simp only [waitLoop, if_pos hlt, h t, if_true]
        rw [hstep]
        have h1 : 1 ≤ max 1 ivl := Nat.le_max_left 1 ivl
        have hrec := ih (t + max 1 ivl) (by omega)
        refine ⟨hrec.1, hrec.2.1, ?_⟩
        have hb := hrec.2.2
        have hmax : max (t + max 1 ivl) (deadline + max 1 ivl - 1)
            = deadline + max 1 ivl - 1 := Nat.max_eq_right (by omega)
        rw [hmax] at hb
        exact le_trans hb (Nat.le_max_right _ _)
      · have heq : waitLoop reach deadline ivl (n + 1) t = (false, t) := by
          simp only [waitLoop, if_neg hlt]
        rw [heq]
        exact ⟨rfl, by omega, Nat.le_max_left _ _⟩


/--
C6: `wait_for_host_down_via_transport` with timeout `T` and poll
interval `P`: (i) if the probe reports "unreachable" at the first poll
(and there is a first poll, i.e. `0 < T`), it returns `true`
immediately — zero seconds after the start, within one poll interval;
(ii) if the probe never reports "unreachable", it returns `false`, no
earlier than `T` seconds and no later than `T + P` seconds after the
start.
-/
theorem wait_for_host_down_via_transport_bounds (reach : Nat → Bool)
    (T P : Nat) :
    (0 < T → reach 0 = false →
      wait_for_host_down_via_transport reach T P = (true, 0)) ∧
    ((∀ t, reach t = true) →
      (wait_for_host_down_via_transport reach T P).1 = false ∧
      T ≤ (wait_for_host_down_via_transport reach T P).2 ∧
      (wait_for_host_down_via_transport reach T P).2 ≤ T + P) := by
  constructor
  · intro hT h0
    cases T with
    | zero => omega
    | succ n =>
        simp [wait_for_host_down_via_transport, waitLoop, h0]
  · intro hall
    have h := waitLoop_never_unreachable reach T P hall T 0 (by omega)
    unfold wait_for_host_down_via_transport
    refine ⟨h.1, h.2.1, ?_⟩
    have h2 := h.2.2
    have h3 : max 0 (T + max 1 P - 1) = T + max 1 P - 1 :=
      Nat.max_eq_right (Nat.zero_le _)
    rw [h3] at h2
    rcases Nat.le_total 1 P with hp | hp
    · have : max 1 P = P := Nat.max_eq_right hp
      omega
    · have : max 1 P = 1 := Nat.max_eq_left hp
      omega


/-- Witness for `wait_for_host_down_via_transport_bounds`: a probe that
is down at once (timeout 3, interval 2) and one that never goes down. -/
theorem wait_for_host_down_via_transport_bounds_witness :
    wait_for_host_down_via_transport (fun _ => false) 3 2 = (true, 0) ∧
    ((wait_for_host_down_via_transport (fun _ => true) 3 2).1 = false ∧
      3 ≤ (wait_for_host_down_via_transport (fun _ => true) 3 2).2 ∧
      (wait_for_host_down_via_transport (fun _ => true) 3 2).2 ≤ 5) :=
  ⟨(wait_for_host_down_via_transport_bounds (fun _ => false) 3 2).1
      (by decide) rfl,
   (wait_for_host_down_via_transport_bounds (fun _ => true) 3 2).2
      (fun _ => rfl)⟩


/-- `Except.ok a >>= f` reduces to `f a`. -/
theorem exceptBind_ok {ε α β : Type} (a : α) (f : α → Except ε β) :
    (Except.ok a >>= f : Except ε β) = f a := rfl


/--
C5 counterexample: `diagnose_on_remote` does propagate an exception from
a sub-probe.  On a session whose executions raise, the diagnosis of an
unresolvable host and unreachable port is a propagated exception, not a
`Diagnosis`.
-/
theorem diagnose_on_remote_can_raise :
    diagnose_on_remote deadSession "node-x" 22 =
      .error (.sshException "SSH session not active") := rfl


/--
C5 (amended): on every session on which each probe command execution
returns a result — rather than raising a transport-level exception —
`diagnose_on_remote` returns a `Diagnosis` (probe command *failures* are
absorbed, never propagated); if no命令 output parses as an address and no
TCP probe prints `OK` (unresolvable target host, unreachable target
port), the diagnosis has `dns_ok = false` and `tcp_ok = false`, and its
`notes` list is non-empty because resolution failed.
-/
theorem diagnose_on_remote_unresolvable (s : DiagSession) (host : String)
    (port : Nat)
    (hex : ∀ k c, ∃ rc out err, s.exec k c = .ok (rc, out, err) ∧
      parseIPs out = [] ∧ containsStr out "OK" = false) :
    ∃ d, diagnose_on_remote s host port = .ok d ∧
      d.dns_ok = some false ∧ d.tcp_ok = some false ∧
      d.tcp_method = some "nc|/dev/tcp" ∧ d.notes ≠ [] := by
  obtain ⟨rc0, out0, err0, h0, hp0, _⟩ := hex 0 ("getent hosts " ++ host)
  obtain ⟨rc1, out1, err1, h1, hp1, _⟩ := hex 1 ("getent ahosts " ++ host)
  obtain ⟨rc2, out2, err2, h2, hp2, _⟩ := hex 2 ("nslookup " ++ host ++
    " 2>/dev/null | awk \x27/^Address[[:space:]]*:/\x7bprint $2\x7d\x27")
  obtain ⟨rc3, out3, err3, h3, _, hc3⟩ := hex 3 (ncCmd host port)
  obtain ⟨rc4, out4, err4, h4, _, hc4⟩ := hex 4 (devTcpCmd host port)
  refine ⟨⟨some false, [], some false, some "nc|/dev/tcp",
    ["DNS解決に失敗（workstation側）"]⟩, ?_, rfl, rfl, rfl, by simp⟩
  have hdns : dnsTry s (dnsCmds host) 0 = .ok (3, none) := by
    simp [dnsTry, dnsCmds, exceptBind_ok, h0, h1, h2, hp0, hp1, hp2]
  simp [diagnose_on_remote, hdns, exceptBind_ok, h3, h4, hc3, hc4]


/-- Witness for `diagnose_on_remote_unresolvable` on a concrete session. -/
theorem diagnose_on_remote_unresolvable_witness :
    ∃ d, diagnose_on_remote unhelpfulSession "badhost" 22 = .ok d ∧
      d.dns_ok = some false ∧ d.tcp_ok = some false ∧
      d.tcp_method = some "nc|/dev/tcp" ∧ d.notes ≠ [] :=
  diagnose_on_remote_unresolvable unhelpfulSession "badhost" 22
    (fun _ _ => ⟨1, "", "", rfl, by decide, by decide⟩)


/-- `shutdown_host` in dry-run mode: one log event, nothing executed,
nothing raised. -/
theorem shutdown_host_dry (s : Sess) (tag : String)
    (res : Except PyError Int) :
    shutdown_host s tag true res = ([Ev.shutdownCall s tag true], none) :=
  rfl


/-- `shutdown_host` live, the power-off execution returning. -/
theorem shutdown_host_live_ok (s : Sess) (tag : String) (code : Int) :
    shutdown_host s tag false (Except.ok code)
      = ([Ev.shutdownCall s tag false, Ev.powerOffSent s tag code], none) :=
  rfl


/-- `shutdown_host` live, the power-off execution raising: the
exception propagates. -/
theorem shutdown_host_live_err (s : Sess) (tag : String) (e : PyError) :
    shutdown_host s tag false (Except.error e)
      = ([Ev.shutdownCall s tag false, Ev.powerOffRaised s tag e], some e) :=
  rfl


/-- Every event of a node step satisfies its location constraints. -/
theorem processNode_evOk (w : World) (args : Args) (fi : Nat)
    (fname : String) (j : Nat) (node : String) (c : Ctrs) (ps : Bool) :
    ∀ ev ∈ (processNode w args fi fname j node c ps).evs,
      nodeEvOk fi j node ev := by
  cases hd : w.diagnose c.kd (Sess.fleet fi fname) node with
  | error e =>
      cases hd2 : w.diagnose (c.kd + 1) (Sess.fleet fi fname) node with
      | error e2 =>
          simp [processNode, nodeFailHandler, hd, hd2, nodeEvOk]
      | ok diag =>
          simp [processNode, nodeFailHandler, hd, hd2, nodeEvOk]
  | ok pre =>
      cases hc : w.connect c.kc node with
      | error e =>
          cases hd2 : w.diagnose (c.kd + 1) (Sess.fleet fi fname) node with
          | error e2 =>
              by_cases h1 : pre.dns_ok = some false <;>
                by_cases h2 : pre.tcp_ok = some false <;>
                simp [processNode, nodeFailHandler, hd, hd2, hc, h1, h2,
                  nodeEvOk]
          | ok diag =>
              by_cases h1 : pre.dns_ok = some false <;>
                by_cases h2 : pre.tcp_ok = some false <;>
                simp [processNode, nodeFailHandler, hd, hd2, hc, h1, h2,
                  nodeEvOk]
      | ok u =>
          cases hsx : w.shutdownExit c.ks node <;>
            by_cases hdry : args.dryRun <;>
            by_cases h1 : pre.dns_ok = some false <;>
            by_cases h2 : pre.tcp_ok = some false <;>
            simp [processNode, hd, hc, hdry, hsx, h1, h2, shutdown_host,
              nodeEvOk]


/-- `parent_skip` is never cleared by a node step. -/
theorem processNode_ps_mono (w : World) (args : Args) (fi : Nat)
    (fname : String) (j : Nat) (node : String) (c : Ctrs) :
    (processNode w args fi fname j node c true).ps = true := by
  cases hd : w.diagnose c.kd (Sess.fleet fi fname) node with
  | error e =>
      cases hd2 : w.diagnose (c.kd + 1) (Sess.fleet fi fname) node with
      | error e2 => simp [processNode, nodeFailHandler, hd, hd2]
      | ok diag => simp [processNode, nodeFailHandler, hd, hd2]
  | ok pre =>
      cases hc : w.connect c.kc node with
      | error e =>
          cases hd2 : w.diagnose (c.kd + 1) (Sess.fleet fi fname) node with
          | error e2 => simp [processNode, nodeFailHandler, hd, hd2, hc]
          | ok diag => simp [processNode, nodeFailHandler, hd, hd2, hc]
      | ok u =>
          cases hsx : w.shutdownExit c.ks node <;>
            by_cases hdry : args.dryRun <;>
            simp [processNode, hd, hc, hdry, hsx, shutdown_host]


/--
In live strict mode, a node connect failure, a failed confirmation wait
or a completed failure diagnosis (the handler ran to completion) leaves
the step with `parent_skip` set — unless the handler's own diagnosis
raised or the node's power-off execution raised, in which case the step
propagates an exception.
-/
theorem processNode_trigger (w : World) (args : Args) (fi : Nat)
    (fname : String) (j : Nat) (node : String) (c : Ctrs) (ps : Bool)
    (hdry : args.dryRun = false) (hstrict : args.nonStrict = false) :
    ((∃ s e, Ev.connectFailed s e ∈ (processNode w args fi fname j node c ps).evs) ∨
     (∃ f n, Ev.waitDownEv f n false ∈ (processNode w args fi fname j node c ps).evs) ∨
     (∃ f jj t, Ev.diagEv .nodeFail f jj t true ∈ (processNode w args fi fname j node c ps).evs)) →
    (processNode w args fi fname j node c ps).ps = true ∨
      (processNode w args fi fname j node c ps).exc ≠ none := by
  intro htrig
  cases hd : w.diagnose c.kd (Sess.fleet fi fname) node with
  | error e =>
      cases hd2 : w.diagnose (c.kd + 1) (Sess.fleet fi fname) node with
      | error e2 =>
          right
          simp [processNode, nodeFailHandler, hd, hd2]
      | ok diag =>
          left
          simp [processNode, nodeFailHandler, hd, hd2, hdry, hstrict]
  | ok pre =>
      cases hc : w.connect c.kc node with
      | error e =>
          cases hd2 : w.diagnose (c.kd + 1) (Sess.fleet fi fname) node with
          | error e2 =>
              right
              simp [processNode, nodeFailHandler, hd, hd2, hc]
          | ok diag =>
              left
              simp [processNode, nodeFailHandler, hd, hd2, hc, hdry, hstrict]
      | ok u =>
          cases hsx : w.shutdownExit c.ks node with
          | error e2 =>
              right
              simp [processNode, hd, hc, hdry, hsx, shutdown_host]
          | ok code =>
              left
              simp only [processNode, hd, hc, hdry, Bool.false_eq_true,
                if_false] at htrig ⊢
              rcases htrig with ⟨s, e, hmem⟩ | ⟨f, n, hmem⟩ | ⟨f, jj, t, hmem⟩ <;>
                by_cases h1 : pre.dns_ok = some false <;>
                by_cases h2 : pre.tcp_ok = some false <;>
                simp [h1, h2, hsx, shutdown_host] at hmem ⊢ <;>
                simp [hmem.2.2, hstrict]


/-- When every diagnosis returns and every live power-off execution
returns an exit status, a node step propagates no exception. -/
theorem processNode_exc_none (w : World) (args : Args) (fi : Nat)
    (fname : String) (j : Nat) (node : String) (c : Ctrs) (ps : Bool)
    (hD : ∀ k v t, ∃ d, w.diagnose k v t = Except.ok d)
    (hS : ∀ k t, ∃ code, w.shutdownExit k t = Except.ok code) :
    (processNode w args fi fname j node c ps).exc = none := by
  cases hd : w.diagnose c.kd (Sess.fleet fi fname) node with
  | error e =>
      obtain ⟨d, hb⟩ := hD c.kd (Sess.fleet fi fname) node
      rw [hd] at hb
      cases hb
  | ok pre =>
      cases hc : w.connect c.kc node with
      | error e =>
          cases hd2 : w.diagnose (c.kd + 1) (Sess.fleet fi fname) node with
          | error e2 =>
              obtain ⟨d, hb⟩ := hD (c.kd + 1) (Sess.fleet fi fname) node
              rw [hd2] at hb
              cases hb
          | ok diag => simp [processNode, nodeFailHandler, hd, hd2, hc]
      | ok u =>
          obtain ⟨code, hsx⟩ := hS c.ks node
          by_cases hdry : args.dryRun <;>
            simp [processNode, hd, hc, hdry, hsx, shutdown_host]


/-- When every diagnosis returns, a node connect failure leaves behind a
stage-`"node"` issue for that node. -/
theorem processNode_connectFailed_issue (w : World) (args : Args)
    (fi : Nat) (fname : String) (j : Nat) (node : String) (c : Ctrs)
    (ps : Bool)
    (hD : ∀ k v t, ∃ d, w.diagnose k v t = Except.ok d) :
    (∃ s e, Ev.connectFailed s e ∈ (processNode w args fi fname j node c ps).evs) →
    ∃ iss, Ev.issueEv iss ∈ (processNode w args fi fname j node c ps).evs ∧
      iss.stage = "node" ∧ iss.target = node := by
  intro ⟨s, e', hmem⟩
  cases hd : w.diagnose c.kd (Sess.fleet fi fname) node with
  | error e =>
      obtain ⟨d, hb⟩ := hD c.kd (Sess.fleet fi fname) node
      rw [hd] at hb
      cases hb
  | ok pre =>
      cases hc : w.connect c.kc node with
      | error e =>
          cases hd2 : w.diagnose (c.kd + 1) (Sess.fleet fi fname) node with
          | error e2 =>
              obtain ⟨d, hb⟩ := hD (c.kd + 1) (Sess.fleet fi fname) node
              rw [hd2] at hb
              cases hb
          | ok diag =>
              refine ⟨⟨"node", fname, node, (classify_failure e (some diag)).1,
                (classify_failure e (some diag)).2, some diag, e.msg⟩, ?_, rfl, rfl⟩
              by_cases h1 : pre.dns_ok = some false <;>
                by_cases h2 : pre.tcp_ok = some false <;>
                simp [processNode, nodeFailHandler, hd, hd2, hc, h1, h2]
      | ok u =>
          exfalso
          cases hsx : w.shutdownExit c.ks node <;>
            by_cases hdry : args.dryRun <;>
            by_cases h1 : pre.dns_ok = some false <;>
            by_cases h2 : pre.tcp_ok = some false <;>
            simp [processNode, hd, hc, hdry, hsx, h1, h2, shutdown_host] at hmem


/-- A completed failure diagnosis (`diagEv .nodeFail … true`) means the
handler ran to completion, which always appends a stage-`"node"` issue
for the node. -/
theorem processNode_nodeFail_issue (w : World) (args : Args) (fi : Nat)
    (fname : String) (j : Nat) (node : String) (c : Ctrs) (ps : Bool) :
    (∃ f jj t, Ev.diagEv .nodeFail f jj t true ∈
      (processNode w args fi fname j node c ps).evs) →
    ∃ iss, Ev.issueEv iss ∈ (processNode w args fi fname j node c ps).evs ∧
      iss.stage = "node" ∧ iss.target = node := by
  intro ⟨f, jj, t, hmem⟩
  cases hd : w.diagnose c.kd (Sess.fleet fi fname) node with
  | error e =>
      cases hd2 : w.diagnose (c.kd + 1) (Sess.fleet fi fname) node with
      | error e2 =>
          exfalso
          simp [processNode, nodeFailHandler, hd, hd2] at hmem
      | ok diag =>
          refine ⟨⟨"node", fname, node, (classify_failure e (some diag)).1,
            (classify_failure e (some diag)).2, some diag, e.msg⟩, ?_, rfl, rfl⟩
          simp [processNode, nodeFailHandler, hd, hd2]
  | ok pre =>
      cases hc : w.connect c.kc node with
      | error e =>
          cases hd2 : w.diagnose (c.kd + 1) (Sess.fleet fi fname) node with
          | error e2 =>
              exfalso
              by_cases h1 : pre.dns_ok = some false <;>
                by_cases h2 : pre.tcp_ok = some false <;>
                simp [processNode, nodeFailHandler, hd, hd2, hc, h1, h2] at hmem
          | ok diag =>
              refine ⟨⟨"node", fname, node, (classify_failure e (some diag)).1,
                (classify_failure e (some diag)).2, some diag, e.msg⟩, ?_, rfl, rfl⟩
              by_cases h1 : pre.dns_ok = some false <;>
                by_cases h2 : pre.tcp_ok = some false <;>
                simp [processNode, nodeFailHandler, hd, hd2, hc, h1, h2]
      | ok u =>
          exfalso
          cases hsx : w.shutdownExit c.ks node <;>
            by_cases hdry : args.dryRun <;>
            by_cases h1 : pre.dns_ok = some false <;>
            by_cases h2 : pre.tcp_ok = some false <;>
            simp [processNode, hd, hc, hdry, hsx, h1, h2, shutdown_host] at hmem


/-- A node step closes exactly the sessions it opened. -/
theorem processNode_count (w : World) (args : Args) (fi : Nat)
    (fname : String) (j : Nat) (node : String) (c : Ctrs) (ps : Bool)
    (s : Sess) :
    (processNode w args fi fname j node c ps).evs.count (Ev.connected s) =
    (processNode w args fi fname j node c ps).evs.count (Ev.closeSession s) := by
  cases hd : w.diagnose c.kd (Sess.fleet fi fname) node with
  | error e =>
      cases hd2 : w.diagnose (c.kd + 1) (Sess.fleet fi fname) node with
      | error e2 => simp [processNode, nodeFailHandler, hd, hd2]
      | ok diag => simp [processNode, nodeFailHandler, hd, hd2]
  | ok pre =>
      cases hc : w.connect c.kc node with
      | error e =>
          cases hd2 : w.diagnose (c.kd + 1) (Sess.fleet fi fname) node with
          | error e2 =>
              by_cases h1 : pre.dns_ok = some false <;>
                by_cases h2 : pre.tcp_ok = some false <;>
                simp [processNode, nodeFailHandler, hd, hd2, hc, h1, h2]
          | ok diag =>
              by_cases h1 : pre.dns_ok = some false <;>
                by_cases h2 : pre.tcp_ok = some false <;>
                simp [processNode, nodeFailHandler, hd, hd2, hc, h1, h2]
      | ok u =>
          cases hsx : w.shutdownExit c.ks node <;>
            by_cases hdry : args.dryRun <;>
            by_cases h1 : pre.dns_ok = some false <;>
            by_cases h2 : pre.tcp_ok = some false <;>
            simp [processNode, hd, hc, hdry, hsx, h1, h2, shutdown_host,
              List.count_cons, List.count_append]


/-- When the pre-check diagnosis raised (its event carries `ok = false`),
the node connection was never attempted. -/
theorem processNode_precheck_raised_no_attempt (w : World) (args : Args)
    (fi : Nat) (fname : String) (j : Nat) (node : String) (c : Ctrs)
    (ps : Bool)
    (hpre : ∃ f jj t, Ev.diagEv .precheck f jj t false ∈
      (processNode w args fi fname j node c ps).evs) :
    ∀ s, Ev.connectAttempt s ∉ (processNode w args fi fname j node c ps).evs := by
  obtain ⟨f, jj, t, hmem⟩ := hpre
  intro s hs
  cases hd : w.diagnose c.kd (Sess.fleet fi fname) node with
  | error e =>
      cases hd2 : w.diagnose (c.kd + 1) (Sess.fleet fi fname) node with
      | error e2 => simp [processNode, nodeFailHandler, hd, hd2] at hs
      | ok diag => simp [processNode, nodeFailHandler, hd, hd2] at hs
  | ok pre =>
      cases hc : w.connect c.kc node with
      | error e =>
          cases hd2 : w.diagnose (c.kd + 1) (Sess.fleet fi fname) node with
          | error e2 =>
              by_cases h1 : pre.dns_ok = some false <;>
                by_cases h2 : pre.tcp_ok = some false <;>
                simp [processNode, nodeFailHandler, hd, hd2, hc, h1, h2] at hmem
          | ok diag =>
              by_cases h1 : pre.dns_ok = some false <;>
                by_cases h2 : pre.tcp_ok = some false <;>
                simp [processNode, nodeFailHandler, hd, hd2, hc, h1, h2] at hmem
      | ok u =>
          cases hsx : w.shutdownExit c.ks node <;>
            by_cases hdry : args.dryRun <;>
            by_cases h1 : pre.dns_ok = some false <;>
            by_cases h2 : pre.tcp_ok = some false <;>
            simp [processNode, hd, hc, hdry, hsx, h1, h2, shutdown_host] at hmem


/-- In dry-run mode a node step neither sends the power-off command, nor
lets its execution raise, nor runs the confirmation wait. -/
theorem processNode_dry (w : World) (args : Args) (fi : Nat)
    (fname : String) (j : Nat) (node : String) (c : Ctrs) (ps : Bool)
    (hdry : args.dryRun = true) :
    (∀ s t ec, Ev.powerOffSent s t ec ∉ (processNode w args fi fname j node c ps).evs) ∧
    (∀ s t e, Ev.powerOffRaised s t e ∉ (processNode w args fi fname j node c ps).evs) ∧
    (∀ f n ok, Ev.waitDownEv f n ok ∉ (processNode w args fi fname j node c ps).evs) := by
  refine ⟨?_, ?_, ?_⟩ <;> intro a b cc hs <;>
  · cases hd : w.diagnose c.kd (Sess.fleet fi fname) node with
    | error e =>
        cases hd2 : w.diagnose (c.kd + 1) (Sess.fleet fi fname) node with
        | error e2 => simp [processNode, nodeFailHandler, hd, hd2] at hs
        | ok diag => simp [processNode, nodeFailHandler, hd, hd2] at hs
    | ok pre =>
        cases hc : w.connect c.kc node with
        | error e =>
            cases hd2 : w.diagnose (c.kd + 1) (Sess.fleet fi fname) node with
            | error e2 =>
                by_cases h1 : pre.dns_ok = some false <;>
                  by_cases h2 : pre.tcp_ok = some false <;>
                  simp [processNode, nodeFailHandler, hd, hd2, hc, h1, h2] at hs
            | ok diag =>
                by_cases h1 : pre.dns_ok = some false <;>
                  by_cases h2 : pre.tcp_ok = some false <;>
                  simp [processNode, nodeFailHandler, hd, hd2, hc, h1, h2] at hs
        | ok u =>
            by_cases h1 : pre.dns_ok = some false <;>
              by_cases h2 : pre.tcp_ok = some false <;>
              simp [processNode, hd, hc, hdry, h1, h2, shutdown_host] at hs


/--
A dry-run node step and a live node step against the same environment
perform the same connection attempts and diagnoses (and append the same
issues), consume the same connect/diagnose call budget, and propagate
the same exception; only the shutdown-related events differ.  This
needs every live power-off execution to return: one that raises crashes
the live step while the dry step (which never executes it) continues.
-/
theorem processNode_dry_live (w : World) (ns : Bool) (fi : Nat)
    (fname : String) (j : Nat) (node : String) (kc kd kw1 ks1 kw2 ks2 : Nat)
    (ps1 ps2 : Bool)
    (hS : ∀ k t, ∃ code, w.shutdownExit k t = Except.ok code) :
    obsEvs (processNode w ⟨true, ns⟩ fi fname j node ⟨kc, kd, kw1, ks1⟩ ps1).evs =
      obsEvs (processNode w ⟨false, ns⟩ fi fname j node ⟨kc, kd, kw2, ks2⟩ ps2).evs ∧
    (processNode w ⟨true, ns⟩ fi fname j node ⟨kc, kd, kw1, ks1⟩ ps1).c.kc =
      (processNode w ⟨false, ns⟩ fi fname j node ⟨kc, kd, kw2, ks2⟩ ps2).c.kc ∧
    (processNode w ⟨true, ns⟩ fi fname j node ⟨kc, kd, kw1, ks1⟩ ps1).c.kd =
      (processNode w ⟨false, ns⟩ fi fname j node ⟨kc, kd, kw2, ks2⟩ ps2).c.kd ∧
    (processNode w ⟨true, ns⟩ fi fname j node ⟨kc, kd, kw1, ks1⟩ ps1).exc =
      (processNode w ⟨false, ns⟩ fi fname j node ⟨kc, kd, kw2, ks2⟩ ps2).exc := by
  cases hd : w.diagnose kd (Sess.fleet fi fname) node with
  | error e =>
      cases hd2 : w.diagnose (kd + 1) (Sess.fleet fi fname) node with
      | error e2 =>
          simp [processNode, nodeFailHandler, hd, hd2, obsEvs, isShutdownRelated]
      | ok diag =>
          simp [processNode, nodeFailHandler, hd, hd2, obsEvs, isShutdownRelated]
  | ok pre =>
      cases hc : w.connect kc node with
      | error e =>
          cases hd2 : w.diagnose (kd + 1) (Sess.fleet fi fname) node with
          | error e2 =>
              by_cases h1 : pre.dns_ok = some false <;>
                by_cases h2 : pre.tcp_ok = some false <;>
                simp [processNode, nodeFailHandler, hd, hd2, hc, h1, h2,
                  obsEvs, isShutdownRelated]
          | ok diag =>
              by_cases h1 : pre.dns_ok = some false <;>
                by_cases h2 : pre.tcp_ok = some false <;>
                simp [processNode, nodeFailHandler, hd, hd2, hc, h1, h2,
                  obsEvs, isShutdownRelated]
      | ok u =>
          obtain ⟨code, hsx⟩ := hS ks2 node
          by_cases h1 : pre.dns_ok = some false <;>
            by_cases h2 : pre.tcp_ok = some false <;>
            simp [processNode, hd, hc, h1, h2, hsx, shutdown_host, obsEvs,
              isShutdownRelated]


/-- Every event of the node loop satisfies the location constraints of
some node index `≥ j0`. -/
theorem processNodes_evOk (w : World) (args : Args) (fi : Nat)
    (fname : String) :
    ∀ (nodes : List String) (j0 : Nat) (c : Ctrs) (ps : Bool),
      ∀ ev ∈ (processNodes w args fi fname nodes j0 c ps).evs,
        ∃ jj n, j0 ≤ jj ∧ nodeEvOk fi jj n ev := by
  intro nodes
  induction nodes with
  | nil => intro j0 c ps ev hev; simp [processNodes] at hev
  | cons n rest ih =>
      intro j0 c ps ev hev
      simp only [processNodes] at hev
      cases ho : (processNode w args fi fname j0 n c ps).exc with
      | some e =>
          rw [ho] at hev
          exact ⟨j0, n, le_refl _, processNode_evOk w args fi fname j0 n c ps ev hev⟩
      | none =>
          rw [ho] at hev
          simp only [List.mem_append] at hev
          rcases hev with hev | hev
          · exact ⟨j0, n, le_refl _, processNode_evOk w args fi fname j0 n c ps ev hev⟩
          · obtain ⟨jj, nn, hj, hok⟩ := ih (j0 + 1) _ _ ev hev
            exact ⟨jj, nn, by omega, hok⟩


/-- `parent_skip` is never cleared by the node loop. -/
theorem processNodes_ps_mono (w : World) (args : Args) (fi : Nat)
    (fname : String) :
    ∀ (nodes : List String) (j0 : Nat) (c : Ctrs),
      (processNodes w args fi fname nodes j0 c true).ps = true := by
  intro nodes
  induction nodes with
  | nil => intro j0 c; simp [processNodes]
  | cons n rest ih =>
      intro j0 c
      simp only [processNodes]
      have hm := processNode_ps_mono w args fi fname j0 n c
      cases ho : (processNode w args fi fname j0 n c true).exc with
      | some e => simpa [ho] using hm
      | none =>
          simp only [ho]
          rw [hm]
          exact ih (j0 + 1) _


/-- Node-loop version of `processNode_trigger`. -/
theorem processNodes_trigger (w : World) (args : Args) (fi : Nat)
    (fname : String) (hdry : args.dryRun = false)
    (hstrict : args.nonStrict = false) :
    ∀ (nodes : List String) (j0 : Nat) (c : Ctrs) (ps : Bool),
    ((∃ s e, Ev.connectFailed s e ∈ (processNodes w args fi fname nodes j0 c ps).evs) ∨
     (∃ f n, Ev.waitDownEv f n false ∈ (processNodes w args fi fname nodes j0 c ps).evs) ∨
     (∃ f jj t, Ev.diagEv .nodeFail f jj t true ∈ (processNodes w args fi fname nodes j0 c ps).evs)) →
    (processNodes w args fi fname nodes j0 c ps).ps = true ∨
      (processNodes w args fi fname nodes j0 c ps).exc ≠ none := by
  intro nodes
  induction nodes with
  | nil =>
      intro j0 c ps htrig
      exfalso
      rcases htrig with ⟨s, e, h⟩ | ⟨f, n, h⟩ | ⟨f, jj, t, h⟩ <;>
        simp [processNodes] at h
  | cons n rest ih =>
      intro j0 c ps htrig
      simp only [processNodes] at htrig ⊢
      cases ho : (processNode w args fi fname j0 n c ps).exc with
      | some e => simp [ho]
      | none =>
          simp only [ho]
          have hsplit :
              ((∃ s e, Ev.connectFailed s e ∈ (processNode w args fi fname j0 n c ps).evs) ∨
               (∃ f nn, Ev.waitDownEv f nn false ∈ (processNode w args fi fname j0 n c ps).evs) ∨
               (∃ f jj t, Ev.diagEv .nodeFail f jj t true ∈ (processNode w args fi fname j0 n c ps).evs)) ∨
              ((∃ s e, Ev.connectFailed s e ∈ (processNodes w args fi fname rest (j0 + 1) (processNode w args fi fname j0 n c ps).c (processNode w args fi fname j0 n c ps).ps).evs) ∨
               (∃ f nn, Ev.waitDownEv f nn false ∈ (processNodes w args fi fname rest (j0 + 1) (processNode w args fi fname j0 n c ps).c (processNode w args fi fname j0 n c ps).ps).evs) ∨
               (∃ f jj t, Ev.diagEv .nodeFail f jj t true ∈ (processNodes w args fi fname rest (j0 + 1) (processNode w args fi fname j0 n c ps).c (processNode w args fi fname j0 n c ps).ps).evs)) := by
            rcases htrig with ⟨s, e2, h⟩ | ⟨f, nn, h⟩ | ⟨f, jj, t, h⟩ <;>
              rw [ho] at h <;> simp only [List.mem_append] at h <;>
              rcases h with h | h
            · exact Or.inl (Or.inl ⟨s, e2, h⟩)
            · exact Or.inr (Or.inl ⟨s, e2, h⟩)
            · exact Or.inl (Or.inr (Or.inl ⟨f, nn, h⟩))
            · exact Or.inr (Or.inr (Or.inl ⟨f, nn, h⟩))
            · exact Or.inl (Or.inr (Or.inr ⟨f, jj, t, h⟩))
            · exact Or.inr (Or.inr (Or.inr ⟨f, jj, t, h⟩))
          rcases hsplit with htr | htr
          · rcases processNode_trigger w args fi fname j0 n c ps hdry hstrict htr with hps | hexc
            · rw [hps]
              left
              exact processNodes_ps_mono w args fi fname rest (j0 + 1) _
            · exact absurd ho (by simpa using hexc)
          · exact ih (j0 + 1) _ _ htr


/-- When every diagnosis returns, the node loop propagates no exception. -/
theorem processNodes_exc_none (w : World) (args : Args) (fi : Nat)
    (fname : String)
    (hD : ∀ k v t, ∃ d, w.diagnose k v t = Except.ok d)
    (hS : ∀ k t, ∃ code, w.shutdownExit k t = Except.ok code) :
    ∀ (nodes : List String) (j0 : Nat) (c : Ctrs) (ps : Bool),
      (processNodes w args fi fname nodes j0 c ps).exc = none := by
  intro nodes
  induction nodes with
  | nil => intro j0 c ps; simp [processNodes]
  | cons n rest ih =>
      intro j0 c ps
      simp only [processNodes]
      have he := processNode_exc_none w args fi fname j0 n c ps hD hS
      rw [he]
      exact ih (j0 + 1) _ _


/-- Node-loop version of `processNode_connectFailed_issue`: the issue
names the very node whose connection failed. -/
theorem processNodes_connectFailed_issue (w : World) (args : Args)
    (fi : Nat) (fname : String)
    (hD : ∀ k v t, ∃ d, w.diagnose k v t = Except.ok d) :
    ∀ (nodes : List String) (j0 : Nat) (c : Ctrs) (ps : Bool) (f jj : Nat)
      (n : String) (e : PyError),
      Ev.connectFailed (Sess.node f jj n) e ∈
        (processNodes w args fi fname nodes j0 c ps).evs →
      ∃ iss, Ev.issueEv iss ∈ (processNodes w args fi fname nodes j0 c ps).evs ∧
        iss.stage = "node" ∧ iss.target = n := by
  intro nodes
  induction nodes with
  | nil => intro j0 c ps f jj n e h; simp [processNodes] at h
  | cons nd rest ih =>
      intro j0 c ps f jj n e h
      cases ho : (processNode w args fi fname j0 nd c ps).exc with
      | some e2 =>
          have hevs : (processNodes w args fi fname (nd :: rest) j0 c ps).evs
              = (processNode w args fi fname j0 nd c ps).evs := by
            simp [processNodes, ho]
          rw [hevs] at h ⊢
          have hn : n = nd := by
            have := processNode_evOk w args fi fname j0 nd c ps _ h
            simp [nodeEvOk] at this
            exact this.2.2
          obtain ⟨iss, hiss, hstage, htgt⟩ :=
            processNode_connectFailed_issue w args fi fname j0 nd c ps hD
              ⟨_, _, h⟩
          exact ⟨iss, hiss, hstage, by rw [htgt, hn]⟩
      | none =>
          have hevs : (processNodes w args fi fname (nd :: rest) j0 c ps).evs
              = (processNode w args fi fname j0 nd c ps).evs ++
                (processNodes w args fi fname rest (j0 + 1)
                  (processNode w args fi fname j0 nd c ps).c
                  (processNode w args fi fname j0 nd c ps).ps).evs := by
            simp [processNodes, ho]
          rw [hevs] at h ⊢
          simp only [List.mem_append] at h
          rcases h with h | h
          · have hn : n = nd := by
              have := processNode_evOk w args fi fname j0 nd c ps _ h
              simp [nodeEvOk] at this
              exact this.2.2
            obtain ⟨iss, hiss, hstage, htgt⟩ :=
              processNode_connectFailed_issue w args fi fname j0 nd c ps hD
                ⟨_, _, h⟩
            exact ⟨iss, List.mem_append_left _ hiss, hstage, by rw [htgt, hn]⟩
          · obtain ⟨iss, hiss, hstage, htgt⟩ := ih (j0 + 1) _ _ f jj n e h
            exact ⟨iss, List.mem_append_right _ hiss, hstage, htgt⟩


/-- Node-loop version of `processNode_nodeFail_issue`: the issue names
the diagnosed node. -/
theorem processNodes_nodeFail_issue (w : World) (args : Args)
    (fi : Nat) (fname : String) :
    ∀ (nodes : List String) (j0 : Nat) (c : Ctrs) (ps : Bool) (f jj : Nat)
      (t : String),
      Ev.diagEv .nodeFail f jj t true ∈
        (processNodes w args fi fname nodes j0 c ps).evs →
      ∃ iss, Ev.issueEv iss ∈ (processNodes w args fi fname nodes j0 c ps).evs ∧
        iss.stage = "node" ∧ iss.target = t := by
  intro nodes
  induction nodes with
  | nil => intro j0 c ps f jj t h; simp [processNodes] at h
  | cons nd rest ih =>
      intro j0 c ps f jj t h
      cases ho : (processNode w args fi fname j0 nd c ps).exc with
      | some e2 =>
          have hevs : (processNodes w args fi fname (nd :: rest) j0 c ps).evs
              = (processNode w args fi fname j0 nd c ps).evs := by
            simp [processNodes, ho]
          rw [hevs] at h ⊢
          have hn : t = nd := by
            have := processNode_evOk w args fi fname j0 nd c ps _ h
            simp [nodeEvOk] at this
            exact this.2.2
          obtain ⟨iss, hiss, hstage, htgt⟩ :=
            processNode_nodeFail_issue w args fi fname j0 nd c ps ⟨f, jj, t, h⟩
          exact ⟨iss, hiss, hstage, by rw [htgt, hn]⟩
      | none =>
          have hevs : (processNodes w args fi fname (nd :: rest) j0 c ps).evs
              = (processNode w args fi fname j0 nd c ps).evs ++
                (processNodes w args fi fname rest (j0 + 1)
                  (processNode w args fi fname j0 nd c ps).c
                  (processNode w args fi fname j0 nd c ps).ps).evs := by
            simp [processNodes, ho]
          rw [hevs] at h ⊢
          simp only [List.mem_append] at h
          rcases h with h | h
          · have hn : t = nd := by
              have := processNode_evOk w args fi fname j0 nd c ps _ h
              simp [nodeEvOk] at this
              exact this.2.2
            obtain ⟨iss, hiss, hstage, htgt⟩ :=
              processNode_nodeFail_issue w args fi fname j0 nd c ps ⟨f, jj, t, h⟩
            exact ⟨iss, List.mem_append_left _ hiss, hstage, by rw [htgt, hn]⟩
          · obtain ⟨iss, hiss, hstage, htgt⟩ := ih (j0 + 1) _ _ f jj t h
            exact ⟨iss, List.mem_append_right _ hiss, hstage, htgt⟩


/-- The node loop closes exactly the sessions it opened. -/
theorem processNodes_count (w : World) (args : Args) (fi : Nat)
    (fname : String) :
    ∀ (nodes : List String) (j0 : Nat) (c : Ctrs) (ps : Bool) (s : Sess),
      (processNodes w args fi fname nodes j0 c ps).evs.count (Ev.connected s) =
      (processNodes w args fi fname nodes j0 c ps).evs.count (Ev.closeSession s) := by
  intro nodes
  induction nodes with
  | nil => intro j0 c ps s; simp [processNodes]
  | cons nd rest ih =>
      intro j0 c ps s
      cases ho : (processNode w args fi fname j0 nd c ps).exc with
      | some e =>
          have hevs : (processNodes w args fi fname (nd :: rest) j0 c ps).evs
              = (processNode w args fi fname j0 nd c ps).evs := by
            simp [processNodes, ho]
          rw [hevs]
          exact processNode_count w args fi fname j0 nd c ps s
      | none =>
          have hevs : (processNodes w args fi fname (nd :: rest) j0 c ps).evs
              = (processNode w args fi fname j0 nd c ps).evs ++
                (processNodes w args fi fname rest (j0 + 1)
                  (processNode w args fi fname j0 nd c ps).c
                  (processNode w args fi fname j0 nd c ps).ps).evs := by
            simp [processNodes, ho]
          rw [hevs]
          simp only [List.count_append]
          rw [processNode_count w args fi fname j0 nd c ps s, ih (j0 + 1)]


/-- If node `j`'s pre-check diagnosis raised, node `j` was never
connected to — node-loop version. -/
theorem processNodes_precheck_no_attempt (w : World) (args : Args)
    (fi : Nat) (fname : String) :
    ∀ (nodes : List String) (j0 : Nat) (c : Ctrs) (ps : Bool) (j : Nat)
      (t nd : String),
      Ev.diagEv .precheck fi j t false ∈
        (processNodes w args fi fname nodes j0 c ps).evs →
      Ev.connectAttempt (Sess.node fi j nd) ∉
        (processNodes w args fi fname nodes j0 c ps).evs := by
  intro nodes
  induction nodes with
  | nil => intro j0 c ps j t nd h; simp [processNodes] at h
  | cons ndh rest ih =>
      intro j0 c ps j t nd hpre hatt
      cases ho : (processNode w args fi fname j0 ndh c ps).exc with
      | some e =>
          have hevs : (processNodes w args fi fname (ndh :: rest) j0 c ps).evs
              = (processNode w args fi fname j0 ndh c ps).evs := by
            simp [processNodes, ho]
          rw [hevs] at hpre hatt
          exact processNode_precheck_raised_no_attempt w args fi fname j0 ndh
            c ps ⟨fi, j, t, hpre⟩ _ hatt
      | none =>
          have hevs : (processNodes w args fi fname (ndh :: rest) j0 c ps).evs
              = (processNode w args fi fname j0 ndh c ps).evs ++
                (processNodes w args fi fname rest (j0 + 1)
                  (processNode w args fi fname j0 ndh c ps).c
                  (processNode w args fi fname j0 ndh c ps).ps).evs := by
            simp [processNodes, ho]
          rw [hevs] at hpre hatt
          simp only [List.mem_append] at hpre hatt
          rcases hpre with hpre | hpre
          · have hj : j = j0 := by
              have := processNode_evOk w args fi fname j0 ndh c ps _ hpre
              simp [nodeEvOk] at this
              exact this.1
            rcases hatt with hatt | hatt
            · exact processNode_precheck_raised_no_attempt w args fi fname j0
                ndh c ps ⟨fi, j, t, hpre⟩ _ hatt
            · obtain ⟨jj, nn, hjj, hok⟩ :=
                processNodes_evOk w args fi fname rest (j0 + 1) _ _ _ hatt
              simp [nodeEvOk] at hok
              omega
          · have hj : j0 + 1 ≤ j := by
              obtain ⟨jj, nn, hjj, hok⟩ :=
                processNodes_evOk w args fi fname rest (j0 + 1) _ _ _ hpre
              simp [nodeEvOk] at hok
              omega
            rcases hatt with hatt | hatt
            · have := processNode_evOk w args fi fname j0 ndh c ps _ hatt
              simp [nodeEvOk] at this
              omega
            · exact ih (j0 + 1) _ _ j t nd hpre hatt


/-- In dry-run mode the node loop neither sends the power-off command,
nor lets its execution raise, nor runs the confirmation wait. -/
theorem processNodes_dry (w : World) (args : Args) (fi : Nat)
    (fname : String) (hdry : args.dryRun = true) :
    ∀ (nodes : List String) (j0 : Nat) (c : Ctrs) (ps : Bool),
    (∀ s t ec, Ev.powerOffSent s t ec ∉ (processNodes w args fi fname nodes j0 c ps).evs) ∧
    (∀ s t e, Ev.powerOffRaised s t e ∉ (processNodes w args fi fname nodes j0 c ps).evs) ∧
    (∀ f n ok, Ev.waitDownEv f n ok ∉ (processNodes w args fi fname nodes j0 c ps).evs) := by
  intro nodes
  induction nodes with
  | nil =>
      intro j0 c ps
      refine ⟨?_, ?_, ?_⟩ <;> intro a b cc h <;> simp [processNodes] at h
  | cons nd rest ih =>
      intro j0 c ps
      cases ho : (processNode w args fi fname j0 nd c ps).exc with
      | some e =>
          have hevs : (processNodes w args fi fname (nd :: rest) j0 c ps).evs
              = (processNode w args fi fname j0 nd c ps).evs := by
            simp [processNodes, ho]
          rw [hevs]
          exact processNode_dry w args fi fname j0 nd c ps hdry
      | none =>
          have hevs : (processNodes w args fi fname (nd :: rest) j0 c ps).evs
              = (processNode w args fi fname j0 nd c ps).evs ++
                (processNodes w args fi fname rest (j0 + 1)
                  (processNode w args fi fname j0 nd c ps).c
                  (processNode w args fi fname j0 nd c ps).ps).evs := by
            simp [processNodes, ho]
          rw [hevs]
          have h1 := processNode_dry w args fi fname j0 nd c ps hdry
          have h2 := ih (j0 + 1) (processNode w args fi fname j0 nd c ps).c
            (processNode w args fi fname j0 nd c ps).ps
          refine ⟨?_, ?_, ?_⟩ <;> intro a b cc h <;>
            simp only [List.mem_append] at h
          · rcases h with h | h
            · exact h1.1 a b cc h
            · exact h2.1 a b cc h
          · rcases h with h | h
            · exact h1.2.1 a b cc h
            · exact h2.2.1 a b cc h
          · rcases h with h | h
            · exact h1.2.2 a b cc h
            · exact h2.2.2 a b cc h


/-- `processNode_dry_live` with the counters given abstractly. -/
theorem processNode_dry_live2 (w : World) (ns : Bool) (fi : Nat)
    (fname : String) (j : Nat) (node : String) (c1 c2 : Ctrs)
    (ps1 ps2 : Bool) (hkc : c1.kc = c2.kc) (hkd : c1.kd = c2.kd)
    (hS : ∀ k t, ∃ code, w.shutdownExit k t = Except.ok code) :
    obsEvs (processNode w ⟨true, ns⟩ fi fname j node c1 ps1).evs =
      obsEvs (processNode w ⟨false, ns⟩ fi fname j node c2 ps2).evs ∧
    (processNode w ⟨true, ns⟩ fi fname j node c1 ps1).c.kc =
      (processNode w ⟨false, ns⟩ fi fname j node c2 ps2).c.kc ∧
    (processNode w ⟨true, ns⟩ fi fname j node c1 ps1).c.kd =
      (processNode w ⟨false, ns⟩ fi fname j node c2 ps2).c.kd ∧
    (processNode w ⟨true, ns⟩ fi fname j node c1 ps1).exc =
      (processNode w ⟨false, ns⟩ fi fname j node c2 ps2).exc := by
  obtain ⟨a, b, u, v⟩ := c1
  obtain ⟨a2, b2, u2, v2⟩ := c2
  simp only at hkc hkd
  subst hkc
  subst hkd
  exact processNode_dry_live w ns fi fname j node a b u v u2 v2 ps1 ps2 hS


/-- Dry-run and live node loops stay in lockstep on connections,
diagnoses and issues, provided every live power-off execution returns. -/
theorem processNodes_dry_live (w : World) (ns : Bool) (fi : Nat)
    (fname : String)
    (hS : ∀ k t, ∃ code, w.shutdownExit k t = Except.ok code) :
    ∀ (nodes : List String) (j0 : Nat) (c1 c2 : Ctrs) (ps1 ps2 : Bool),
      c1.kc = c2.kc → c1.kd = c2.kd →
    obsEvs (processNodes w ⟨true, ns⟩ fi fname nodes j0 c1 ps1).evs =
      obsEvs (processNodes w ⟨false, ns⟩ fi fname nodes j0 c2 ps2).evs ∧
    (processNodes w ⟨true, ns⟩ fi fname nodes j0 c1 ps1).c.kc =
      (processNodes w ⟨false, ns⟩ fi fname nodes j0 c2 ps2).c.kc ∧
    (processNodes w ⟨true, ns⟩ fi fname nodes j0 c1 ps1).c.kd =
      (processNodes w ⟨false, ns⟩ fi fname nodes j0 c2 ps2).c.kd ∧
    (processNodes w ⟨true, ns⟩ fi fname nodes j0 c1 ps1).exc =
      (processNodes w ⟨false, ns⟩ fi fname nodes j0 c2 ps2).exc := by
  intro nodes
  induction nodes with
  | nil =>
      intro j0 c1 c2 ps1 ps2 hkc hkd
      simp [processNodes, obsEvs, hkc, hkd]
  | cons nd rest ih =>
      intro j0 c1 c2 ps1 ps2 hkc hkd
      obtain ⟨hobs, hkc2, hkd2, hexc⟩ :=
        processNode_dry_live2 w ns fi fname j0 nd c1 c2 ps1 ps2 hkc hkd hS
      cases ho : (processNode w ⟨true, ns⟩ fi fname j0 nd c1 ps1).exc with
      | some e =>
          have ho2 : (processNode w ⟨false, ns⟩ fi fname j0 nd c2 ps2).exc
              = some e := by rw [← hexc, ho]
          have hA : processNodes w ⟨true, ns⟩ fi fname (nd :: rest) j0 c1 ps1
              = ⟨(processNode w ⟨true, ns⟩ fi fname j0 nd c1 ps1).evs,
                 (processNode w ⟨true, ns⟩ fi fname j0 nd c1 ps1).c,
                 (processNode w ⟨true, ns⟩ fi fname j0 nd c1 ps1).ps,
                 some e⟩ := by
            simp [processNodes, ho]
          have hB : processNodes w ⟨false, ns⟩ fi fname (nd :: rest) j0 c2 ps2
              = ⟨(processNode w ⟨false, ns⟩ fi fname j0 nd c2 ps2).evs,
                 (processNode w ⟨false, ns⟩ fi fname j0 nd c2 ps2).c,
                 (processNode w ⟨false, ns⟩ fi fname j0 nd c2 ps2).ps,
                 some e⟩ := by
            simp [processNodes, ho2]
          rw [hA, hB]
          exact ⟨hobs, hkc2, hkd2, rfl⟩
      | none =>
          have ho2 : (processNode w ⟨false, ns⟩ fi fname j0 nd c2 ps2).exc
              = none := by rw [← hexc, ho]
          have hA : processNodes w ⟨true, ns⟩ fi fname (nd :: rest) j0 c1 ps1
              = ⟨(processNode w ⟨true, ns⟩ fi fname j0 nd c1 ps1).evs ++
                  (processNodes w ⟨true, ns⟩ fi fname rest (j0 + 1)
                    (processNode w ⟨true, ns⟩ fi fname j0 nd c1 ps1).c
                    (processNode w ⟨true, ns⟩ fi fname j0 nd c1 ps1).ps).evs,
                 (processNodes w ⟨true, ns⟩ fi fname rest (j0 + 1)
                    (processNode w ⟨true, ns⟩ fi fname j0 nd c1 ps1).c
                    (processNode w ⟨true, ns⟩ fi fname j0 nd c1 ps1).ps).c,
                 (processNodes w ⟨true, ns⟩ fi fname rest (j0 + 1)
                    (processNode w ⟨true, ns⟩ fi fname j0 nd c1 ps1).c
                    (processNode w ⟨true, ns⟩ fi fname j0 nd c1 ps1).ps).ps,
                 (processNodes w ⟨true, ns⟩ fi fname rest (j0 + 1)
                    (processNode w ⟨true, ns⟩ fi fname j0 nd c1 ps1).c
                    (processNode w ⟨true, ns⟩ fi fname j0 nd c1 ps1).ps).exc⟩ := by
            simp [processNodes, ho]
          have hB : processNodes w ⟨false, ns⟩ fi fname (nd :: rest) j0 c2 ps2
              = ⟨(processNode w ⟨false, ns⟩ fi fname j0 nd c2 ps2).evs ++
                  (processNodes w ⟨false, ns⟩ fi fname rest (j0 + 1)
                    (processNode w ⟨false, ns⟩ fi fname j0 nd c2 ps2).c
                    (processNode w ⟨false, ns⟩ fi fname j0 nd c2 ps2).ps).evs,
                 (processNodes w ⟨false, ns⟩ fi fname rest (j0 + 1)
                    (processNode w ⟨false, ns⟩ fi fname j0 nd c2 ps2).c
                    (processNode w ⟨false, ns⟩ fi fname j0 nd c2 ps2).ps).c,
                 (processNodes w ⟨false, ns⟩ fi fname rest (j0 + 1)
                    (processNode w ⟨false, ns⟩ fi fname j0 nd c2 ps2).c
                    (processNode w ⟨false, ns⟩ fi fname j0 nd c2 ps2).ps).ps,
                 (processNodes w ⟨false, ns⟩ fi fname rest (j0 + 1)
                    (processNode w ⟨false, ns⟩ fi fname j0 nd c2 ps2).c
                    (processNode w ⟨false, ns⟩ fi fname j0 nd c2 ps2).ps).exc⟩ := by
            simp [processNodes, ho2]
          rw [hA, hB]
          obtain ⟨robs, rkc, rkd, rexc⟩ := ih (j0 + 1)
            (processNode w ⟨true, ns⟩ fi fname j0 nd c1 ps1).c
            (processNode w ⟨false, ns⟩ fi fname j0 nd c2 ps2).c
            (processNode w ⟨true, ns⟩ fi fname j0 nd c1 ps1).ps
            (processNode w ⟨false, ns⟩ fi fname j0 nd c2 ps2).ps hkc2 hkd2
          refine ⟨?_, rkc, rkd, rexc⟩
          simp only [obsEvs, List.filter_append] at hobs robs ⊢
          rw [hobs, robs]


/-- Node-step events satisfy the fleet-level constraints. -/
theorem nodeEvOk_fleetEvOk (fi jj : Nat) (n fname : String) (ev : Ev)
    (h : nodeEvOk fi jj n ev) : fleetEvOk fi fname ev := by
  cases ev <;> simp [nodeEvOk, fleetEvOk] at h ⊢ <;> tauto


/-- In the connected, no-exception case a fleet step's trace is the
fleet preamble, the node-loop trace, a tail that touches only the fleet
host's shutdown (or the protective skip), and the closing of the fleet
session. -/
theorem processFleet_ok_none_decomp (w : World) (args : Args) (fi : Nat)
    (f : Fleet) (c : Ctrs) (u : Unit)
    (hc : w.connect c.kc f.name = Except.ok u)
    (ho : (processNodes w args fi f.name f.nodes 0
      ⟨c.kc + 1, c.kd, c.kw, c.ks⟩ false).exc = none) :
    ∃ tail : List Ev,
      (processFleet w args fi f c).evs
        = [Ev.connectAttempt (.fleet fi f.name),
           Ev.connected (.fleet fi f.name)] ++
          (processNodes w args fi f.name f.nodes 0
            ⟨c.kc + 1, c.kd, c.kw, c.ks⟩ false).evs ++ tail ++
          [Ev.closeSession (.fleet fi f.name)] ∧
      ∀ ev ∈ tail, ev = Ev.protectiveSkip fi f.name ∨
        (∃ d, ev = Ev.shutdownCall (Sess.fleet fi f.name) f.name d) ∨
        (∃ cc, ev = Ev.powerOffSent (Sess.fleet fi f.name) f.name cc) ∨
        (∃ e2, ev = Ev.powerOffRaised (Sess.fleet fi f.name) f.name e2) := by
  by_cases hps : (processNodes w args fi f.name f.nodes 0
      ⟨c.kc + 1, c.kd, c.kw, c.ks⟩ false).ps = true
  · refine ⟨[Ev.protectiveSkip fi f.name], ?_, ?_⟩
    · simp [processFleet, hc, ho, hps]
    · intro ev h
      simp only [List.mem_singleton] at h
      subst h
      exact Or.inl rfl
  · by_cases hdry : args.dryRun = true
    · refine ⟨[Ev.shutdownCall (Sess.fleet fi f.name) f.name true], ?_, ?_⟩
      · simp [processFleet, hc, ho, hps, hdry, shutdown_host]
      · intro ev h
        simp only [List.mem_singleton] at h
        subst h
        exact Or.inr (Or.inl ⟨true, rfl⟩)
    · cases hsx : w.shutdownExit (processNodes w args fi f.name f.nodes 0
          ⟨c.kc + 1, c.kd, c.kw, c.ks⟩ false).c.ks f.name with
      | ok code =>
          refine ⟨[Ev.shutdownCall (Sess.fleet fi f.name) f.name false,
            Ev.powerOffSent (Sess.fleet fi f.name) f.name code], ?_, ?_⟩
          · simp [processFleet, hc, ho, hps, hdry, hsx, shutdown_host]
          · intro ev h
            simp only [List.mem_cons, List.not_mem_nil, or_false] at h
            rcases h with h | h <;> subst h
            · exact Or.inr (Or.inl ⟨false, rfl⟩)
            · exact Or.inr (Or.inr (Or.inl ⟨code, rfl⟩))
      | error e2 =>
          refine ⟨[Ev.shutdownCall (Sess.fleet fi f.name) f.name false,
            Ev.powerOffRaised (Sess.fleet fi f.name) f.name e2], ?_, ?_⟩
          · simp [processFleet, hc, ho, hps, hdry, hsx, shutdown_host]
          · intro ev h
            simp only [List.mem_cons, List.not_mem_nil, or_false] at h
            rcases h with h | h <;> subst h
            · exact Or.inr (Or.inl ⟨false, rfl⟩)
            · exact Or.inr (Or.inr (Or.inr ⟨e2, rfl⟩))


/-- Every event of a fleet step satisfies its location constraints. -/
theorem processFleet_evOk (w : World) (args : Args) (fi : Nat) (f : Fleet)
    (c : Ctrs) :
    ∀ ev ∈ (processFleet w args fi f c).evs, fleetEvOk fi f.name ev := by
  intro ev hev
  cases hc : w.connect c.kc f.name with
  | error e =>
      cases hd : w.diagnose c.kd Sess.gateway f.name with
      | error e2 =>
          simp [processFleet, hc, hd] at hev
          rcases hev with h | h | h <;> subst h <;> simp [fleetEvOk]
      | ok diag =>
          simp [processFleet, hc, hd] at hev
          rcases hev with h | h | h | h <;> subst h <;> simp [fleetEvOk]
  | ok u =>
      cases ho : (processNodes w args fi f.name f.nodes 0
          ⟨c.kc + 1, c.kd, c.kw, c.ks⟩ false).exc with
      | some e =>
          have hevs : (processFleet w args fi f c).evs
              = [Ev.connectAttempt (.fleet fi f.name),
                 Ev.connected (.fleet fi f.name)] ++
                (processNodes w args fi f.name f.nodes 0
                  ⟨c.kc + 1, c.kd, c.kw, c.ks⟩ false).evs ++
                [Ev.closeSession (.fleet fi f.name)] := by
            simp [processFleet, hc, ho]
          rw [hevs] at hev
          rcases List.mem_append.1 hev with h12 | hclose
          · rcases List.mem_append.1 h12 with hpre | hnodes
            · simp only [List.mem_cons, List.not_mem_nil, or_false] at hpre
              rcases hpre with h | h <;> subst h <;> simp [fleetEvOk]
            · obtain ⟨jj, nn, _, hok⟩ :=
                processNodes_evOk w args fi f.name f.nodes 0 _ _ _ hnodes
              exact nodeEvOk_fleetEvOk fi jj nn f.name ev hok
          · simp only [List.mem_singleton] at hclose
            subst hclose
            simp [fleetEvOk]
      | none =>
          obtain ⟨tail, hevs, htl⟩ :=
            processFleet_ok_none_decomp w args fi f c u hc ho
          rw [hevs] at hev
          rcases List.mem_append.1 hev with h123 | hclose
          · rcases List.mem_append.1 h123 with h12 | htail
            · rcases List.mem_append.1 h12 with hpre | hnodes
              · simp only [List.mem_cons, List.not_mem_nil, or_false] at hpre
                rcases hpre with h | h <;> subst h <;> simp [fleetEvOk]
              · obtain ⟨jj, nn, _, hok⟩ :=
                  processNodes_evOk w args fi f.name f.nodes 0 _ _ _ hnodes
                exact nodeEvOk_fleetEvOk fi jj nn f.name ev hok
            · rcases htl ev htail with h | ⟨d, h⟩ | ⟨cc2, h⟩ | ⟨e2, h⟩ <;>
                subst h <;> simp [fleetEvOk]
          · simp only [List.mem_singleton] at hclose
            subst hclose
            simp [fleetEvOk]


/-- In live strict mode, a fleet whose node loop shows a node connect
failure, a failed wait, or a completed node failure diagnosis never has
its own host's `shutdown_host` invoked. -/
theorem processFleet_trigger (w : World) (args : Args) (fi : Nat)
    (f : Fleet) (c : Ctrs) (hdry : args.dryRun = false)
    (hstrict : args.nonStrict = false)
    (htrig :
      (∃ j n e, Ev.connectFailed (Sess.node fi j n) e ∈ (processFleet w args fi f c).evs) ∨
      (∃ n, Ev.waitDownEv fi n false ∈ (processFleet w args fi f c).evs) ∨
      (∃ j t, Ev.diagEv .nodeFail fi j t true ∈ (processFleet w args fi f c).evs)) :
    ∀ nm tag dr, Ev.shutdownCall (Sess.fleet fi nm) tag dr ∉
      (processFleet w args fi f c).evs := by
  intro nm tag dr hmem
  cases hc : w.connect c.kc f.name with
  | error e =>
      cases hd : w.diagnose c.kd Sess.gateway f.name with
      | error e2 => simp [processFleet, hc, hd] at hmem
      | ok diag => simp [processFleet, hc, hd] at hmem
  | ok u =>
      cases ho : (processNodes w args fi f.name f.nodes 0
          ⟨c.kc + 1, c.kd, c.kw, c.ks⟩ false).exc with
      | some e =>
          have hevs : (processFleet w args fi f c).evs
              = [Ev.connectAttempt (.fleet fi f.name),
                 Ev.connected (.fleet fi f.name)] ++
                (processNodes w args fi f.name f.nodes 0
                  ⟨c.kc + 1, c.kd, c.kw, c.ks⟩ false).evs ++
                [Ev.closeSession (.fleet fi f.name)] := by
            simp [processFleet, hc, ho]
          rw [hevs] at hmem
          simp only [List.mem_append, List.mem_cons, List.mem_singleton,
            List.not_mem_nil, or_false] at hmem
          rcases hmem with ((h | h) | h) | h
          · cases h
          · cases h
          · obtain ⟨jj, nn, _, hok⟩ :=
              processNodes_evOk w args fi f.name f.nodes 0 _ _ _ h
            simp [nodeEvOk] at hok
          · cases h
      | none =>
          obtain ⟨tail, hevs, htl⟩ :=
            processFleet_ok_none_decomp w args fi f c u hc ho
          have hloc :
              (∃ s e, Ev.connectFailed s e ∈ (processNodes w args fi f.name
                f.nodes 0 ⟨c.kc + 1, c.kd, c.kw, c.ks⟩ false).evs) ∨
              (∃ ff n, Ev.waitDownEv ff n false ∈ (processNodes w args fi f.name
                f.nodes 0 ⟨c.kc + 1, c.kd, c.kw, c.ks⟩ false).evs) ∨
              (∃ ff jj t, Ev.diagEv .nodeFail ff jj t true ∈ (processNodes w args
                fi f.name f.nodes 0 ⟨c.kc + 1, c.kd, c.kw, c.ks⟩ false).evs) := by
            rw [hevs] at htrig
            rcases htrig with ⟨j, n, e, h⟩ | ⟨n, h⟩ | ⟨j, t, h⟩
            · rcases List.mem_append.1 h with h123 | hclose
              · rcases List.mem_append.1 h123 with h12 | htail
                · rcases List.mem_append.1 h12 with hpre | hnodes
                  · simp at hpre
                  · exact Or.inl ⟨_, _, hnodes⟩
                · exfalso
                  rcases htl _ htail with hh | ⟨d, hh⟩ | ⟨cc2, hh⟩ | ⟨e2, hh⟩ <;>
                    simp at hh
              · simp at hclose
            · rcases List.mem_append.1 h with h123 | hclose
              · rcases List.mem_append.1 h123 with h12 | htail
                · rcases List.mem_append.1 h12 with hpre | hnodes
                  · simp at hpre
                  · exact Or.inr (Or.inl ⟨_, _, hnodes⟩)
                · exfalso
                  rcases htl _ htail with hh | ⟨d, hh⟩ | ⟨cc2, hh⟩ | ⟨e2, hh⟩ <;>
                    simp at hh
              · simp at hclose
            · rcases List.mem_append.1 h with h123 | hclose
              · rcases List.mem_append.1 h123 with h12 | htail
                · rcases List.mem_append.1 h12 with hpre | hnodes
                  · simp at hpre
                  · exact Or.inr (Or.inr ⟨_, _, _, hnodes⟩)
                · exfalso
                  rcases htl _ htail with hh | ⟨d, hh⟩ | ⟨cc2, hh⟩ | ⟨e2, hh⟩ <;>
                    simp at hh
              · simp at hclose
          rcases processNodes_trigger w args fi f.name hdry hstrict f.nodes 0
              ⟨c.kc + 1, c.kd, c.kw, c.ks⟩ false hloc with hps2 | hexc
          · have hevs2 : (processFleet w args fi f c).evs
                = [Ev.connectAttempt (.fleet fi f.name),
                   Ev.connected (.fleet fi f.name)] ++
                  (processNodes w args fi f.name f.nodes 0
                    ⟨c.kc + 1, c.kd, c.kw, c.ks⟩ false).evs ++
                  [Ev.protectiveSkip fi f.name] ++
                  [Ev.closeSession (.fleet fi f.name)] := by
              simp [processFleet, hc, ho, hps2]
            rw [hevs2] at hmem
            simp only [List.mem_append, List.mem_cons, List.mem_singleton,
              List.not_mem_nil, or_false] at hmem
            rcases hmem with (((h | h) | h) | h) | h
            · cases h
            · cases h
            · obtain ⟨jj, nn, _, hok⟩ :=
                processNodes_evOk w args fi f.name f.nodes 0 _ _ _ h
              simp [nodeEvOk] at hok
            · cases h
            · cases h
          · exact hexc ho


/-- When every diagnosis returns and every live power-off execution
returns an exit status, a fleet step propagates no exception. -/
theorem processFleet_exc_none (w : World) (args : Args) (fi : Nat)
    (f : Fleet) (c : Ctrs)
    (hD : ∀ k v t, ∃ d, w.diagnose k v t = Except.ok d)
    (hS : ∀ k t, ∃ code, w.shutdownExit k t = Except.ok code) :
    (processFleet w args fi f c).exc = none := by
  cases hc : w.connect c.kc f.name with
  | error e =>
      cases hd : w.diagnose c.kd Sess.gateway f.name with
      | error e2 =>
          obtain ⟨d, hb⟩ := hD c.kd Sess.gateway f.name
          rw [hd] at hb
          cases hb
      | ok diag => simp [processFleet, hc, hd]
  | ok u =>
      have ho := processNodes_exc_none w args fi f.name hD hS f.nodes 0
        ⟨c.kc + 1, c.kd, c.kw, c.ks⟩ false
      by_cases hps : (processNodes w args fi f.name f.nodes 0
          ⟨c.kc + 1, c.kd, c.kw, c.ks⟩ false).ps = true
      · simp [processFleet, hc, ho, hps]
      · by_cases hdry : args.dryRun = true
        · simp [processFleet, hc, ho, hps, hdry, shutdown_host]
        · obtain ⟨code, hsx⟩ := hS (processNodes w args fi f.name f.nodes 0
            ⟨c.kc + 1, c.kd, c.kw, c.ks⟩ false).c.ks f.name
          simp [processFleet, hc, ho, hps, hdry, hsx, shutdown_host]


/-- When every diagnosis returns, a fleet connect failure leaves behind
a stage-`"workstation"` issue naming the fleet host. -/
theorem processFleet_ws_issue (w : World) (args : Args) (fi : Nat)
    (f : Fleet) (c : Ctrs)
    (hD : ∀ k v t, ∃ d, w.diagnose k v t = Except.ok d)
    (fX : Nat) (nm : String) (e' : PyError)
    (hmem : Ev.connectFailed (Sess.fleet fX nm) e' ∈
      (processFleet w args fi f c).evs) :
    ∃ iss, Ev.issueEv iss ∈ (processFleet w args fi f c).evs ∧
      iss.stage = "workstation" ∧ iss.target = nm := by
  cases hc : w.connect c.kc f.name with
  | error e =>
      cases hd : w.diagnose c.kd Sess.gateway f.name with
      | error e2 =>
          obtain ⟨d, hb⟩ := hD c.kd Sess.gateway f.name
          rw [hd] at hb
          cases hb
      | ok diag =>
          have hnm : nm = f.name := by
            simp [processFleet, hc, hd] at hmem
            exact hmem.1.2
          refine ⟨⟨"workstation", "triton", f.name,
            (classify_failure e (some diag)).1,
            (classify_failure e (some diag)).2, some diag, e.msg⟩, ?_, rfl, by
              simp [hnm]⟩
          simp [processFleet, hc, hd]
  | ok u =>
      exfalso
      -- a `connectFailed` with a fleet session can only come from the
      -- fleet connect failure branch; in the connected branch every
      -- `connectFailed` carries a node session
      cases ho : (processNodes w args fi f.name f.nodes 0
          ⟨c.kc + 1, c.kd, c.kw, c.ks⟩ false).exc with
      | some e =>
          have hevs : (processFleet w args fi f c).evs
              = [Ev.connectAttempt (.fleet fi f.name),
                 Ev.connected (.fleet fi f.name)] ++
                (processNodes w args fi f.name f.nodes 0
                  ⟨c.kc + 1, c.kd, c.kw, c.ks⟩ false).evs ++
                [Ev.closeSession (.fleet fi f.name)] := by
            simp [processFleet, hc, ho]
          rw [hevs] at hmem
          simp only [List.mem_append, List.mem_cons, List.mem_singleton,
            List.not_mem_nil, or_false] at hmem
          rcases hmem with ((h | h) | h) | h
          · cases h
          · cases h
          · obtain ⟨jj, nn, _, hok2⟩ :=
              processNodes_evOk w args fi f.name f.nodes 0 _ _ _ h
            simp [nodeEvOk] at hok2
          · cases h
      | none =>
          obtain ⟨tail, hevs, htl⟩ :=
            processFleet_ok_none_decomp w args fi f c u hc ho
          rw [hevs] at hmem
          rcases List.mem_append.1 hmem with h123 | hclose
          · rcases List.mem_append.1 h123 with h12 | htail
            · rcases List.mem_append.1 h12 with hpre | hnodes
              · simp at hpre
              · obtain ⟨jj, nn, _, hok2⟩ :=
                  processNodes_evOk w args fi f.name f.nodes 0 _ _ _ hnodes
                simp [nodeEvOk] at hok2
            · rcases htl _ htail with hh | ⟨d, hh⟩ | ⟨cc2, hh⟩ | ⟨e2, hh⟩ <;>
                simp at hh
          · simp at hclose


/-- Fleet-level version of `processNodes_connectFailed_issue`. -/
theorem processFleet_node_issue (w : World) (args : Args) (fi : Nat)
    (f : Fleet) (c : Ctrs)
    (hD : ∀ k v t, ∃ d, w.diagnose k v t = Except.ok d)
    (fX j : Nat) (n : String) (e' : PyError)
    (hmem : Ev.connectFailed (Sess.node fX j n) e' ∈
      (processFleet w args fi f c).evs) :
    ∃ iss, Ev.issueEv iss ∈ (processFleet w args fi f c).evs ∧
      iss.stage = "node" ∧ iss.target = n := by
  cases hc : w.connect c.kc f.name with
  | error e =>
      exfalso
      cases hd : w.diagnose c.kd Sess.gateway f.name with
      | error e2 => simp [processFleet, hc, hd] at hmem
      | ok diag => simp [processFleet, hc, hd] at hmem
  | ok u =>
      cases ho : (processNodes w args fi f.name f.nodes 0
          ⟨c.kc + 1, c.kd, c.kw, c.ks⟩ false).exc with
      | some e =>
          have hevs : (processFleet w args fi f c).evs
              = [Ev.connectAttempt (.fleet fi f.name),
                 Ev.connected (.fleet fi f.name)] ++
                (processNodes w args fi f.name f.nodes 0
                  ⟨c.kc + 1, c.kd, c.kw, c.ks⟩ false).evs ++
                [Ev.closeSession (.fleet fi f.name)] := by
            simp [processFleet, hc, ho]
          rw [hevs] at hmem ⊢
          simp only [List.mem_append, List.mem_cons, List.mem_singleton,
            List.not_mem_nil, or_false] at hmem
          rcases hmem with ((h | h) | h) | h
          · cases h
          · cases h
          · obtain ⟨iss, hiss, hst, htg⟩ :=
              processNodes_connectFailed_issue w args fi f.name hD f.nodes 0
                _ _ fX j n e' h
            exact ⟨iss, by simp [List.mem_append, hiss], hst, htg⟩
          · cases h
      | none =>
          obtain ⟨tail, hevs, htl⟩ :=
            processFleet_ok_none_decomp w args fi f c u hc ho
          rw [hevs] at hmem ⊢
          rcases List.mem_append.1 hmem with h123 | hclose
          · rcases List.mem_append.1 h123 with h12 | htail
            · rcases List.mem_append.1 h12 with hpre | hnodes
              · simp at hpre
              · obtain ⟨iss, hiss, hst, htg⟩ :=
                  processNodes_connectFailed_issue w args fi f.name hD f.nodes
                    0 _ _ fX j n e' hnodes
                exact ⟨iss, by simp [List.mem_append, hiss], hst, htg⟩
            · exfalso
              rcases htl _ htail with hh | ⟨d, hh⟩ | ⟨cc2, hh⟩ | ⟨e2, hh⟩ <;>
                simp at hh
          · exfalso
            simp at hclose


/-- Fleet-level version of `processNodes_nodeFail_issue`. -/
theorem processFleet_nodeFail_issue (w : World) (args : Args) (fi : Nat)
    (f : Fleet) (c : Ctrs) (fX j : Nat) (t : String)
    (hmem : Ev.diagEv .nodeFail fX j t true ∈
      (processFleet w args fi f c).evs) :
    ∃ iss, Ev.issueEv iss ∈ (processFleet w args fi f c).evs ∧
      iss.stage = "node" ∧ iss.target = t := by
  cases hc : w.connect c.kc f.name with
  | error e =>
      exfalso
      cases hd : w.diagnose c.kd Sess.gateway f.name with
      | error e2 => simp [processFleet, hc, hd] at hmem
      | ok diag => simp [processFleet, hc, hd] at hmem
  | ok u =>
      cases ho : (processNodes w args fi f.name f.nodes 0
          ⟨c.kc + 1, c.kd, c.kw, c.ks⟩ false).exc with
      | some e =>
          have hevs : (processFleet w args fi f c).evs
              = [Ev.connectAttempt (.fleet fi f.name),
                 Ev.connected (.fleet fi f.name)] ++
                (processNodes w args fi f.name f.nodes 0
                  ⟨c.kc + 1, c.kd, c.kw, c.ks⟩ false).evs ++
                [Ev.closeSession (.fleet fi f.name)] := by
            simp [processFleet, hc, ho]
          rw [hevs] at hmem ⊢
          simp only [List.mem_append, List.mem_cons, List.mem_singleton,
            List.not_mem_nil, or_false] at hmem
          rcases hmem with ((h | h) | h) | h
          · cases h
          · cases h
          · obtain ⟨iss, hiss, hst, htg⟩ :=
              processNodes_nodeFail_issue w args fi f.name f.nodes 0
                _ _ fX j t h
            exact ⟨iss, by simp [List.mem_append, hiss], hst, htg⟩
          · cases h
      | none =>
          obtain ⟨tail, hevs, htl⟩ :=
            processFleet_ok_none_decomp w args fi f c u hc ho
          rw [hevs] at hmem ⊢
          rcases List.mem_append.1 hmem with h123 | hclose
          · rcases List.mem_append.1 h123 with h12 | htail
            · rcases List.mem_append.1 h12 with hpre | hnodes
              · simp at hpre
              · obtain ⟨iss, hiss, hst, htg⟩ :=
                  processNodes_nodeFail_issue w args fi f.name f.nodes 0
                    _ _ fX j t hnodes
                exact ⟨iss, by simp [List.mem_append, hiss], hst, htg⟩
            · exfalso
              rcases htl _ htail with hh | ⟨d, hh⟩ | ⟨cc2, hh⟩ | ⟨e2, hh⟩ <;>
                simp at hh
          · exfalso
            simp at hclose


/-- Fleet-level version of `processNodes_precheck_no_attempt`. -/
theorem processFleet_precheck_no_attempt (w : World) (args : Args)
    (fi : Nat) (f : Fleet) (c : Ctrs) (j : Nat) (t nd : String)
    (hpre : Ev.diagEv .precheck fi j t false ∈ (processFleet w args fi f c).evs) :
    Ev.connectAttempt (Sess.node fi j nd) ∉ (processFleet w args fi f c).evs := by
  intro hatt
  cases hc : w.connect c.kc f.name with
  | error e =>
      cases hd : w.diagnose c.kd Sess.gateway f.name with
      | error e2 => simp [processFleet, hc, hd] at hpre
      | ok diag => simp [processFleet, hc, hd] at hpre
  | ok u =>
      cases ho : (processNodes w args fi f.name f.nodes 0
          ⟨c.kc + 1, c.kd, c.kw, c.ks⟩ false).exc with
      | some e =>
          have hevs : (processFleet w args fi f c).evs
              = [Ev.connectAttempt (.fleet fi f.name),
                 Ev.connected (.fleet fi f.name)] ++
                (processNodes w args fi f.name f.nodes 0
                  ⟨c.kc + 1, c.kd, c.kw, c.ks⟩ false).evs ++
                [Ev.closeSession (.fleet fi f.name)] := by
            simp [processFleet, hc, ho]
          rw [hevs] at hpre hatt
          simp only [List.mem_append, List.mem_cons, List.mem_singleton,
            List.not_mem_nil, or_false] at hpre hatt
          rcases hpre with ((h | h) | hpre2) | h
          · cases h
          · cases h
          · rcases hatt with ((h | h) | hatt2) | h
            · cases h
            · cases h
            · exact processNodes_precheck_no_attempt w args fi f.name f.nodes
                0 _ _ j t nd hpre2 hatt2
            · cases h
          · cases h
      | none =>
          obtain ⟨tail, hevs, htl⟩ :=
            processFleet_ok_none_decomp w args fi f c u hc ho
          rw [hevs] at hpre hatt
          have hpre2 : Ev.diagEv .precheck fi j t false ∈
              (processNodes w args fi f.name f.nodes 0
                ⟨c.kc + 1, c.kd, c.kw, c.ks⟩ false).evs := by
            rcases List.mem_append.1 hpre with h123 | hclose
            · rcases List.mem_append.1 h123 with h12 | htail
              · rcases List.mem_append.1 h12 with hp | hn
                · simp at hp
                · exact hn
              · exfalso
                rcases htl _ htail with hh | ⟨d, hh⟩ | ⟨cc2, hh⟩ | ⟨e2, hh⟩ <;>
                  simp at hh
            · exfalso
              simp at hclose
          have hatt2 : Ev.connectAttempt (Sess.node fi j nd) ∈
              (processNodes w args fi f.name f.nodes 0
                ⟨c.kc + 1, c.kd, c.kw, c.ks⟩ false).evs := by
            rcases List.mem_append.1 hatt with h123 | hclose
            · rcases List.mem_append.1 h123 with h12 | htail
              · rcases List.mem_append.1 h12 with hp | hn
                · simp at hp
                · exact hn
              · exfalso
                rcases htl _ htail with hh | ⟨d, hh⟩ | ⟨cc2, hh⟩ | ⟨e2, hh⟩ <;>
                  simp at hh
            · exfalso
              simp at hclose
          exact processNodes_precheck_no_attempt w args fi f.name f.nodes 0
            _ _ j t nd hpre2 hatt2


/-- A fleet step closes exactly the sessions it opened. -/
theorem processFleet_count (w : World) (args : Args) (fi : Nat) (f : Fleet)
    (c : Ctrs) (s : Sess) :
    (processFleet w args fi f c).evs.count (Ev.connected s) =
    (processFleet w args fi f c).evs.count (Ev.closeSession s) := by
  cases hc : w.connect c.kc f.name with
  | error e =>
      cases hd : w.diagnose c.kd Sess.gateway f.name with
      | error e2 => simp [processFleet, hc, hd, List.count_cons]
      | ok diag => simp [processFleet, hc, hd, List.count_cons]
  | ok u =>
      have hcnt := processNodes_count w args fi f.name f.nodes 0
        ⟨c.kc + 1, c.kd, c.kw, c.ks⟩ false s
      cases ho : (processNodes w args fi f.name f.nodes 0
          ⟨c.kc + 1, c.kd, c.kw, c.ks⟩ false).exc with
      | some e =>
          have hevs : (processFleet w args fi f c).evs
              = [Ev.connectAttempt (.fleet fi f.name),
                 Ev.connected (.fleet fi f.name)] ++
                (processNodes w args fi f.name f.nodes 0
                  ⟨c.kc + 1, c.kd, c.kw, c.ks⟩ false).evs ++
                [Ev.closeSession (.fleet fi f.name)] := by
            simp [processFleet, hc, ho]
          rw [hevs]
          simp [List.count_append, List.count_cons, hcnt]
      | none =>
          obtain ⟨tail, hevs, htl⟩ :=
            processFleet_ok_none_decomp w args fi f c u hc ho
          rw [hevs]
          have ht1 : tail.count (Ev.connected s) = 0 := by
            rw [List.count_eq_zero]
            intro hmem
            rcases htl _ hmem with hh | ⟨d, hh⟩ | ⟨cc2, hh⟩ | ⟨e2, hh⟩ <;>
              simp at hh
          have ht2 : tail.count (Ev.closeSession s) = 0 := by
            rw [List.count_eq_zero]
            intro hmem
            rcases htl _ hmem with hh | ⟨d, hh⟩ | ⟨cc2, hh⟩ | ⟨e2, hh⟩ <;>
              simp at hh
          simp [List.count_append, List.count_cons, hcnt, ht1, ht2]


/-- In dry-run mode a fleet step neither sends the power-off command,
nor lets its execution raise, nor runs the confirmation wait. -/
theorem processFleet_dry (w : World) (args : Args) (fi : Nat) (f : Fleet)
    (c : Ctrs) (hdry : args.dryRun = true) :
    (∀ s t ec, Ev.powerOffSent s t ec ∉ (processFleet w args fi f c).evs) ∧
    (∀ s t e, Ev.powerOffRaised s t e ∉ (processFleet w args fi f c).evs) ∧
    (∀ ff n ok, Ev.waitDownEv ff n ok ∉ (processFleet w args fi f c).evs) := by
  have hnodes := processNodes_dry w args fi f.name hdry f.nodes 0
    ⟨c.kc + 1, c.kd, c.kw, c.ks⟩ false
  cases hc : w.connect c.kc f.name with
  | error e =>
      cases hd : w.diagnose c.kd Sess.gateway f.name with
      | error e2 =>
          refine ⟨?_, ?_, ?_⟩ <;> intro a b cc h <;>
            simp [processFleet, hc, hd] at h
      | ok diag =>
          refine ⟨?_, ?_, ?_⟩ <;> intro a b cc h <;>
            simp [processFleet, hc, hd] at h
  | ok u =>
      cases ho : (processNodes w args fi f.name f.nodes 0
          ⟨c.kc + 1, c.kd, c.kw, c.ks⟩ false).exc with
      | some e =>
          have hevs : (processFleet w args fi f c).evs
              = [Ev.connectAttempt (.fleet fi f.name),
                 Ev.connected (.fleet fi f.name)] ++
                (processNodes w args fi f.name f.nodes 0
                  ⟨c.kc + 1, c.kd, c.kw, c.ks⟩ false).evs ++
                [Ev.closeSession (.fleet fi f.name)] := by
            simp [processFleet, hc, ho]
          rw [hevs]
          refine ⟨?_, ?_, ?_⟩ <;> intro a b cc h <;>
            simp only [List.mem_append, List.mem_cons, List.mem_singleton,
              List.not_mem_nil, or_false] at h
          · rcases h with ((h | h) | h) | h
            · cases h
            · cases h
            · exact hnodes.1 a b cc h
            · cases h
          · rcases h with ((h | h) | h) | h
            · cases h
            · cases h
            · exact hnodes.2.1 a b cc h
            · cases h
          · rcases h with ((h | h) | h) | h
            · cases h
            · cases h
            · exact hnodes.2.2 a b cc h
            · cases h
      | none =>
          have hevs : (processFleet w args fi f c).evs
              = [Ev.connectAttempt (.fleet fi f.name),
                 Ev.connected (.fleet fi f.name)] ++
                (processNodes w args fi f.name f.nodes 0
                  ⟨c.kc + 1, c.kd, c.kw, c.ks⟩ false).evs ++
                (if (processNodes w args fi f.name f.nodes 0
                    ⟨c.kc + 1, c.kd, c.kw, c.ks⟩ false).ps then
                  [Ev.protectiveSkip fi f.name]
                 else [Ev.shutdownCall (Sess.fleet fi f.name) f.name true]) ++
                [Ev.closeSession (.fleet fi f.name)] := by
            by_cases hps : (processNodes w args fi f.name f.nodes 0
                ⟨c.kc + 1, c.kd, c.kw, c.ks⟩ false).ps = true <;>
              simp [processFleet, hc, ho, hps, hdry, shutdown_host]
          rw [hevs]
          have htail : ∀ ev, ev ∈
              (if (processNodes w args fi f.name f.nodes 0
                  ⟨c.kc + 1, c.kd, c.kw, c.ks⟩ false).ps then
                [Ev.protectiveSkip fi f.name]
               else [Ev.shutdownCall (Sess.fleet fi f.name) f.name true]) →
              ev = Ev.protectiveSkip fi f.name ∨
              ev = Ev.shutdownCall (Sess.fleet fi f.name) f.name true := by
            intro ev hmem
            by_cases hps : (processNodes w args fi f.name f.nodes 0
                ⟨c.kc + 1, c.kd, c.kw, c.ks⟩ false).ps = true
            · rw [if_pos hps] at hmem
              simp only [List.mem_singleton] at hmem
              exact Or.inl hmem
            · rw [if_neg hps] at hmem
              simp only [List.mem_singleton] at hmem
              exact Or.inr hmem
          refine ⟨?_, ?_, ?_⟩ <;> intro a b cc h <;>
            simp only [List.mem_append, List.mem_cons, List.mem_singleton,
              List.not_mem_nil, or_false] at h
          · rcases h with (((h | h) | h) | h) | h
            · cases h
            · cases h
            · exact hnodes.1 a b cc h
            · rcases htail _ h with hh | hh <;> simp at hh
            · cases h
          · rcases h with (((h | h) | h) | h) | h
            · cases h
            · cases h
            · exact hnodes.2.1 a b cc h
            · rcases htail _ h with hh | hh <;> simp at hh
            · cases h
          · rcases h with (((h | h) | h) | h) | h
            · cases h
            · cases h
            · exact hnodes.2.2 a b cc h
            · rcases htail _ h with hh | hh <;> simp at hh
            · cases h


/-- Dry-run and live fleet steps stay in lockstep on connections,
diagnoses and issues, provided every live power-off execution returns. -/
theorem processFleet_dry_live (w : World) (ns : Bool) (fi : Nat)
    (f : Fleet) (c1 c2 : Ctrs) (hkc : c1.kc = c2.kc) (hkd : c1.kd = c2.kd)
    (hS : ∀ k t, ∃ code, w.shutdownExit k t = Except.ok code) :
    obsEvs (processFleet w ⟨true, ns⟩ fi f c1).evs =
      obsEvs (processFleet w ⟨false, ns⟩ fi f c2).evs ∧
    (processFleet w ⟨true, ns⟩ fi f c1).c.kc =
      (processFleet w ⟨false, ns⟩ fi f c2).c.kc ∧
    (processFleet w ⟨true, ns⟩ fi f c1).c.kd =
      (processFleet w ⟨false, ns⟩ fi f c2).c.kd ∧
    (processFleet w ⟨true, ns⟩ fi f c1).exc =
      (processFleet w ⟨false, ns⟩ fi f c2).exc := by
  obtain ⟨a, b, u, v⟩ := c1
  obtain ⟨a2, b2, u2, v2⟩ := c2
  simp only at hkc hkd
  subst hkc
  subst hkd
  cases hc : w.connect a f.name with
  | error e =>
      cases hd : w.diagnose b Sess.gateway f.name with
      | error e2 =>
          simp [processFleet, hc, hd, obsEvs, isShutdownRelated]
      | ok diag =>
          simp [processFleet, hc, hd, obsEvs, isShutdownRelated]
  | ok uu =>
      obtain ⟨robs, rkc, rkd, rexc⟩ := processNodes_dry_live w ns fi f.name
        hS f.nodes 0 ⟨a + 1, b, u, v⟩ ⟨a + 1, b, u2, v2⟩ false false rfl rfl
      cases ho : (processNodes w ⟨true, ns⟩ fi f.name f.nodes 0
          ⟨a + 1, b, u, v⟩ false).exc with
      | some e =>
          have ho2 : (processNodes w ⟨false, ns⟩ fi f.name f.nodes 0
              ⟨a + 1, b, u2, v2⟩ false).exc = some e := by rw [← rexc, ho]
          have hA : processFleet w ⟨true, ns⟩ fi f ⟨a, b, u, v⟩
              = ⟨[Ev.connectAttempt (.fleet fi f.name),
                  Ev.connected (.fleet fi f.name)] ++
                 (processNodes w ⟨true, ns⟩ fi f.name f.nodes 0
                   ⟨a + 1, b, u, v⟩ false).evs ++
                 [Ev.closeSession (.fleet fi f.name)],
                 (processNodes w ⟨true, ns⟩ fi f.name f.nodes 0
                   ⟨a + 1, b, u, v⟩ false).c, some e⟩ := by
            simp [processFleet, hc, ho]
          have hB : processFleet w ⟨false, ns⟩ fi f ⟨a, b, u2, v2⟩
              = ⟨[Ev.connectAttempt (.fleet fi f.name),
                  Ev.connected (.fleet fi f.name)] ++
                 (processNodes w ⟨false, ns⟩ fi f.name f.nodes 0
                   ⟨a + 1, b, u2, v2⟩ false).evs ++
                 [Ev.closeSession (.fleet fi f.name)],
                 (processNodes w ⟨false, ns⟩ fi f.name f.nodes 0
                   ⟨a + 1, b, u2, v2⟩ false).c, some e⟩ := by
            simp [processFleet, hc, ho2]
          rw [hA, hB]
          refine ⟨?_, rkc, rkd, rfl⟩
          simp only [obsEvs, List.filter_append] at robs ⊢
          rw [robs]
      | none =>
          have ho2 : (processNodes w ⟨false, ns⟩ fi f.name f.nodes 0
              ⟨a + 1, b, u2, v2⟩ false).exc = none := by rw [← rexc, ho]
          obtain ⟨code, hsx⟩ := hS (processNodes w ⟨false, ns⟩ fi f.name
            f.nodes 0 ⟨a + 1, b, u2, v2⟩ false).c.ks f.name
          have hobsA : obsEvs (processFleet w ⟨true, ns⟩ fi f ⟨a, b, u, v⟩).evs
              = [Ev.connectAttempt (.fleet fi f.name),
                 Ev.connected (.fleet fi f.name)] ++
                obsEvs (processNodes w ⟨true, ns⟩ fi f.name f.nodes 0
                  ⟨a + 1, b, u, v⟩ false).evs ++
                [Ev.closeSession (.fleet fi f.name)] := by
            by_cases hps : (processNodes w ⟨true, ns⟩ fi f.name f.nodes 0
                ⟨a + 1, b, u, v⟩ false).ps = true <;>
              simp [processFleet, hc, ho, hps, obsEvs, isShutdownRelated,
                shutdown_host, List.filter_append]
          have hobsB : obsEvs (processFleet w ⟨false, ns⟩ fi f ⟨a, b, u2, v2⟩).evs
              = [Ev.connectAttempt (.fleet fi f.name),
                 Ev.connected (.fleet fi f.name)] ++
                obsEvs (processNodes w ⟨false, ns⟩ fi f.name f.nodes 0
                  ⟨a + 1, b, u2, v2⟩ false).evs ++
                [Ev.closeSession (.fleet fi f.name)] := by
            by_cases hps : (processNodes w ⟨false, ns⟩ fi f.name f.nodes 0
                ⟨a + 1, b, u2, v2⟩ false).ps = true <;>
              simp [processFleet, hc, ho2, hps, hsx, obsEvs, isShutdownRelated,
                shutdown_host, List.filter_append]
          have hkcA : (processFleet w ⟨true, ns⟩ fi f ⟨a, b, u, v⟩).c.kc
              = (processNodes w ⟨true, ns⟩ fi f.name f.nodes 0
                  ⟨a + 1, b, u, v⟩ false).c.kc ∧
              (processFleet w ⟨true, ns⟩ fi f ⟨a, b, u, v⟩).c.kd
              = (processNodes w ⟨true, ns⟩ fi f.name f.nodes 0
                  ⟨a + 1, b, u, v⟩ false).c.kd ∧
              (processFleet w ⟨true, ns⟩ fi f ⟨a, b, u, v⟩).exc = none := by
            by_cases hps : (processNodes w ⟨true, ns⟩ fi f.name f.nodes 0
                ⟨a + 1, b, u, v⟩ false).ps = true <;>
              simp [processFleet, hc, ho, hps, shutdown_host]
          have hkcB : (processFleet w ⟨false, ns⟩ fi f ⟨a, b, u2, v2⟩).c.kc
              = (processNodes w ⟨false, ns⟩ fi f.name f.nodes 0
                  ⟨a + 1, b, u2, v2⟩ false).c.kc ∧
              (processFleet w ⟨false, ns⟩ fi f ⟨a, b, u2, v2⟩).c.kd
              = (processNodes w ⟨false, ns⟩ fi f.name f.nodes 0
                  ⟨a + 1, b, u2, v2⟩ false).c.kd ∧
              (processFleet w ⟨false, ns⟩ fi f ⟨a, b, u2, v2⟩).exc = none := by
            by_cases hps : (processNodes w ⟨false, ns⟩ fi f.name f.nodes 0
                ⟨a + 1, b, u2, v2⟩ false).ps = true <;>
              simp [processFleet, hc, ho2, hps, hsx, shutdown_host]
          refine ⟨?_, ?_, ?_, ?_⟩
          · rw [hobsA, hobsB, robs]
          · rw [hkcA.1, hkcB.1, rkc]
          · rw [hkcA.2.1, hkcB.2.1, rkd]
          · rw [hkcA.2.2, hkcB.2.2]


/-- Every event of the fleet loop satisfies the location constraints of
some fleet index `≥ i0`. -/
theorem runFleets_evOk (w : World) (args : Args) :
    ∀ (fleets : List Fleet) (i0 : Nat) (c : Ctrs),
      ∀ ev ∈ (runFleets w args fleets i0 c).evs,
        ∃ k fn, i0 ≤ k ∧ fleetEvOk k fn ev := by
  intro fleets
  induction fleets with
  | nil => intro i0 c ev hev; simp [runFleets] at hev
  | cons f rest ih =>
      intro i0 c ev hev
      cases ho : (processFleet w args i0 f c).exc with
      | some e =>
          have hevs : (runFleets w args (f :: rest) i0 c).evs
              = (processFleet w args i0 f c).evs := by
            simp [runFleets, ho]
          rw [hevs] at hev
          exact ⟨i0, f.name, le_refl _, processFleet_evOk w args i0 f c ev hev⟩
      | none =>
          have hevs : (runFleets w args (f :: rest) i0 c).evs
              = (processFleet w args i0 f c).evs ++
                (runFleets w args rest (i0 + 1) (processFleet w args i0 f c).c).evs := by
            simp [runFleets, ho]
          rw [hevs] at hev
          rcases List.mem_append.1 hev with h | h
          · exact ⟨i0, f.name, le_refl _, processFleet_evOk w args i0 f c ev h⟩
          · obtain ⟨k, fn, hk, hok⟩ := ih (i0 + 1) _ ev h
            exact ⟨k, fn, by omega, hok⟩


/-- In live strict mode, a fleet with a node connect failure, failed
wait, or completed node failure diagnosis never has its host's
`shutdown_host` invoked — fleet-loop version. -/
theorem runFleets_trigger (w : World) (args : Args)
    (hdry : args.dryRun = false) (hstrict : args.nonStrict = false) :
    ∀ (fleets : List Fleet) (i0 : Nat) (c : Ctrs) (fi : Nat),
    ((∃ j n e, Ev.connectFailed (Sess.node fi j n) e ∈ (runFleets w args fleets i0 c).evs) ∨
     (∃ n, Ev.waitDownEv fi n false ∈ (runFleets w args fleets i0 c).evs) ∨
     (∃ j t, Ev.diagEv .nodeFail fi j t true ∈ (runFleets w args fleets i0 c).evs)) →
    ∀ nm tag dr, Ev.shutdownCall (Sess.fleet fi nm) tag dr ∉
      (runFleets w args fleets i0 c).evs := by
  intro fleets
  induction fleets with
  | nil =>
      intro i0 c fi htrig nm tag dr hmem
      simp [runFleets] at hmem
  | cons f rest ih =>
      intro i0 c fi htrig nm tag dr hmem
      cases ho : (processFleet w args i0 f c).exc with
      | some e =>
          have hevs : (runFleets w args (f :: rest) i0 c).evs
              = (processFleet w args i0 f c).evs := by
            simp [runFleets, ho]
          rw [hevs] at htrig hmem
          have hfi : fi = i0 := by
            rcases htrig with ⟨j, n, e2, h⟩ | ⟨n, h⟩ | ⟨j, t, h⟩ <;>
              · have := processFleet_evOk w args i0 f c _ h
                simp [fleetEvOk] at this
                tauto
          subst hfi
          exact processFleet_trigger w args fi f c hdry hstrict htrig nm tag
            dr hmem
      | none =>
          have hevs : (runFleets w args (f :: rest) i0 c).evs
              = (processFleet w args i0 f c).evs ++
                (runFleets w args rest (i0 + 1) (processFleet w args i0 f c).c).evs := by
            simp [runFleets, ho]
          rw [hevs] at htrig hmem
          have hmem2 := List.mem_append.1 hmem
          have htrig2 :
              ((∃ j n e, Ev.connectFailed (Sess.node fi j n) e ∈ (processFleet w args i0 f c).evs) ∨
               (∃ n, Ev.waitDownEv fi n false ∈ (processFleet w args i0 f c).evs) ∨
               (∃ j t, Ev.diagEv .nodeFail fi j t true ∈ (processFleet w args i0 f c).evs)) ∨
              ((∃ j n e, Ev.connectFailed (Sess.node fi j n) e ∈ (runFleets w args rest (i0 + 1) (processFleet w args i0 f c).c).evs) ∨
               (∃ n, Ev.waitDownEv fi n false ∈ (runFleets w args rest (i0 + 1) (processFleet w args i0 f c).c).evs) ∨
               (∃ j t, Ev.diagEv .nodeFail fi j t true ∈ (runFleets w args rest (i0 + 1) (processFleet w args i0 f c).c).evs)) := by
            rcases htrig with ⟨j, n, e2, h⟩ | ⟨n, h⟩ | ⟨j, t, h⟩ <;>
              rcases List.mem_append.1 h with h | h
            · exact Or.inl (Or.inl ⟨j, n, e2, h⟩)
            · exact Or.inr (Or.inl ⟨j, n, e2, h⟩)
            · exact Or.inl (Or.inr (Or.inl ⟨n, h⟩))
            · exact Or.inr (Or.inr (Or.inl ⟨n, h⟩))
            · exact Or.inl (Or.inr (Or.inr ⟨j, t, h⟩))
            · exact Or.inr (Or.inr (Or.inr ⟨j, t, h⟩))
          rcases htrig2 with htr | htr
          · have hfi : fi = i0 := by
              rcases htr with ⟨j, n, e2, h⟩ | ⟨n, h⟩ | ⟨j, t, h⟩ <;>
                · have := processFleet_evOk w args i0 f c _ h
                  simp [fleetEvOk] at this
                  tauto
            subst hfi
            rcases hmem2 with hm | hm
            · exact processFleet_trigger w args fi f c hdry hstrict htr nm tag
                dr hm
            · obtain ⟨k, fn, hk, hok⟩ := runFleets_evOk w args rest (fi + 1) _ _ hm
              simp [fleetEvOk] at hok
              omega
          · have hfi : i0 + 1 ≤ fi := by
              rcases htr with ⟨j, n, e2, h⟩ | ⟨n, h⟩ | ⟨j, t, h⟩ <;>
                · obtain ⟨k, fn, hk, hok⟩ := runFleets_evOk w args rest (i0 + 1) _ _ h
                  simp [fleetEvOk] at hok
                  omega
            rcases hmem2 with hm | hm
            · have := processFleet_evOk w args i0 f c _ hm
              simp [fleetEvOk] at this
              omega
            · exact ih (i0 + 1) _ fi htr nm tag dr hm


/-- When every diagnosis returns, the fleet loop propagates no
exception. -/
theorem runFleets_exc_none (w : World) (args : Args)
    (hD : ∀ k v t, ∃ d, w.diagnose k v t = Except.ok d)
    (hS : ∀ k t, ∃ code, w.shutdownExit k t = Except.ok code) :
    ∀ (fleets : List Fleet) (i0 : Nat) (c : Ctrs),
      (runFleets w args fleets i0 c).exc = none := by
  intro fleets
  induction fleets with
  | nil => intro i0 c; simp [runFleets]
  | cons f rest ih =>
      intro i0 c
      have he := processFleet_exc_none w args i0 f c hD hS
      simp only [runFleets, he]
      exact ih (i0 + 1) _


/-- Fleet-loop version of `processFleet_ws_issue`. -/
theorem runFleets_ws_issue (w : World) (args : Args)
    (hD : ∀ k v t, ∃ d, w.diagnose k v t = Except.ok d) :
    ∀ (fleets : List Fleet) (i0 : Nat) (c : Ctrs) (fX : Nat) (nm : String)
      (e' : PyError),
      Ev.connectFailed (Sess.fleet fX nm) e' ∈ (runFleets w args fleets i0 c).evs →
      ∃ iss, Ev.issueEv iss ∈ (runFleets w args fleets i0 c).evs ∧
        iss.stage = "workstation" ∧ iss.target = nm := by
  intro fleets
  induction fleets with
  | nil => intro i0 c fX nm e' h; simp [runFleets] at h
  | cons f rest ih =>
      intro i0 c fX nm e' h
      cases ho : (processFleet w args i0 f c).exc with
      | some e =>
          have hevs : (runFleets w args (f :: rest) i0 c).evs
              = (processFleet w args i0 f c).evs := by
            simp [runFleets, ho]
          rw [hevs] at h ⊢
          exact processFleet_ws_issue w args i0 f c hD fX nm e' h
      | none =>
          have hevs : (runFleets w args (f :: rest) i0 c).evs
              = (processFleet w args i0 f c).evs ++
                (runFleets w args rest (i0 + 1) (processFleet w args i0 f c).c).evs := by
            simp [runFleets, ho]
          rw [hevs] at h ⊢
          rcases List.mem_append.1 h with h | h
          · obtain ⟨iss, hiss, hst, htg⟩ :=
              processFleet_ws_issue w args i0 f c hD fX nm e' h
            exact ⟨iss, List.mem_append_left _ hiss, hst, htg⟩
          · obtain ⟨iss, hiss, hst, htg⟩ := ih (i0 + 1) _ fX nm e' h
            exact ⟨iss, List.mem_append_right _ hiss, hst, htg⟩


/-- Fleet-loop version of `processFleet_node_issue`. -/
theorem runFleets_node_issue (w : World) (args : Args)
    (hD : ∀ k v t, ∃ d, w.diagnose k v t = Except.ok d) :
    ∀ (fleets : List Fleet) (i0 : Nat) (c : Ctrs) (fX j : Nat) (n : String)
      (e' : PyError),
      Ev.connectFailed (Sess.node fX j n) e' ∈ (runFleets w args fleets i0 c).evs →
      ∃ iss, Ev.issueEv iss ∈ (runFleets w args fleets i0 c).evs ∧
        iss.stage = "node" ∧ iss.target = n := by
  intro fleets
  induction fleets with
  | nil => intro i0 c fX j n e' h; simp [runFleets] at h
  | cons f rest ih =>
      intro i0 c fX j n e' h
      cases ho : (processFleet w args i0 f c).exc with
      | some e =>
          have hevs : (runFleets w args (f :: rest) i0 c).evs
              = (processFleet w args i0 f c).evs := by
            simp [runFleets, ho]
          rw [hevs] at h ⊢
          exact processFleet_node_issue w args i0 f c hD fX j n e' h
      | none =>
          have hevs : (runFleets w args (f :: rest) i0 c).evs
              = (processFleet w args i0 f c).evs ++
                (runFleets w args rest (i0 + 1) (processFleet w args i0 f c).c).evs := by
            simp [runFleets, ho]
          rw [hevs] at h ⊢
          rcases List.mem_append.1 h with h | h
          · obtain ⟨iss, hiss, hst, htg⟩ :=
              processFleet_node_issue w args i0 f c hD fX j n e' h
            exact ⟨iss, List.mem_append_left _ hiss, hst, htg⟩
          · obtain ⟨iss, hiss, hst, htg⟩ := ih (i0 + 1) _ fX j n e' h
            exact ⟨iss, List.mem_append_right _ hiss, hst, htg⟩


/-- Fleet-loop version of `processFleet_nodeFail_issue`. -/
theorem runFleets_nodeFail_issue (w : World) (args : Args) :
    ∀ (fleets : List Fleet) (i0 : Nat) (c : Ctrs) (fX j : Nat) (t : String),
      Ev.diagEv .nodeFail fX j t true ∈ (runFleets w args fleets i0 c).evs →
      ∃ iss, Ev.issueEv iss ∈ (runFleets w args fleets i0 c).evs ∧
        iss.stage = "node" ∧ iss.target = t := by
  intro fleets
  induction fleets with
  | nil => intro i0 c fX j t h; simp [runFleets] at h
  | cons f rest ih =>
      intro i0 c fX j t h
      cases ho : (processFleet w args i0 f c).exc with
      | some e =>
          have hevs : (runFleets w args (f :: rest) i0 c).evs
              = (processFleet w args i0 f c).evs := by
            simp [runFleets, ho]
          rw [hevs] at h ⊢
          exact processFleet_nodeFail_issue w args i0 f c fX j t h
      | none =>
          have hevs : (runFleets w args (f :: rest) i0 c).evs
              = (processFleet w args i0 f c).evs ++
                (runFleets w args rest (i0 + 1) (processFleet w args i0 f c).c).evs := by
            simp [runFleets, ho]
          rw [hevs] at h ⊢
          rcases List.mem_append.1 h with h | h
          · obtain ⟨iss, hiss, hst, htg⟩ :=
              processFleet_nodeFail_issue w args i0 f c fX j t h
            exact ⟨iss, List.mem_append_left _ hiss, hst, htg⟩
          · obtain ⟨iss, hiss, hst, htg⟩ := ih (i0 + 1) _ fX j t h
            exact ⟨iss, List.mem_append_right _ hiss, hst, htg⟩


/-- The fleet loop closes exactly the sessions it opened. -/
theorem runFleets_count (w : World) (args : Args) :
    ∀ (fleets : List Fleet) (i0 : Nat) (c : Ctrs) (s : Sess),
      (runFleets w args fleets i0 c).evs.count (Ev.connected s) =
      (runFleets w args fleets i0 c).evs.count (Ev.closeSession s) := by
  intro fleets
  induction fleets with
  | nil => intro i0 c s; simp [runFleets]
  | cons f rest ih =>
      intro i0 c s
      cases ho : (processFleet w args i0 f c).exc with
      | some e =>
          have hevs : (runFleets w args (f :: rest) i0 c).evs
              = (processFleet w args i0 f c).evs := by
            simp [runFleets, ho]
          rw [hevs]
          exact processFleet_count w args i0 f c s
      | none =>
          have hevs : (runFleets w args (f :: rest) i0 c).evs
              = (processFleet w args i0 f c).evs ++
                (runFleets w args rest (i0 + 1) (processFleet w args i0 f c).c).evs := by
            simp [runFleets, ho]
          rw [hevs]
          simp only [List.count_append]
          rw [processFleet_count w args i0 f c s, ih (i0 + 1)]


/-- In dry-run mode the fleet loop neither sends the power-off command,
nor lets its execution raise, nor runs the confirmation wait. -/
theorem runFleets_dry (w : World) (args : Args) (hdry : args.dryRun = true) :
    ∀ (fleets : List Fleet) (i0 : Nat) (c : Ctrs),
    (∀ s t ec, Ev.powerOffSent s t ec ∉ (runFleets w args fleets i0 c).evs) ∧
    (∀ s t e, Ev.powerOffRaised s t e ∉ (runFleets w args fleets i0 c).evs) ∧
    (∀ ff n ok, Ev.waitDownEv ff n ok ∉ (runFleets w args fleets i0 c).evs) := by
  intro fleets
  induction fleets with
  | nil =>
      intro i0 c
      refine ⟨?_, ?_, ?_⟩ <;> intro a b cc h <;> simp [runFleets] at h
  | cons f rest ih =>
      intro i0 c
      have hf := processFleet_dry w args i0 f c hdry
      cases ho : (processFleet w args i0 f c).exc with
      | some e =>
          have hevs : (runFleets w args (f :: rest) i0 c).evs
              = (processFleet w args i0 f c).evs := by
            simp [runFleets, ho]
          rw [hevs]
          exact hf
      | none =>
          have hevs : (runFleets w args (f :: rest) i0 c).evs
              = (processFleet w args i0 f c).evs ++
                (runFleets w args rest (i0 + 1) (processFleet w args i0 f c).c).evs := by
            simp [runFleets, ho]
          rw [hevs]
          have hr := ih (i0 + 1) (processFleet w args i0 f c).c
          refine ⟨?_, ?_, ?_⟩ <;> intro a b cc h <;>
            rcases List.mem_append.1 h with h | h
          · exact hf.1 a b cc h
          · exact hr.1 a b cc h
          · exact hf.2.1 a b cc h
          · exact hr.2.1 a b cc h
          · exact hf.2.2 a b cc h
          · exact hr.2.2 a b cc h


/-- Fleet-loop version of `processFleet_precheck_no_attempt`. -/
theorem runFleets_precheck_no_attempt (w : World) (args : Args) :
    ∀ (fleets : List Fleet) (i0 : Nat) (c : Ctrs) (fi j : Nat) (t nd : String),
      Ev.diagEv .precheck fi j t false ∈ (runFleets w args fleets i0 c).evs →
      Ev.connectAttempt (Sess.node fi j nd) ∉ (runFleets w args fleets i0 c).evs := by
  intro fleets
  induction fleets with
  | nil => intro i0 c fi j t nd h; simp [runFleets] at h
  | cons f rest ih =>
      intro i0 c fi j t nd hpre hatt
      cases ho : (processFleet w args i0 f c).exc with
      | some e =>
          have hevs : (runFleets w args (f :: rest) i0 c).evs
              = (processFleet w args i0 f c).evs := by
            simp [runFleets, ho]
          rw [hevs] at hpre hatt
          have hfi : fi = i0 := by
            have := processFleet_evOk w args i0 f c _ hpre
            simp [fleetEvOk] at this
            exact this
          subst hfi
          exact processFleet_precheck_no_attempt w args fi f c j t nd hpre hatt
      | none =>
          have hevs : (runFleets w args (f :: rest) i0 c).evs
              = (processFleet w args i0 f c).evs ++
                (runFleets w args rest (i0 + 1) (processFleet w args i0 f c).c).evs := by
            simp [runFleets, ho]
          rw [hevs] at hpre hatt
          rcases List.mem_append.1 hpre with hp | hp
          · have hfi : fi = i0 := by
              have := processFleet_evOk w args i0 f c _ hp
              simp [fleetEvOk] at this
              exact this
            rcases List.mem_append.1 hatt with ha | ha
            · subst hfi
              exact processFleet_precheck_no_attempt w args fi f c j t nd hp ha
            · obtain ⟨k, fn, hk, hok⟩ := runFleets_evOk w args rest (i0 + 1) _ _ ha
              simp [fleetEvOk] at hok
              omega
          · have hfi : i0 + 1 ≤ fi := by
              obtain ⟨k, fn, hk, hok⟩ := runFleets_evOk w args rest (i0 + 1) _ _ hp
              simp [fleetEvOk] at hok
              omega
            rcases List.mem_append.1 hatt with ha | ha
            · have := processFleet_evOk w args i0 f c _ ha
              simp [fleetEvOk] at this
              omega
            · exact ih (i0 + 1) _ fi j t nd hp ha


/-- Dry-run and live fleet loops stay in lockstep on connections,
diagnoses and issues, provided every live power-off execution returns. -/
theorem runFleets_dry_live (w : World) (ns : Bool)
    (hS : ∀ k t, ∃ code, w.shutdownExit k t = Except.ok code) :
    ∀ (fleets : List Fleet) (i0 : Nat) (c1 c2 : Ctrs),
      c1.kc = c2.kc → c1.kd = c2.kd →
    obsEvs (runFleets w ⟨true, ns⟩ fleets i0 c1).evs =
      obsEvs (runFleets w ⟨false, ns⟩ fleets i0 c2).evs ∧
    (runFleets w ⟨true, ns⟩ fleets i0 c1).exc =
      (runFleets w ⟨false, ns⟩ fleets i0 c2).exc := by
  intro fleets
  induction fleets with
  | nil =>
      intro i0 c1 c2 hkc hkd
      simp [runFleets, obsEvs]
  | cons f rest ih =>
      intro i0 c1 c2 hkc hkd
      obtain ⟨hobs, hkc2, hkd2, hexc⟩ :=
        processFleet_dry_live w ns i0 f c1 c2 hkc hkd hS
      cases ho : (processFleet w ⟨true, ns⟩ i0 f c1).exc with
      | some e =>
          have ho2 : (processFleet w ⟨false, ns⟩ i0 f c2).exc = some e := by
            rw [← hexc, ho]
          have hA : runFleets w ⟨true, ns⟩ (f :: rest) i0 c1
              = ⟨(processFleet w ⟨true, ns⟩ i0 f c1).evs,
                 (processFleet w ⟨true, ns⟩ i0 f c1).c, some e⟩ := by
            simp [runFleets, ho]
          have hB : runFleets w ⟨false, ns⟩ (f :: rest) i0 c2
              = ⟨(processFleet w ⟨false, ns⟩ i0 f c2).evs,
                 (processFleet w ⟨false, ns⟩ i0 f c2).c, some e⟩ := by
            simp [runFleets, ho2]
          rw [hA, hB]
          exact ⟨hobs, rfl⟩
      | none =>
          have ho2 : (processFleet w ⟨false, ns⟩ i0 f c2).exc = none := by
            rw [← hexc, ho]
          have hA : runFleets w ⟨true, ns⟩ (f :: rest) i0 c1
              = ⟨(processFleet w ⟨true, ns⟩ i0 f c1).evs ++
                  (runFleets w ⟨true, ns⟩ rest (i0 + 1)
                    (processFleet w ⟨true, ns⟩ i0 f c1).c).evs,
                 (runFleets w ⟨true, ns⟩ rest (i0 + 1)
                    (processFleet w ⟨true, ns⟩ i0 f c1).c).c,
                 (runFleets w ⟨true, ns⟩ rest (i0 + 1)
                    (processFleet w ⟨true, ns⟩ i0 f c1).c).exc⟩ := by
            simp [runFleets, ho]
          have hB : runFleets w ⟨false, ns⟩ (f :: rest) i0 c2
              = ⟨(processFleet w ⟨false, ns⟩ i0 f c2).evs ++
                  (runFleets w ⟨false, ns⟩ rest (i0 + 1)
                    (processFleet w ⟨false, ns⟩ i0 f c2).c).evs,
                 (runFleets w ⟨false, ns⟩ rest (i0 + 1)
                    (processFleet w ⟨false, ns⟩ i0 f c2).c).c,
                 (runFleets w ⟨false, ns⟩ rest (i0 + 1)
                    (processFleet w ⟨false, ns⟩ i0 f c2).c).exc⟩ := by
            simp [runFleets, ho2]
          rw [hA, hB]
          obtain ⟨robs, rexc⟩ := ih (i0 + 1)
            (processFleet w ⟨true, ns⟩ i0 f c1).c
            (processFleet w ⟨false, ns⟩ i0 f c2).c hkc2 hkd2
          refine ⟨?_, rexc⟩
          simp only [obsEvs, List.filter_append] at hobs robs ⊢
          rw [hobs, robs]


/-- An element found at a position beyond `l1` belongs to `l2`. -/
theorem pos_lt_of_not_mem_right {α : Type} {l1 l2 : List α} {b : Nat}
    {x : α} (h : (l1 ++ l2).get? b = some x) (hnot : x ∉ l2) :
    b < l1.length := by
  by_contra hge
  push_neg at hge
  rw [List.get?_append_right hge] at h
  exact hnot (List.get?_mem h)


/-- An element found before `l1` ends belongs to `l1`. -/
theorem pos_ge_of_not_mem_left {α : Type} {l1 l2 : List α} {a : Nat}
    {x : α} (h : (l1 ++ l2).get? a = some x) (hnot : x ∉ l1) :
    l1.length ≤ a := by
  by_contra hlt
  push_neg at hlt
  rw [List.get?_append hlt] at h
  exact hnot (List.get?_mem h)


/--
When the gateway connect succeeds, a run's trace is the gateway
preamble, the fleet-loop trace, a gateway-shutdown tail (empty when the
fleet loop propagated an exception), and the closing of the gateway
session; every tail event is the gateway `shutdown_host` log or its
power-off execution completing or raising.
-/
theorem runMain_decomp (w : World) (gw : Gateway) (fleets : List Fleet)
    (args : Args) (u : Unit) (hg : w.connect 0 gw.host = Except.ok u) :
    ∃ tail : List Ev,
      (runMain w gw fleets args).1
        = [Ev.connectAttempt .gateway, Ev.connected .gateway] ++
          (runFleets w args fleets 0 ⟨1, 0, 0, 0⟩).evs ++ tail ++
          [Ev.closeSession .gateway] ∧
      ∀ ev ∈ tail,
        (∃ d, ev = Ev.shutdownCall Sess.gateway "triton" d) ∨
        (∃ cc, ev = Ev.powerOffSent Sess.gateway "triton" cc) ∨
        (∃ e2, ev = Ev.powerOffRaised Sess.gateway "triton" e2) := by
  cases hrf : (runFleets w args fleets 0 ⟨1, 0, 0, 0⟩).exc with
  | some e =>
      refine ⟨[], ?_, ?_⟩
      · simp [runMain, hg, hrf]
      · intro ev h
        simp at h
  | none =>
      by_cases hdry : args.dryRun = true
      · refine ⟨[Ev.shutdownCall Sess.gateway "triton" true], ?_, ?_⟩
        · simp [runMain, hg, hrf, hdry, shutdown_host]
        · intro ev h
          simp only [List.mem_singleton] at h
          subst h
          exact Or.inl ⟨true, rfl⟩
      · cases hsx : w.shutdownExit
            (runFleets w args fleets 0 ⟨1, 0, 0, 0⟩).c.ks "triton" with
        | ok code =>
            refine ⟨[Ev.shutdownCall Sess.gateway "triton" false,
              Ev.powerOffSent Sess.gateway "triton" code], ?_, ?_⟩
            · simp [runMain, hg, hrf, hdry, hsx, shutdown_host]
            · intro ev h
              simp only [List.mem_cons, List.not_mem_nil, or_false] at h
              rcases h with h | h <;> subst h
              · exact Or.inl ⟨false, rfl⟩
              · exact Or.inr (Or.inl ⟨code, rfl⟩)
        | error e2 =>
            refine ⟨[Ev.shutdownCall Sess.gateway "triton" false,
              Ev.powerOffRaised Sess.gateway "triton" e2], ?_, ?_⟩
            · simp [runMain, hg, hrf, hdry, hsx, shutdown_host]
            · intro ev h
              simp only [List.mem_cons, List.not_mem_nil, or_false] at h
              rcases h with h | h <;> subst h
              · exact Or.inl ⟨false, rfl⟩
              · exact Or.inr (Or.inr ⟨e2, rfl⟩)


/-- A trace event that is none of the gateway preamble, gateway close
and gateway shutdown events was emitted by the fleet loop. -/
theorem runMain_mem_fleets (w : World) (gw : Gateway)
    (fleets : List Fleet) (args : Args) (u : Unit)
    (hg : w.connect 0 gw.host = Except.ok u) (x : Ev)
    (hx1 : x ≠ Ev.connectAttempt Sess.gateway)
    (hx2 : x ≠ Ev.connected Sess.gateway)
    (hx3 : x ≠ Ev.closeSession Sess.gateway)
    (hx4 : ∀ d, x ≠ Ev.shutdownCall Sess.gateway "triton" d)
    (hx5 : ∀ cc, x ≠ Ev.powerOffSent Sess.gateway "triton" cc)
    (hx6 : ∀ e2, x ≠ Ev.powerOffRaised Sess.gateway "triton" e2)
    (hmem : x ∈ (runMain w gw fleets args).1) :
    x ∈ (runFleets w args fleets 0 ⟨1, 0, 0, 0⟩).evs := by
  obtain ⟨tail, htr, htl⟩ := runMain_decomp w gw fleets args u hg
  rw [htr] at hmem
  rcases List.mem_append.1 hmem with h123 | hclose
  · rcases List.mem_append.1 h123 with h12 | htail
    · rcases List.mem_append.1 h12 with hpre | hrf
      · simp only [List.mem_cons, List.not_mem_nil, or_false] at hpre
        rcases hpre with h | h
        · exact absurd h hx1
        · exact absurd h hx2
      · exact hrf
    · rcases htl _ htail with ⟨d, hh⟩ | ⟨cc2, hh⟩ | ⟨e2, hh⟩
      · exact absurd hh (hx4 d)
      · exact absurd hh (hx5 cc2)
      · exact absurd hh (hx6 e2)
  · simp only [List.mem_singleton] at hclose
    exact absurd hclose hx3


/-- When the fleet loop propagates no exception and every live
power-off execution returns, the run completes. -/
theorem runMain_outcome_ok (w : World) (gw : Gateway)
    (fleets : List Fleet) (args : Args) (u : Unit)
    (hg : w.connect 0 gw.host = Except.ok u)
    (hrf : (runFleets w args fleets 0 ⟨1, 0, 0, 0⟩).exc = none)
    (hS : ∀ k t, ∃ code, w.shutdownExit k t = Except.ok code) :
    (runMain w gw fleets args).2 = .completed := by
  by_cases hdry : args.dryRun = true
  · simp [runMain, hg, hrf, hdry, shutdown_host]
  · obtain ⟨code, hsx⟩ :=
      hS (runFleets w args fleets 0 ⟨1, 0, 0, 0⟩).c.ks "triton"
    simp [runMain, hg, hrf, hdry, hsx, shutdown_host]


/--
C8: every session successfully opened during a run — gateway, fleet or
node — is closed exactly once, on every exit path: in any environment,
for every session identity, the number of `closeSession` events in the
run's trace equals the number of `connected` events.
-/
theorem sessions_closed_exactly_once (w : World) (gw : Gateway)
    (fleets : List Fleet) (args : Args) (s : Sess) :
    (runMain w gw fleets args).1.count (Ev.closeSession s) =
    (runMain w gw fleets args).1.count (Ev.connected s) := by
  cases hg : w.connect 0 gw.host with
  | error e => simp [runMain, hg, List.count_cons]
  | ok u =>
      have hcnt := runFleets_count w args fleets 0 ⟨1, 0, 0, 0⟩ s
      obtain ⟨tail, htr, htl⟩ := runMain_decomp w gw fleets args u hg
      rw [htr]
      have ht1 : tail.count (Ev.closeSession s) = 0 := by
        rw [List.count_eq_zero]
        intro hmem
        rcases htl _ hmem with ⟨d, hh⟩ | ⟨cc2, hh⟩ | ⟨e2, hh⟩ <;> simp at hh
      have ht2 : tail.count (Ev.connected s) = 0 := by
        rw [List.count_eq_zero]
        intro hmem
        rcases htl _ hmem with ⟨d, hh⟩ | ⟨cc2, hh⟩ | ⟨e2, hh⟩ <;> simp at hh
      simp [List.count_append, List.count_cons, hcnt, ht1, ht2]


/--
C1 counterexample: in dry-run with strict mode active (non-strict not
set), a node authentication failure does *not* prevent `shutdown_host`
from being invoked for the fleet host — the `parent_skip` guard of line
516 requires `not args.dry_run` as well, so the claim as stated (for
every run with strict mode active) is false.
-/
theorem strict_mode_alone_does_not_block_fleet_shutdown :
    Ev.connectFailed (Sess.node 0 0 "n1")
        (.authenticationException "auth failed") ∈
      (runMain wAuthFailNode gwT [fleetWs1] ⟨true, false⟩).1 ∧
    Ev.shutdownCall (Sess.fleet 0 "ws1") "ws1" true ∈
      (runMain wAuthFailNode gwT [fleetWs1] ⟨true, false⟩).1 := by
  constructor <;> decide


/--
C1 (amended): for every run with strict mode active *and dry-run not
set*, if any node of fleet `fi` fails its connection/authentication or
fails to confirm as down within the timeout, then `shutdown_host` is
never invoked for that fleet host.
-/
theorem strict_live_failed_node_blocks_fleet_shutdown (w : World)
    (gw : Gateway) (fleets : List Fleet) (args : Args) (fi : Nat)
    (hdry : args.dryRun = false) (hstrict : args.nonStrict = false)
    (htrig :
      (∃ j n e, Ev.connectFailed (Sess.node fi j n) e ∈ (runMain w gw fleets args).1) ∨
      (∃ n, Ev.waitDownEv fi n false ∈ (runMain w gw fleets args).1)) :
    ∀ nm tag dr, Ev.shutdownCall (Sess.fleet fi nm) tag dr ∉
      (runMain w gw fleets args).1 := by
  intro nm tag dr hmem
  cases hg : w.connect 0 gw.host with
  | error e => simp [runMain, hg] at hmem
  | ok u =>
      have hmem2 : Ev.shutdownCall (Sess.fleet fi nm) tag dr ∈
          (runFleets w args fleets 0 ⟨1, 0, 0, 0⟩).evs :=
        runMain_mem_fleets w gw fleets args u hg _ (by simp) (by simp)
          (by simp) (fun d => by simp) (fun cc2 => by simp)
          (fun e2 => by simp) hmem
      have htrig2 :
          (∃ j n e, Ev.connectFailed (Sess.node fi j n) e ∈ (runFleets w args fleets 0 ⟨1, 0, 0, 0⟩).evs) ∨
          (∃ n, Ev.waitDownEv fi n false ∈ (runFleets w args fleets 0 ⟨1, 0, 0, 0⟩).evs) := by
        rcases htrig with ⟨j, n, e2, h⟩ | ⟨n, h⟩
        · exact Or.inl ⟨j, n, e2,
            runMain_mem_fleets w gw fleets args u hg _ (by simp) (by simp)
              (by simp) (fun d => by simp) (fun cc2 => by simp)
              (fun e2b => by simp) h⟩
        · exact Or.inr ⟨n,
            runMain_mem_fleets w gw fleets args u hg _ (by simp) (by simp)
              (by simp) (fun d => by simp) (fun cc2 => by simp)
              (fun e2b => by simp) h⟩
      exact runFleets_trigger w args hdry hstrict fleets 0 ⟨1, 0, 0, 0⟩ fi
        (htrig2.imp id (Or.inl)) nm tag dr hmem2


/-- Witness for `strict_live_failed_node_blocks_fleet_shutdown`: in the
live strict run whose only node fails to authenticate, the fleet host's
shutdown is never invoked. -/
theorem strict_live_failed_node_blocks_fleet_shutdown_witness :
    Ev.shutdownCall (Sess.fleet 0 "ws1") "ws1" false ∉
      (runMain wAuthFailNode gwT [fleetWs1] ⟨false, false⟩).1 :=
  strict_live_failed_node_blocks_fleet_shutdown wAuthFailNode gwT [fleetWs1]
    ⟨false, false⟩ 0 rfl rfl
    (Or.inl ⟨0, "n1", .authenticationException "auth failed", by decide⟩)
    "ws1" "ws1" false


/--
C2: the gateway's `shutdown_host` call happens only after every fleet in
the plan has been fully processed: in any trace of a run, every
fleet-processing event (connection, diagnosis, issue, wait, skip,
shutdown or close of a non-gateway session) occurs strictly before any
`shutdownCall` on the gateway session; gateway shutdown is never
interleaved with fleet processing.
-/
theorem gateway_shutdown_after_all_fleets (w : World) (gw : Gateway)
    (fleets : List Fleet) (args : Args) (a b : Nat) (tag : String)
    (dr : Bool) (ev : Ev)
    (ha : (runMain w gw fleets args).1.get? a =
      some (Ev.shutdownCall Sess.gateway tag dr))
    (hb : (runMain w gw fleets args).1.get? b = some ev)
    (hev : isFleetEv ev = true) : b < a := by
  have hrfNoGw : ∀ tg d2, Ev.shutdownCall Sess.gateway tg d2 ∉
      (runFleets w args fleets 0 ⟨1, 0, 0, 0⟩).evs := by
    intro tg d2 hm
    obtain ⟨k, fn, hk, hok⟩ := runFleets_evOk w args fleets 0 _ _ hm
    simp [fleetEvOk] at hok
  cases hg : w.connect 0 gw.host with
  | error e =>
      exfalso
      have := List.get?_mem ha
      simp [runMain, hg] at this
  | ok u =>
      obtain ⟨tail, htr0, htl⟩ := runMain_decomp w gw fleets args u hg
      have htr : (runMain w gw fleets args).1
          = ([Ev.connectAttempt .gateway, Ev.connected .gateway] ++
             (runFleets w args fleets 0 ⟨1, 0, 0, 0⟩).evs) ++
            (tail ++ [Ev.closeSession .gateway]) := by
        rw [htr0]
        simp [List.append_assoc]
      rw [htr] at ha hb
      have hga : ([Ev.connectAttempt Sess.gateway,
          Ev.connected Sess.gateway] ++
          (runFleets w args fleets 0 ⟨1, 0, 0, 0⟩).evs).length ≤ a := by
        refine pos_ge_of_not_mem_left ha ?_
        intro hm
        simp only [List.mem_append, List.mem_cons, List.not_mem_nil,
          or_false] at hm
        rcases hm with (h | h) | h
        · cases h
        · cases h
        · exact hrfNoGw tag dr h
      have hgb : b < ([Ev.connectAttempt Sess.gateway,
          Ev.connected Sess.gateway] ++
          (runFleets w args fleets 0 ⟨1, 0, 0, 0⟩).evs).length := by
        refine pos_lt_of_not_mem_right hb ?_
        intro hm
        rcases List.mem_append.1 hm with hmt | hmc
        · rcases htl _ hmt with ⟨d, hh⟩ | ⟨cc2, hh⟩ | ⟨e2, hh⟩ <;>
            subst hh <;> simp [isFleetEv] at hev
        · simp only [List.mem_singleton] at hmc
          subst hmc
          simp [isFleetEv] at hev
      omega


/-- Witness for `gateway_shutdown_after_all_fleets` on the healthy
one-fleet one-node live run: the gateway shutdown is at position 14,
the hop to the fleet at position 2. -/
theorem gateway_shutdown_after_all_fleets_witness :
    (runMain wOk gwT [fleetWs1] ⟨false, false⟩).1.get? 14 =
      some (Ev.shutdownCall Sess.gateway "triton" false) ∧ (2 : Nat) < 14 :=
  ⟨by decide,
   gateway_shutdown_after_all_fleets wOk gwT [fleetWs1] ⟨false, false⟩ 14 2
     "triton" false (Ev.connectAttempt (Sess.fleet 0 "ws1")) (by decide)
     (by decide) (by decide)⟩


/--
C3 counterexample: the claim as stated fails on three points.  (1) A
confirmation timeout is *not* absorbed into an appended `Issue`: in the
live strict run whose node shuts down but never goes unreachable, the
wait times out (so the protective skip fires) yet the run ends with an
empty `issues` list.  (2) An exception raised by the follow-up
`diagnose_on_remote` inside the node `except` handler is *not* caught at
the fleet or node boundary: with the node connect failing and the
follow-up diagnosis raising, the run crashes out of `main`.  (3) An
exception raised by a live power-off execution (`run_remote_command`
inside `shutdown_host`, no handler at any call site) also escapes the
node boundary: with every connect and diagnosis succeeding but the
node's power-off execution raising, the run crashes out of `main`.
-/
theorem failure_absorption_as_stated_false :
    (Ev.waitDownEv 0 "n1" false ∈
        (runMain wTimeout gwT [fleetWs1] ⟨false, false⟩).1 ∧
      ((runMain wTimeout gwT [fleetWs1] ⟨false, false⟩).1.countP isIssueEv = 0)) ∧
    (runMain wDiagRaise gwT [fleetWs1] ⟨false, false⟩).2 =
      .crashed "diag boom" ∧
    (runMain wShutRaise gwT [fleetWs1] ⟨false, false⟩).2 =
      .crashed "Socket is closed" := by
  refine ⟨⟨by decide, by decide⟩, by decide, by decide⟩


/--
C3 (amended): gateway-connect failure is fatal — the run is classified,
reported and terminates at once.  Provided every follow-up diagnosis
returns a result and every live power-off execution returns an exit
status, no exception crosses a fleet or node boundary (the run never
crashes), and every fleet-connect and node-connect failure is absorbed
into an appended Issue (stage `"workstation"` resp. `"node"`, naming
the failed host) with processing continuing; a confirmation timeout is
absorbed into the protective-skip transition but *without* an appended
Issue — indeed the only issue stages a run can ever append are
`"workstation"`, `"node(precheck)"` and `"node"`.  (Without those
provisos the policy fails: a raising follow-up diagnosis or a raising
power-off execution escapes the fleet/node boundary uncaught.)
-/
theorem error_propagation_policy (w : World) (gw : Gateway)
    (fleets : List Fleet) (args : Args) :
    (∀ e, w.connect 0 gw.host = .error e →
      runMain w gw fleets args =
        ([Ev.connectAttempt .gateway, Ev.connectFailed .gateway e,
          Ev.fatalGw (classify_failure e none).1 (classify_failure e none).2],
         .fatalGateway (classify_failure e none).1 (classify_failure e none).2)) ∧
    ((∀ k v t, ∃ d, w.diagnose k v t = Except.ok d) →
     (∀ k t, ∃ code, w.shutdownExit k t = Except.ok code) →
      (∀ m, (runMain w gw fleets args).2 ≠ .crashed m) ∧
      (∀ fX nm e, Ev.connectFailed (Sess.fleet fX nm) e ∈ (runMain w gw fleets args).1 →
        ∃ iss, Ev.issueEv iss ∈ (runMain w gw fleets args).1 ∧
          iss.stage = "workstation" ∧ iss.target = nm) ∧
      (∀ fX j n e, Ev.connectFailed (Sess.node fX j n) e ∈ (runMain w gw fleets args).1 →
        ∃ iss, Ev.issueEv iss ∈ (runMain w gw fleets args).1 ∧
          iss.stage = "node" ∧ iss.target = n)) ∧
    (∀ iss, Ev.issueEv iss ∈ (runMain w gw fleets args).1 →
      iss.stage = "workstation" ∨ iss.stage = "node(precheck)" ∨
        iss.stage = "node") := by
  refine ⟨?_, ?_, ?_⟩
  · intro e hg
    simp [runMain, hg]
  · intro hD hS
    have hexc := runFleets_exc_none w args hD hS fleets 0 ⟨1, 0, 0, 0⟩
    cases hg : w.connect 0 gw.host with
    | error e =>
        refine ⟨?_, ?_, ?_⟩
        · intro m
          simp [runMain, hg]
        · intro fX nm e' hmem
          exfalso
          simp [runMain, hg] at hmem
        · intro fX j n e' hmem
          exfalso
          simp [runMain, hg] at hmem
    | ok u =>
        obtain ⟨tail, htr, htl⟩ := runMain_decomp w gw fleets args u hg
        refine ⟨?_, ?_, ?_⟩
        · intro m
          rw [runMain_outcome_ok w gw fleets args u hg hexc hS]
          intro hcon
          cases hcon
        · intro fX nm e' hmem
          have hmem2 : Ev.connectFailed (Sess.fleet fX nm) e' ∈
              (runFleets w args fleets 0 ⟨1, 0, 0, 0⟩).evs :=
            runMain_mem_fleets w gw fleets args u hg _ (by simp) (by simp)
              (by simp) (fun d => by simp) (fun cc2 => by simp)
              (fun e2 => by simp) hmem
          obtain ⟨iss, hiss, hst, htg⟩ :=
            runFleets_ws_issue w args hD fleets 0 ⟨1, 0, 0, 0⟩ fX nm e' hmem2
          refine ⟨iss, ?_, hst, htg⟩
          rw [htr]
          simp [List.mem_append, hiss]
        · intro fX j n e' hmem
          have hmem2 : Ev.connectFailed (Sess.node fX j n) e' ∈
              (runFleets w args fleets 0 ⟨1, 0, 0, 0⟩).evs :=
            runMain_mem_fleets w gw fleets args u hg _ (by simp) (by simp)
              (by simp) (fun d => by simp) (fun cc2 => by simp)
              (fun e2 => by simp) hmem
          obtain ⟨iss, hiss, hst, htg⟩ :=
            runFleets_node_issue w args hD fleets 0 ⟨1, 0, 0, 0⟩ fX j n e' hmem2
          refine ⟨iss, ?_, hst, htg⟩
          rw [htr]
          simp [List.mem_append, hiss]
  · intro iss hmem
    cases hg : w.connect 0 gw.host with
    | error e =>
        exfalso
        simp [runMain, hg] at hmem
    | ok u =>
        have hmem2 : Ev.issueEv iss ∈
            (runFleets w args fleets 0 ⟨1, 0, 0, 0⟩).evs :=
          runMain_mem_fleets w gw fleets args u hg _ (by simp) (by simp)
            (by simp) (fun d => by simp) (fun cc2 => by simp)
            (fun e2 => by simp) hmem
        obtain ⟨k, fn, hk, hok⟩ := runFleets_evOk w args fleets 0 _ _ hmem2
        simpa [fleetEvOk] using hok


/-- Witness for `error_propagation_policy` on concrete runs: a failed
gateway connect is fatal with the classified report; with every
diagnosis returning, the auth-failing-node run never crashes and its
node connect failure is absorbed into a stage-`"node"` issue. -/
theorem error_propagation_policy_witness :
    runMain wGwFail gwT [fleetWs1] ⟨false, false⟩ =
      ([Ev.connectAttempt .gateway,
        Ev.connectFailed .gateway (.sshException "no route"),
        Ev.fatalGw (classify_failure (.sshException "no route") none).1
          (classify_failure (.sshException "no route") none).2],
       .fatalGateway (classify_failure (.sshException "no route") none).1
         (classify_failure (.sshException "no route") none).2) ∧
    (∀ m, (runMain wAuthFailNode gwT [fleetWs1] ⟨false, false⟩).2 ≠
      .crashed m) ∧
    (∃ iss, Ev.issueEv iss ∈
        (runMain wAuthFailNode gwT [fleetWs1] ⟨false, false⟩).1 ∧
      iss.stage = "node" ∧ iss.target = "n1") :=
  ⟨(error_propagation_policy wGwFail gwT [fleetWs1] ⟨false, false⟩).1
      (.sshException "no route") rfl,
   fun m => ((error_propagation_policy wAuthFailNode gwT [fleetWs1]
      ⟨false, false⟩).2.1 (fun _ _ _ => ⟨diagOkAll, rfl⟩)
      (fun _ _ => ⟨0, rfl⟩)).1 m,
   ((error_propagation_policy wAuthFailNode gwT [fleetWs1]
      ⟨false, false⟩).2.1 (fun _ _ _ => ⟨diagOkAll, rfl⟩)
      (fun _ _ => ⟨0, rfl⟩)).2.2 0 0 "n1"
     (.authenticationException "auth failed") (by decide)⟩


/--
C4 counterexample: the claim's "all connection attempts, pre-check
diagnoses, and failure diagnostics execute exactly as in live mode" is
false of the program as a rule: when a live power-off execution raises
(here the first node's, in a two-node fleet), the live run crashes
mid-fleet — the second node is never pre-checked or connected — while
the dry run, which never executes the power-off command, continues
through both nodes and completes.
-/
theorem dry_live_divergence_on_shutdown_raise :
    Ev.connectAttempt (Sess.node 0 1 "n2") ∈
      (runMain wShutRaise gwT [fleetWs2] ⟨true, false⟩).1 ∧
    Ev.connectAttempt (Sess.node 0 1 "n2") ∉
      (runMain wShutRaise gwT [fleetWs2] ⟨false, false⟩).1 ∧
    (runMain wShutRaise gwT [fleetWs2] ⟨true, false⟩).2 = .completed ∧
    (runMain wShutRaise gwT [fleetWs2] ⟨false, false⟩).2 =
      .crashed "Socket is closed" := by
  refine ⟨by decide, by decide, by decide, by decide⟩


/--
C4 (amended): in dry-run mode, `shutdown_host` never sends the
power-off command to any host (no `powerOffSent` event, and no
`powerOffRaised` — the command is never executed at all) and
`wait_for_host_down_via_transport` is never invoked (no `waitDownEv`
event); and — provided every live power-off execution returns an exit
status — against the same environment the dry run performs exactly the
same connection attempts, pre-check diagnoses and failure diagnostics
as the live run: the traces agree event-for-event once the
shutdown-issuing events are set aside, and the runs end the same way.
(Without that proviso the lockstep fails: a raising live power-off
execution crashes the live run mid-way while the dry run continues.)
-/
theorem dry_run_only_suppresses_shutdown (w : World) (gw : Gateway)
    (fleets : List Fleet) (args : Args) :
    ((∀ k t, ∃ code, w.shutdownExit k t = Except.ok code) →
      obsEvs (runMain w gw fleets ⟨true, args.nonStrict⟩).1 =
        obsEvs (runMain w gw fleets ⟨false, args.nonStrict⟩).1 ∧
      (runMain w gw fleets ⟨true, args.nonStrict⟩).2 =
        (runMain w gw fleets ⟨false, args.nonStrict⟩).2) ∧
    (args.dryRun = true →
      (∀ s t ec, Ev.powerOffSent s t ec ∉ (runMain w gw fleets args).1) ∧
      (∀ s t e, Ev.powerOffRaised s t e ∉ (runMain w gw fleets args).1) ∧
      (∀ fi n ok, Ev.waitDownEv fi n ok ∉ (runMain w gw fleets args).1)) := by
  constructor
  · intro hS
    cases hg : w.connect 0 gw.host with
    | error e => simp [runMain, hg]
    | ok u =>
        obtain ⟨robs, rexc⟩ := runFleets_dry_live w args.nonStrict hS fleets 0
          ⟨1, 0, 0, 0⟩ ⟨1, 0, 0, 0⟩ rfl rfl
        cases ho : (runFleets w ⟨true, args.nonStrict⟩ fleets 0 ⟨1, 0, 0, 0⟩).exc with
        | some e =>
            have ho2 : (runFleets w ⟨false, args.nonStrict⟩ fleets 0
                ⟨1, 0, 0, 0⟩).exc = some e := by rw [← rexc, ho]
            have hA : runMain w gw fleets ⟨true, args.nonStrict⟩
                = ([Ev.connectAttempt .gateway, Ev.connected .gateway] ++
                   (runFleets w ⟨true, args.nonStrict⟩ fleets 0 ⟨1, 0, 0, 0⟩).evs ++
                   [Ev.closeSession .gateway], .crashed e.msg) := by
              simp [runMain, hg, ho]
            have hB : runMain w gw fleets ⟨false, args.nonStrict⟩
                = ([Ev.connectAttempt .gateway, Ev.connected .gateway] ++
                   (runFleets w ⟨false, args.nonStrict⟩ fleets 0 ⟨1, 0, 0, 0⟩).evs ++
                   [Ev.closeSession .gateway], .crashed e.msg) := by
              simp [runMain, hg, ho2]
            rw [hA, hB]
            refine ⟨?_, rfl⟩
            simp only [obsEvs, List.filter_append] at robs ⊢
            rw [robs]
        | none =>
            have ho2 : (runFleets w ⟨false, args.nonStrict⟩ fleets 0
                ⟨1, 0, 0, 0⟩).exc = none := by rw [← rexc, ho]
            obtain ⟨code, hsx⟩ := hS (runFleets w ⟨false, args.nonStrict⟩
              fleets 0 ⟨1, 0, 0, 0⟩).c.ks "triton"
            have hA : runMain w gw fleets ⟨true, args.nonStrict⟩
                = ([Ev.connectAttempt .gateway, Ev.connected .gateway] ++
                   (runFleets w ⟨true, args.nonStrict⟩ fleets 0 ⟨1, 0, 0, 0⟩).evs ++
                   [Ev.shutdownCall Sess.gateway "triton" true] ++
                   [Ev.closeSession .gateway], .completed) := by
              simp [runMain, hg, ho, shutdown_host]
            have hB : runMain w gw fleets ⟨false, args.nonStrict⟩
                = ([Ev.connectAttempt .gateway, Ev.connected .gateway] ++
                   (runFleets w ⟨false, args.nonStrict⟩ fleets 0 ⟨1, 0, 0, 0⟩).evs ++
                   [Ev.shutdownCall Sess.gateway "triton" false,
                    Ev.powerOffSent Sess.gateway "triton" code] ++
                   [Ev.closeSession .gateway], .completed) := by
              simp [runMain, hg, ho2, hsx, shutdown_host]
            rw [hA, hB]
            refine ⟨?_, rfl⟩
            simp only [obsEvs, List.filter_append] at robs ⊢
            rw [robs]
            simp [isShutdownRelated]
  · intro hdry
    cases hg : w.connect 0 gw.host with
    | error e =>
        refine ⟨?_, ?_, ?_⟩ <;> intro a b cc h <;> simp [runMain, hg] at h
    | ok u =>
        have hrfd := runFleets_dry w args hdry fleets 0 ⟨1, 0, 0, 0⟩
        cases ho : (runFleets w args fleets 0 ⟨1, 0, 0, 0⟩).exc with
        | some e =>
            have htr : (runMain w gw fleets args).1
                = [Ev.connectAttempt .gateway, Ev.connected .gateway] ++
                  (runFleets w args fleets 0 ⟨1, 0, 0, 0⟩).evs ++
                  [Ev.closeSession .gateway] := by
              simp [runMain, hg, ho]
            rw [htr]
            refine ⟨?_, ?_, ?_⟩ <;> intro a b cc h <;>
              simp only [List.mem_append, List.mem_cons, List.mem_singleton,
                List.not_mem_nil, or_false] at h
            · rcases h with ((h | h) | h) | h
              · cases h
              · cases h
              · exact hrfd.1 a b cc h
              · cases h
            · rcases h with ((h | h) | h) | h
              · cases h
              · cases h
              · exact hrfd.2.1 a b cc h
              · cases h
            · rcases h with ((h | h) | h) | h
              · cases h
              · cases h
              · exact hrfd.2.2 a b cc h
              · cases h
        | none =>
            have htr : (runMain w gw fleets args).1
                = [Ev.connectAttempt .gateway, Ev.connected .gateway] ++
                  (runFleets w args fleets 0 ⟨1, 0, 0, 0⟩).evs ++
                  [Ev.shutdownCall .gateway "triton" true] ++
                  [Ev.closeSession .gateway] := by
              simp [runMain, hg, ho, hdry, shutdown_host]
            rw [htr]
            refine ⟨?_, ?_, ?_⟩ <;> intro a b cc h <;>
              simp only [List.mem_append, List.mem_cons, List.mem_singleton,
                List.not_mem_nil, or_false] at h
            · rcases h with (((h | h) | h) | h) | h
              · cases h
              · cases h
              · exact hrfd.1 a b cc h
              · cases h
              · cases h
            · rcases h with (((h | h) | h) | h) | h
              · cases h
              · cases h
              · exact hrfd.2.1 a b cc h
              · cases h
              · cases h
            · rcases h with (((h | h) | h) | h) | h
              · cases h
              · cases h
              · exact hrfd.2.2 a b cc h
              · cases h
              · cases h


/-- Witness for `dry_run_only_suppresses_shutdown`: on the healthy
one-fleet world (every power-off execution returns) the dry and live
runs end the same way, and the dry timeout-world run sends no power-off
command and never waits. -/
theorem dry_run_only_suppresses_shutdown_witness :
    (runMain wOk gwT [fleetWs1] ⟨true, false⟩).2 =
      (runMain wOk gwT [fleetWs1] ⟨false, false⟩).2 ∧
    Ev.powerOffSent (Sess.node 0 0 "n1") "n1" 0 ∉
      (runMain wTimeout gwT [fleetWs1] ⟨true, false⟩).1 ∧
    Ev.waitDownEv 0 "n1" false ∉
      (runMain wTimeout gwT [fleetWs1] ⟨true, false⟩).1 :=
  ⟨((dry_run_only_suppresses_shutdown wOk gwT [fleetWs1]
      ⟨true, false⟩).1 (fun _ _ => ⟨0, rfl⟩)).2,
   ((dry_run_only_suppresses_shutdown wTimeout gwT [fleetWs1]
      ⟨true, false⟩).2 rfl).1 (Sess.node 0 0 "n1") "n1" 0,
   ((dry_run_only_suppresses_shutdown wTimeout gwT [fleetWs1]
      ⟨true, false⟩).2 rfl).2.2 0 "n1" false⟩


/-- `Except.error e >>= f` stays the error. -/
theorem exceptBind_err {ε α β : Type} (e : ε) (f : α → Except ε β) :
    (Except.error e >>= f : Except ε β) = .error e := rfl


/-- The password-collection loop fails — with the `RuntimeError` message
naming the unset variable — exactly on the first fleet whose credential
is an unset `env:` reference. -/
theorem resolveFleetPasswords_env_missing (env : String → Option String)
    (fileRead : String → String) (prompt : String → String) :
    ∀ fleets : List Fleet,
      (∃ f ∈ fleets, ∃ v, f.password = some v ∧
        isPrefixB "env:".data v.data = true ∧ env ⟨v.data.drop 4⟩ = none) →
      ∃ f' v', f' ∈ fleets ∧ f'.password = some v' ∧
        isPrefixB "env:".data v'.data = true ∧ env ⟨v'.data.drop 4⟩ = none ∧
        resolveFleetPasswords env fileRead prompt fleets =
          .error ("環境変数 " ++ String.mk (v'.data.drop 4) ++
            " が未設定です（" ++ pwPromptLabel f' ++ "）") := by
  intro fleets
  induction fleets with
  | nil =>
      intro h
      obtain ⟨f, hmem, _⟩ := h
      simp at hmem
  | cons f rest ih =>
      intro h
      by_cases hf : ∃ v, f.password = some v ∧
          isPrefixB "env:".data v.data = true ∧ env ⟨v.data.drop 4⟩ = none
      · obtain ⟨v, hp, hpre, henv⟩ := hf
        refine ⟨f, v, List.mem_cons_self f rest, hp, hpre, henv, ?_⟩
        simp [resolveFleetPasswords, resolve_password, hp, hpre, henv,
          exceptBind_err]
      · have hrest : ∃ f2 ∈ rest, ∃ v, f2.password = some v ∧
            isPrefixB "env:".data v.data = true ∧ env ⟨v.data.drop 4⟩ = none := by
          obtain ⟨f0, hmem, v0, h1, h2, h3⟩ := h
          rcases List.mem_cons.1 hmem with rfl | hmem2
          · exact absurd ⟨v0, h1, h2, h3⟩ hf
          · exact ⟨f0, hmem2, v0, h1, h2, h3⟩
        obtain ⟨f', v', hmem', hp', hpre', henv', heq⟩ := ih hrest
        refine ⟨f', v', List.mem_cons_of_mem _ hmem', hp', hpre', henv', ?_⟩
        have hok : ∃ pw, resolve_password env fileRead
            (prompt (pwPromptLabel f)) f.password (pwPromptLabel f) = .ok pw := by
          cases hp : f.password with
          | none => exact ⟨_, rfl⟩
          | some v =>
              by_cases hpre : isPrefixB "env:".data v.data = true
              · cases henv : env ⟨v.data.drop 4⟩ with
                | none => exact absurd ⟨v, hp, hpre, henv⟩ hf
                | some s => exact ⟨s, by simp [resolve_password, hpre, henv]⟩
              · by_cases hfile : isPrefixB "file:".data v.data = true
                · exact ⟨pythonStrip (fileRead ⟨v.data.drop 5⟩),
                    by simp [resolve_password, hpre, hfile]⟩
                · exact ⟨v, by simp [resolve_password, hpre, hfile]⟩
        obtain ⟨pw, hpw⟩ := hok
        simp [resolveFleetPasswords, hpw, exceptBind_ok, heq, exceptBind_err]


/--
C9: all fleet credentials are resolved before any connection is
attempted; if any fleet credential has the form `env:NAME` with that
environment variable unset, the run aborts *before any connection* (the
event trace is empty) with a configuration error naming the missing
variable — specifically the one of the first fleet whose credential
fails to resolve.
-/
theorem env_credential_missing_aborts (w : World)
    (env : String → Option String) (fileRead : String → String)
    (prompt : String → String) (gw : Gateway) (fleets : List Fleet)
    (args : Args)
    (h : ∃ f ∈ fleets, ∃ v, f.password = some v ∧
      isPrefixB "env:".data v.data = true ∧ env ⟨v.data.drop 4⟩ = none) :
    ∃ f' v', f' ∈ fleets ∧ f'.password = some v' ∧
      isPrefixB "env:".data v'.data = true ∧ env ⟨v'.data.drop 4⟩ = none ∧
      mainRun w env fileRead prompt gw fleets args =
        ([], .configError ("環境変数 " ++ String.mk (v'.data.drop 4) ++
          " が未設定です（" ++ pwPromptLabel f' ++ "）")) := by
  obtain ⟨f', v', hmem, hp, hpre, henv, heq⟩ :=
    resolveFleetPasswords_env_missing env fileRead prompt fleets h
  exact ⟨f', v', hmem, hp, hpre, henv, by simp [mainRun, heq]⟩


/-- Witness for `env_credential_missing_aborts` on the MYPASS
scenario. -/
theorem env_credential_missing_aborts_witness :
    ∃ f' v', f' ∈ [fleetEnvPw] ∧ f'.password = some v' ∧
      isPrefixB "env:".data v'.data = true ∧
      envEmpty ⟨v'.data.drop 4⟩ = none ∧
      mainRun wOk envEmpty (fun _ => "") (fun _ => "pw") gwT [fleetEnvPw]
        ⟨true, false⟩ =
        ([], .configError ("環境変数 " ++ String.mk (v'.data.drop 4) ++
          " が未設定です（" ++ pwPromptLabel f' ++ "）")) :=
  env_credential_missing_aborts wOk envEmpty (fun _ => "") (fun _ => "pw")
    gwT [fleetEnvPw] ⟨true, false⟩
    ⟨fleetEnvPw, List.mem_cons_self _ _, "env:MYPASS", rfl, by decide, rfl⟩


/--
C10: if the advisory pre-check diagnosis of node `j` of fleet `fi`
itself raises (trace event `diagEv .precheck fi j node false`) and the
follow-up diagnosis of the `except` handler returns (trace event
`diagEv .nodeFail fi j node true` — the claim's "second diagnosis
attempt"), then the connection to that node is never attempted, the node
is nevertheless recorded as a connection-failure Issue (stage
`"node"`), and — when not in dry-run and not in non-strict mode — the
fleet is marked `parent_skip`, observably: its host's `shutdown_host`
is never invoked.
-/
theorem precheck_exception_is_connect_failure (w : World) (gw : Gateway)
    (fleets : List Fleet) (args : Args) (fi j : Nat) (node : String)
    (hpre : Ev.diagEv .precheck fi j node false ∈ (runMain w gw fleets args).1)
    (hnf : Ev.diagEv .nodeFail fi j node true ∈ (runMain w gw fleets args).1) :
    (∀ nd, Ev.connectAttempt (Sess.node fi j nd) ∉ (runMain w gw fleets args).1) ∧
    (∃ iss, Ev.issueEv iss ∈ (runMain w gw fleets args).1 ∧
      iss.stage = "node" ∧ iss.target = node) ∧
    (args.dryRun = false → args.nonStrict = false →
      ∀ nm tag dr, Ev.shutdownCall (Sess.fleet fi nm) tag dr ∉
        (runMain w gw fleets args).1) := by
  cases hg : w.connect 0 gw.host with
  | error e =>
      exfalso
      simp [runMain, hg] at hpre
  | ok u =>
      have hdiagloc : ∀ (site : DiagSite) (okb : Bool),
          Ev.diagEv site fi j node okb ∈ (runMain w gw fleets args).1 →
          Ev.diagEv site fi j node okb ∈
            (runFleets w args fleets 0 ⟨1, 0, 0, 0⟩).evs := by
        intro site okb hmem
        exact runMain_mem_fleets w gw fleets args u hg _ (by simp) (by simp)
          (by simp) (fun d => by simp) (fun cc2 => by simp)
          (fun e2 => by simp) hmem
      have hpre2 := hdiagloc .precheck false hpre
      have hnf2 := hdiagloc .nodeFail true hnf
      refine ⟨?_, ?_, ?_⟩
      · intro nd hatt
        have hatt2 : Ev.connectAttempt (Sess.node fi j nd) ∈
            (runFleets w args fleets 0 ⟨1, 0, 0, 0⟩).evs :=
          runMain_mem_fleets w gw fleets args u hg _ (by simp) (by simp)
            (by simp) (fun d => by simp) (fun cc2 => by simp)
            (fun e2 => by simp) hatt
        exact runFleets_precheck_no_attempt w args fleets 0 ⟨1, 0, 0, 0⟩ fi j
          node nd hpre2 hatt2
      · obtain ⟨iss, hiss, hst, htg⟩ := runFleets_nodeFail_issue w args fleets
          0 ⟨1, 0, 0, 0⟩ fi j node hnf2
        refine ⟨iss, ?_, hst, htg⟩
        obtain ⟨tail, htr, htl⟩ := runMain_decomp w gw fleets args u hg
        rw [htr]
        simp [List.mem_append, hiss]
      · intro hdry hstrict nm tag dr hmem
        have hmem2 : Ev.shutdownCall (Sess.fleet fi nm) tag dr ∈
            (runFleets w args fleets 0 ⟨1, 0, 0, 0⟩).evs :=
          runMain_mem_fleets w gw fleets args u hg _ (by simp) (by simp)
            (by simp) (fun d => by simp) (fun cc2 => by simp)
            (fun e2 => by simp) hmem
        exact runFleets_trigger w args hdry hstrict fleets 0 ⟨1, 0, 0, 0⟩ fi
          (Or.inr (Or.inr ⟨j, node, hnf2⟩)) nm tag dr hmem2


/-- Witness for `precheck_exception_is_connect_failure` on the concrete
pre-check-raising run. -/
theorem precheck_exception_is_connect_failure_witness :
    Ev.connectAttempt (Sess.node 0 0 "n1") ∉
      (runMain wPreRaise gwT [fleetWs1] ⟨false, false⟩).1 ∧
    (∃ iss, Ev.issueEv iss ∈
        (runMain wPreRaise gwT [fleetWs1] ⟨false, false⟩).1 ∧
      iss.stage = "node" ∧ iss.target = "n1") ∧
    Ev.shutdownCall (Sess.fleet 0 "ws1") "ws1" false ∉
      (runMain wPreRaise gwT [fleetWs1] ⟨false, false⟩).1 :=
  ⟨(precheck_exception_is_connect_failure wPreRaise gwT [fleetWs1]
      ⟨false, false⟩ 0 0 "n1" (by decide) (by decide)).1 "n1",
   (precheck_exception_is_connect_failure wPreRaise gwT [fleetWs1]
      ⟨false, false⟩ 0 0 "n1" (by decide) (by decide)).2.1,
   (precheck_exception_is_connect_failure wPreRaise gwT [fleetWs1]
      ⟨false, false⟩ 0 0 "n1" (by decide) (by decide)).2.2 rfl rfl "ws1"
     "ws1" false⟩
